import Mathlib

/-!
# Branch predictor (`src/predictor.c`): shallow embedding and verified properties

The C translation unit keeps all predictor state in file-level globals.  The
embedding gathers them in one record `State` and turns every C function into a
pure function on that record.

Conventions of the embedding

* C arrays (`bht_gshare`, `localPHT`, `tageBank[i].entry`, ...) are total maps
  `Nat → α` from cell index to cell content.
* `uint8_t`, `uint16_t`, `uint32_t` values are `Nat`; a wrap-around `% 2^w` is
  written where the C operation can leave the width.
* `int8_t` values are `Int`; the conversion to `int8_t` is `toInt8`.
* `rand()` is an input of `tage_train` (field `rand` of `Env`).
* A C expression without defined value (array read outside the array, shift by
  a negative amount) evaluates to a value chosen by the environment (field
  `undef` of `Env`); theorems quantify over every such choice.
-/

namespace Predictor

/-! ## Constants of `predictor.h` -/

/-- Modelled from the spec: the header `predictor.h` is absent; outcome
`NOTTAKEN` is 0. -/
def NOTTAKEN : Nat := 0
/-- Modelled from the spec: the header `predictor.h` is absent; outcome `TAKEN`
is 1. -/
def TAKEN : Nat := 1
/-- Modelled from the spec: 2-bit counter state strongly-not-taken
(`predictor.c` line 40: `SN=0, WN=1, WT=2, ST=3`). -/
def SN : Nat := 0
/-- Modelled from the spec: 2-bit counter state weakly-not-taken, 1. -/
def WN : Nat := 1
/-- Modelled from the spec: 2-bit counter state weakly-taken, 2. -/
def WT : Nat := 2
/-- Modelled from the spec: 2-bit counter state strongly-taken, 3. -/
def ST : Nat := 3
/-- Modelled from the spec: predictor kind `STATIC` of the absent header
(position 0 of `bpName`). -/
def STATIC : Nat := 0
/-- Modelled from the spec: predictor kind `GSHARE` (position 1 of `bpName`). -/
def GSHARE : Nat := 1
/-- Modelled from the spec: predictor kind `TOURNAMENT` (position 2 of
`bpName`). -/
def TOURNAMENT : Nat := 2
/-- Modelled from the spec: predictor kind `CUSTOM` (position 3 of `bpName`). -/
def CUSTOM : Nat := 3

def BIMODAL_SIZE : Nat := 4099
def LEN_BIMODAL : Nat := 2
def NUM_BANKS : Nat := 7
def LEN_GLOBAL : Nat := 9
def LEN_TAG : Nat := 10
def LEN_COUNTS : Nat := 3
def MAX_HISTORY_LEN : Nat := 131

/-- The table `GEOMETRICS[NUM_BANKS] = {130, 76, 44, 26, 15, 9, 5}`. -/
def GEOMETRICS (i : Nat) : Nat :=
  match i with
  | 0 => 130
  | 1 => 76
  | 2 => 44
  | 3 => 26
  | 4 => 15
  | 5 => 9
  | 6 => 5
  | _ => 0

/-! ## Machine-integer helpers -/

/-- Conversion of an integer to `int8_t` (two's complement wrap). -/
def toInt8 (x : Int) : Int :=
  if x % 256 < 128 then x % 256 else x % 256 - 256

/-- Write `v` into cell `i` of an array. -/
def setAt {α : Type} (t : Nat → α) (i : Nat) (v : α) : Nat → α :=
  fun j => if j = i then v else t j

/-! ## Data structures -/

/-- The C struct `BankEntry`. -/
structure BankEntry where
  saturateCounter : Int
  tag : Nat
  usefulness : Int

/-- The C struct `CompressedHistory`; the two lengths are `int8_t`. -/
structure CompressedHistory where
  geometryLength : Int
  targetLength : Int
  compressed : Nat

/-- The C struct `Bank`; `tagCompressed[0]` and `tagCompressed[1]` are the two
fields `tagCompressed0` and `tagCompressed1`. -/
structure Bank where
  geometry : Nat
  entry : Nat → BankEntry
  indexCompressed : CompressedHistory
  tagCompressed0 : CompressedHistory
  tagCompressed1 : CompressedHistory

/-- All file-level variables of `predictor.c`. -/
structure State where
  ghistoryBits : Nat
  lhistoryBits : Nat
  pcIndexBits : Nat
  bpType : Nat
  ghistory_g : Nat
  bht_gshare : Nat → Nat
  localBHT : Nat → Nat
  localPHT : Nat → Nat
  globalBHT : Nat → Nat
  choicePT : Nat → Nat
  globalhistory_t : Nat
  localOutcome : Nat
  globalOutcome : Nat
  t_bimodalPredictor : Nat → Int
  tageBank : Nat → Bank
  t_globalHistory : Nat → Nat
  t_pathHistory : Nat
  primaryBank : Nat
  alternateBank : Nat
  primaryPrediction : Nat
  alternatePrediction : Nat
  lastPrediction : Nat
  useAlternate : Int
  bankGlobalIndex : Nat → Nat
  tagResult : Nat → Nat

/-- Inputs of one `train_predictor` call that come from outside the program
text: the value returned by `rand()`, and, for bank `i` and compression
register `r` (0 index, 1 and 2 the two tag registers), the value of the term
`global[h->geometryLength] << (h->geometryLength % h->targetLength)` when C
gives it none. -/
structure Env where
  rand : Nat
  undef : Nat → Nat → Nat

/-! ## Saturating counters -/

/-- The C function `shift_prediction` on the pointed-to counter. -/
def shift_prediction (c : Nat) (outcome : Nat) : Nat :=
  if outcome = TAKEN then
    if c < ST then c + 1 else c
  else
    if c > SN then c - 1 else c

/-- The C function `updateSaturate` on the pointed-to `int8_t`. -/
def updateSaturate (saturate : Int) (taken : Nat) (nbits : Nat) : Int :=
  if taken ≠ 0 then
    if saturate < ((1 <<< (nbits - 1) : Nat) : Int) - 1 then toInt8 (saturate + 1) else saturate
  else
    if saturate > -((1 <<< (nbits - 1) : Nat) : Int) then toInt8 (saturate - 1) else saturate

/-- The C function `updateSaturateMinMax` on the pointed-to `int8_t`. -/
def updateSaturateMinMax (saturate : Int) (taken : Nat) (min max : Int) : Int :=
  if taken ≠ 0 then
    if saturate < max then toInt8 (saturate + 1) else saturate
  else
    if saturate > min then toInt8 (saturate - 1) else saturate

/-! ## Gshare -/

/-- The expression `(1 << ghistoryBits) - 1` (and its siblings), for widths up
to 30 as `int`, then stored in a `uint32_t`. -/
def maskOf (bits : Nat) : Nat := (1 <<< bits) - 1

/-- The table index shared by `gshare_predict` and `train_gshare`. -/
def gshare_index (s : State) (pc : Nat) : Nat :=
  let mask := maskOf s.ghistoryBits
  (pc &&& mask) ^^^ (s.ghistory_g &&& mask)

/-- The C function `gshare_predict`. -/
def gshare_predict (s : State) (pc : Nat) : Nat :=
  let state := s.bht_gshare (gshare_index s pc)
  if state = SN ∨ state = WN then NOTTAKEN else TAKEN

/-- The C function `train_gshare`. -/
def train_gshare (s : State) (pc : Nat) (outcome : Nat) : State :=
  let mask := maskOf s.ghistoryBits
  let index := gshare_index s pc
  { s with
    bht_gshare := setAt s.bht_gshare index (shift_prediction (s.bht_gshare index) outcome)
    ghistory_g := (((s.ghistory_g <<< 1) % 2 ^ 32) ||| outcome) &&& mask }

/-! ## Tournament -/

/-- The C function `tournament_init`. -/
def tournament_init (s : State) : State :=
  { s with
    localBHT := fun _ => WN
    localPHT := fun _ => 0
    choicePT := fun _ => WN
    globalBHT := fun _ => WN
    globalhistory_t := 0 }

/-- Index into `localBHT` used by `get_local_prediction` and
`tournament_update`: the `uint16_t lhist`. -/
def local_index (s : State) (pc : Nat) : Nat :=
  let phtIndex := pc &&& maskOf s.pcIndexBits
  (s.localPHT phtIndex &&& maskOf s.lhistoryBits) % 2 ^ 16

/-- The C function `get_local_prediction`: caches and returns `localOutcome`. -/
def get_local_prediction (s : State) (pc : Nat) : State × Nat :=
  let lPred := s.localBHT (local_index s pc)
  let r := if lPred = SN ∨ lPred = WN then NOTTAKEN else TAKEN
  ({ s with localOutcome := r }, r)

/-- The C function `get_global_prediction`: caches and returns
`globalOutcome`. -/
def get_global_prediction (s : State) (_pc : Nat) : State × Nat :=
  let mask := maskOf s.ghistoryBits
  let gIdx := s.globalhistory_t &&& mask
  let gPred := s.globalBHT gIdx
  let r := if gPred = SN ∨ gPred = WN then NOTTAKEN else TAKEN
  ({ s with globalOutcome := r }, r)

/-- The C function `get_tournament_prediction`. -/
def get_tournament_prediction (s : State) (pc : Nat) : State × Nat :=
  let mask := maskOf s.ghistoryBits
  let cIndex := s.globalhistory_t &&& mask
  let choice := s.choicePT cIndex
  let s1 := (get_global_prediction s pc).1
  let s2 := (get_local_prediction s1 pc).1
  if choice = SN ∨ choice = WN then (s2, s2.globalOutcome) else (s2, s2.localOutcome)

/-- The C function `tournament_update`. -/
def tournament_update (s : State) (pc : Nat) (outcome : Nat) : State :=
  let mask := maskOf s.ghistoryBits
  let cIndex := s.globalhistory_t &&& mask
  let choicePT :=
    if s.localOutcome ≠ s.globalOutcome then
      if s.localOutcome = outcome then
        setAt s.choicePT cIndex (shift_prediction (s.choicePT cIndex) TAKEN)
      else if s.globalOutcome = outcome then
        setAt s.choicePT cIndex (shift_prediction (s.choicePT cIndex) NOTTAKEN)
      else s.choicePT
    else s.choicePT
  let phtIndex := pc &&& maskOf s.pcIndexBits
  let lhist := local_index s pc
  let localBHT := setAt s.localBHT lhist (shift_prediction (s.localBHT lhist) outcome)
  let lhist1 := (lhist <<< 1) % 2 ^ 16
  let lhist2 := lhist1 &&& maskOf s.lhistoryBits
  let lhist3 := lhist2 ||| outcome
  let localPHT := setAt s.localPHT phtIndex lhist3
  let gIdx := s.globalhistory_t &&& mask
  let globalBHT := setAt s.globalBHT gIdx (shift_prediction (s.globalBHT gIdx) outcome)
  { s with
    choicePT := choicePT
    localBHT := localBHT
    localPHT := localPHT
    globalBHT := globalBHT
    globalhistory_t := (((s.globalhistory_t <<< 1) % 2 ^ 32) ||| outcome) &&& mask }

/-! ## Custom predictor (TAGE) -/

/-- The C function `t_getBimodalPrediction`. -/
def t_getBimodalPrediction (s : State) (pc : Nat) : Nat :=
  let idx := pc % BIMODAL_SIZE
  let val := s.t_bimodalPredictor idx
  if val ≥ ((1 <<< (LEN_BIMODAL - 1) : Nat) : Int) then TAKEN else NOTTAKEN

/-- The C function `t_updateCompressed`.  The term
`global[h->geometryLength] << (h->geometryLength % h->targetLength)` has a value
in C only when the index lies inside the array and the shift amount is not
negative; otherwise the environment value `u` stands for it. -/
def t_updateCompressed (h : CompressedHistory) (global : Nat → Nat) (u : Nat) :
    CompressedHistory :=
  let newC := ((h.compressed <<< 1) + global 0) % 2 ^ 32
  let sh := Int.tmod h.geometryLength h.targetLength
  let term :=
    if 0 ≤ h.geometryLength ∧ h.geometryLength < (MAX_HISTORY_LEN : Int) ∧ 0 ≤ sh then
      (global h.geometryLength.toNat <<< sh.toNat) % 2 ^ 32
    else u % 2 ^ 32
  let newC := newC ^^^ term
  let newC := newC ^^^ (newC >>> h.targetLength.toNat)
  let newC := newC &&& ((1 <<< h.targetLength.toNat) - 1)
  { h with compressed := newC }

/-- The expression `LEN_TAG - ((bankIndex + (NUM_BANKS & 1)) / 2)`. -/
def tagBits (bankIndex : Nat) : Nat :=
  LEN_TAG - ((bankIndex + (NUM_BANKS &&& 1)) / 2)

/-- The C function `generateGlobalEntryTag`. -/
def generateGlobalEntryTag (s : State) (pc : Nat) (bankIndex : Nat) : Nat :=
  let bitsToUse := tagBits bankIndex
  let mix := pc ^^^ (s.tageBank bankIndex).tagCompressed0.compressed
    ^^^ (((s.tageBank bankIndex).tagCompressed1.compressed <<< 1) % 2 ^ 32)
  (mix &&& ((1 <<< bitsToUse) - 1)) % 2 ^ 16

/-- The C function `F`. -/
def F (A : Nat) (size : Nat) (bank : Nat) : Nat :=
  let A := A &&& ((1 <<< size) - 1)
  let A1 := A &&& ((1 <<< LEN_GLOBAL) - 1)
  let A2 := A >>> LEN_GLOBAL
  let A2 := ((A2 <<< bank) &&& ((1 <<< LEN_GLOBAL) - 1)) + (A2 >>> (LEN_GLOBAL - bank))
  let A := A1 ^^^ A2
  let A := ((A <<< bank) &&& ((1 <<< LEN_GLOBAL) - 1)) + (A >>> (LEN_GLOBAL - bank))
  A

/-- The C function `getGlobalIndex`. -/
def getGlobalIndex (s : State) (pc : Nat) (bankIdx : Nat) : Nat :=
  let geometry := (s.tageBank bankIdx).geometry
  let index :=
    if geometry ≥ 16 then
      pc
        ^^^ (pc >>> (LEN_GLOBAL - (NUM_BANKS - bankIdx - 1)))
        ^^^ (s.tageBank bankIdx).indexCompressed.compressed
        ^^^ F s.t_pathHistory 16 bankIdx
    else
      pc
        ^^^ (pc >>> (LEN_GLOBAL - NUM_BANKS + bankIdx + 1))
        ^^^ (s.tageBank bankIdx).indexCompressed.compressed
        ^^^ F s.t_pathHistory geometry bankIdx
  index &&& ((1 <<< LEN_GLOBAL) - 1)

/-- Bank `i` as `tage_init` leaves it; cells of `entry` at and above
`1 << LEN_GLOBAL` are outside the array and keep what `old` holds. -/
def initBank (old : Bank) (i : Nat) : Bank :=
  { geometry := GEOMETRICS i
    indexCompressed :=
      { compressed := 0
        geometryLength := toInt8 (GEOMETRICS i)
        targetLength := (LEN_GLOBAL : Int) }
    tagCompressed0 :=
      { compressed := 0
        geometryLength := toInt8 (GEOMETRICS i)
        targetLength := toInt8 ((LEN_TAG : Int) - (((i + (NUM_BANKS &&& 1)) / 2 : Nat) : Int)) }
    tagCompressed1 :=
      { compressed := 0
        geometryLength := toInt8 (GEOMETRICS i)
        targetLength :=
          toInt8 ((LEN_TAG : Int) - (((i + (NUM_BANKS &&& 1)) / 2 : Nat) : Int) - 1) }
    entry := fun j =>
      if j < 1 <<< LEN_GLOBAL then { saturateCounter := 0, tag := 0, usefulness := 0 }
      else old.entry j }

/-- The C function `tage_init` (the call `srand(time(NULL))` seeds the random
source, which is an input here).  `bankGlobalIndex` and `tagResult` are not
assigned. -/
def tage_init (s : State) : State :=
  { s with
    t_bimodalPredictor := fun i =>
      if i < BIMODAL_SIZE then ((1 <<< (LEN_BIMODAL - 1) : Nat) : Int) - 1
      else s.t_bimodalPredictor i
    tageBank := fun i => if i < NUM_BANKS then initBank (s.tageBank i) i else s.tageBank i
    t_globalHistory := fun i => if i < MAX_HISTORY_LEN then 0 else s.t_globalHistory i
    t_pathHistory := 0
    useAlternate := 8
    primaryBank := NUM_BANKS
    alternateBank := NUM_BANKS
    primaryPrediction := NOTTAKEN
    alternatePrediction := NOTTAKEN
    lastPrediction := NOTTAKEN }

/-- The test `tageBank[i].entry[bankGlobalIndex[i]].tag == tagResult[i]`. -/
def tagHit (s : State) (i : Nat) : Bool :=
  ((s.tageBank i).entry (s.bankGlobalIndex i)).tag == s.tagResult i

/-- The loop `for (i = start; i < NUM_BANKS; i++) if (hit i) { bank = i; break; }`
run with `bank` preset to `NUM_BANKS`; `n` is the number of iterations left,
`NUM_BANKS - i`. -/
def findBank (hit : Nat → Bool) : Nat → Nat → Nat
  | 0, _ => NUM_BANKS
  | n + 1, i => if hit i then i else findBank hit n (i + 1)

/-- Sign of a bank counter as a prediction: `(ctr >= 0) ? TAKEN : NOTTAKEN`. -/
def ctrPrediction (ctr : Int) : Nat :=
  if ctr ≥ 0 then TAKEN else NOTTAKEN

/-- First loop of `tage_predict`: the candidate tag and index of every bank. -/
def tage_candidates (s : State) (pc : Nat) : State :=
  { s with
    tagResult := fun i => if i < NUM_BANKS then generateGlobalEntryTag s pc i else s.tagResult i
    bankGlobalIndex := fun i =>
      if i < NUM_BANKS then getGlobalIndex s pc i else s.bankGlobalIndex i }

/-- Second and third loop of `tage_predict`: primary and alternate bank. -/
def tage_lookup (s : State) (pc : Nat) : State :=
  let s1 := tage_candidates s pc
  let primaryBank := findBank (tagHit s1) (NUM_BANKS - 0) 0
  let alternateBank := findBank (tagHit s1) (NUM_BANKS - (primaryBank + 1)) (primaryBank + 1)
  { s1 with primaryBank := primaryBank, alternateBank := alternateBank }

/-- The C function `tage_predict`: the new state and the returned prediction. -/
def tage_predict (s : State) (pc : Nat) : State × Nat :=
  let s2 := tage_lookup s pc
  if s2.primaryBank < NUM_BANKS then
    let alternatePrediction :=
      if s2.alternateBank < NUM_BANKS then
        let altCtr :=
          ((s2.tageBank s2.alternateBank).entry
            (s2.bankGlobalIndex s2.alternateBank)).saturateCounter
        ctrPrediction altCtr
      else t_getBimodalPrediction s2 pc
    let pCtr :=
      ((s2.tageBank s2.primaryBank).entry (s2.bankGlobalIndex s2.primaryBank)).saturateCounter
    let pU := ((s2.tageBank s2.primaryBank).entry (s2.bankGlobalIndex s2.primaryBank)).usefulness
    let lastPrediction :=
      if (pCtr ≠ 0 ∧ pCtr ≠ -1) ∨ pU ≠ 0 ∨ s2.useAlternate < 8 then ctrPrediction pCtr
      else alternatePrediction
    ({ s2 with alternatePrediction := alternatePrediction, lastPrediction := lastPrediction },
      lastPrediction)
  else
    let alternatePrediction := t_getBimodalPrediction s2 pc
    ({ s2 with alternatePrediction := alternatePrediction, lastPrediction := alternatePrediction },
      alternatePrediction)

/-- Replace `tageBank[i].entry[j]` by `f` of its content. -/
def modifyEntry (banks : Nat → Bank) (i j : Nat) (f : BankEntry → BankEntry) : Nat → Bank :=
  setAt banks i { banks i with entry := setAt (banks i).entry j (f ((banks i).entry j)) }

/-- Decision `needAllocate` of `tage_train` (step 1). -/
def needAllocate (s : State) (outcome : Nat) : Bool :=
  if s.primaryBank < NUM_BANKS then
    let pCtr := ((s.tageBank s.primaryBank).entry (s.bankGlobalIndex s.primaryBank)).saturateCounter
    decide (s.lastPrediction ≠ outcome ∧ (if pCtr ≥ 0 then 1 else 0) ≠ outcome)
  else
    decide (s.lastPrediction ≠ outcome)

/-- The loop `for (i = 0; i < primaryBank; i++) { u = ...; if (u < minUse) minUse = u; }`
with `minUse` preset to 127: the value of `minUse` after the first `n`
iterations. -/
def minUseLoop (banks : Nat → Bank) (idx : Nat → Nat) : Nat → Int
  | 0 => 127
  | n + 1 =>
    let minUse := minUseLoop banks idx n
    let u := ((banks n).entry (idx n)).usefulness
    if u < minUse then u else minUse

/-- The loop `for (i = primaryBank - 1; i >= 0; i--) usefulness--`; the argument
is `i + 1`. -/
def decayLoop (idx : Nat → Nat) : Nat → (Nat → Bank) → (Nat → Bank)
  | 0, banks => banks
  | i + 1, banks =>
    decayLoop idx i
      (modifyEntry banks i (idx i) (fun e => { e with usefulness := toInt8 (e.usefulness - 1) }))

/-- The loop `while ((Y & 1) != 0) { X--; Y >>= 1; if (X < 0) break; }` started
with `X ≥ 0`: the final value of `X`. -/
def bankWalk : Nat → Nat → Int
  | 0, Y => if Y &&& 1 ≠ 0 then -1 else 0
  | X + 1, Y => if Y &&& 1 ≠ 0 then bankWalk X (Y >>> 1) else ((X + 1 : Nat) : Int)

/-- The loop `for (i = X; i >= 0; i--) if (usefulness == minUse) { overwrite; break; }`;
the argument is `i + 1`.  The tag registers read by `generateGlobalEntryTag`
are those of `s`, which the loop does not write. -/
def allocLoop (s : State) (pc outcome : Nat) (minUse : Int) : Nat → (Nat → Bank)
  | 0 => s.tageBank
  | i + 1 =>
    if ((s.tageBank i).entry (s.bankGlobalIndex i)).usefulness = minUse then
      modifyEntry s.tageBank i (s.bankGlobalIndex i) (fun _ =>
        { tag := generateGlobalEntryTag s pc i
          saturateCounter := if outcome = TAKEN then 0 else -1
          usefulness := 0 })
    else allocLoop s pc outcome minUse i

/-- Step 2 of `tage_train`, the body of `if (needAllocate)`: the banks after
it.  With `primaryBank = 0` the first loop leaves `minUse = 127`, so the
replacement branch, whose `1 << (primaryBank - 1)` has no value then, is not
taken; the model gives it `X = -1`. -/
def allocate (s : State) (pc outcome : Nat) (rnd : Nat) : Nat → Bank :=
  let minUse := minUseLoop s.tageBank s.bankGlobalIndex s.primaryBank
  if minUse > 0 then
    decayLoop s.bankGlobalIndex s.primaryBank s.tageBank
  else
    let Y := rnd &&& ((1 <<< (s.primaryBank - 1)) - 1)
    let X : Int :=
      match s.primaryBank with
      | 0 => -1
      | p + 1 => bankWalk p Y
    allocLoop s pc outcome minUse (X + 1).toNat

/-- The loop `for (i = MAX_HISTORY_LEN - 1; i > 0; i--) g[i] = g[i - 1]`; the
first argument is the current `i`. -/
def shiftHistory : Nat → (Nat → Nat) → (Nat → Nat)
  | 0, g => g
  | i + 1, g => shiftHistory i (setAt g (i + 1) (g i))

/-- Steps 1 and 2 of `tage_train`: the banks after the allocation block. -/
def trainAllocate (s : State) (pc outcome : Nat) (rnd : Nat) : Nat → Bank :=
  if needAllocate s outcome then allocate s pc outcome rnd else s.tageBank

/-- Step 3 of `tage_train`, bank part: `updateSaturate` on the primary entry. -/
def trainCounter (s : State) (outcome : Nat) (banks : Nat → Bank) : Nat → Bank :=
  if s.primaryBank < NUM_BANKS then
    modifyEntry banks s.primaryBank (s.bankGlobalIndex s.primaryBank) (fun e =>
      { e with saturateCounter := updateSaturate e.saturateCounter outcome LEN_COUNTS })
  else banks

/-- Step 3 of `tage_train`, bimodal part. -/
def trainBimodal (s : State) (pc outcome : Nat) : Nat → Int :=
  if s.primaryBank < NUM_BANKS then s.t_bimodalPredictor
  else
    let idx := pc % BIMODAL_SIZE
    setAt s.t_bimodalPredictor idx
      (updateSaturateMinMax (s.t_bimodalPredictor idx) outcome 0
        (((1 <<< LEN_BIMODAL : Nat) : Int) - 1))

/-- Step 4 of `tage_train`: usefulness of the primary entry. -/
def trainUseful (s : State) (outcome : Nat) (banks : Nat → Bank) : Nat → Bank :=
  if s.lastPrediction ≠ s.alternatePrediction then
    if s.primaryBank < NUM_BANKS then
      modifyEntry banks s.primaryBank (s.bankGlobalIndex s.primaryBank) (fun e =>
        { e with usefulness :=
            updateSaturateMinMax e.usefulness (if s.lastPrediction = outcome then 1 else 0) 0 3 })
    else banks
  else banks

/-- Step 5 of `tage_train`, global history. -/
def trainHistory (s : State) (outcome : Nat) : Nat → Nat :=
  setAt (shiftHistory (MAX_HISTORY_LEN - 1) s.t_globalHistory) 0
    (if outcome ≠ 0 then TAKEN else NOTTAKEN)

/-- Step 5 of `tage_train`, path history. -/
def trainPath (s : State) (pc : Nat) : Nat :=
  ((((s.t_pathHistory <<< 1) % 2 ^ 32) + (pc &&& 1)) % 2 ^ 32) &&& ((1 <<< 16) - 1)

/-- Step 6 of `tage_train`: the three compressed registers of every bank. -/
def trainCompressed (banks : Nat → Bank) (hist : Nat → Nat) (env : Env) : Nat → Bank :=
  fun i =>
    if i < NUM_BANKS then
      { banks i with
        indexCompressed := t_updateCompressed (banks i).indexCompressed hist (env.undef i 0)
        tagCompressed0 := t_updateCompressed (banks i).tagCompressed0 hist (env.undef i 1)
        tagCompressed1 := t_updateCompressed (banks i).tagCompressed1 hist (env.undef i 2) }
    else banks i

/-- The C function `tage_train`. -/
def tage_train (s : State) (pc : Nat) (outcome : Nat) (env : Env) : State :=
  let banks2 := trainAllocate s pc outcome env.rand
  let banks3 := trainCounter s outcome banks2
  let banks4 := trainUseful s outcome banks3
  let hist := trainHistory s outcome
  { s with
    tageBank := trainCompressed banks4 hist env
    t_bimodalPredictor := trainBimodal s pc outcome
    t_globalHistory := hist
    t_pathHistory := trainPath s pc }

/-! ## Facade -/

/-- The C function `init_predictor` (the call of `print_memory_usage`, which
only prints, is left out). -/
def init_predictor (s : State) : State :=
  if s.bpType = STATIC then s
  else if s.bpType = GSHARE then
    { s with ghistory_g := 0, bht_gshare := fun _ => WN }
  else if s.bpType = TOURNAMENT then tournament_init s
  else if s.bpType = CUSTOM then tage_init s
  else s

/-- The C function `make_prediction`: the new state and the returned
prediction. -/
def make_prediction (s : State) (pc : Nat) : State × Nat :=
  if s.bpType = STATIC then (s, TAKEN)
  else if s.bpType = GSHARE then (s, gshare_predict s pc)
  else if s.bpType = TOURNAMENT then get_tournament_prediction s pc
  else if s.bpType = CUSTOM then tage_predict s pc
  else (s, NOTTAKEN)

/-- The C function `train_predictor`. -/
def train_predictor (s : State) (pc : Nat) (outcome : Nat) (env : Env) : State :=
  if s.bpType = STATIC then s
  else if s.bpType = GSHARE then train_gshare s pc outcome
  else if s.bpType = TOURNAMENT then tournament_update s pc outcome
  else if s.bpType = CUSTOM then tage_train s pc outcome env
  else s

/-- Bank `i` matches address `pc` in state `s`: the tag stored at its candidate
index equals its candidate tag (the test of the two scan loops of
`tage_predict`, on the state before the call). -/
def tagMatch (s : State) (pc : Nat) (i : Nat) : Prop :=
  ((s.tageBank i).entry (getGlobalIndex s pc i)).tag = generateGlobalEntryTag s pc i

instance (s : State) (pc i : Nat) : Decidable (tagMatch s pc i) := by
  unfold tagMatch; infer_instance

/-- All statics as the C runtime sets them before `main` (zero), with the four
configuration variables as given by the caller. -/
def startState (bpType ghistoryBits lhistoryBits pcIndexBits : Nat) : State :=
  { ghistoryBits := ghistoryBits
    lhistoryBits := lhistoryBits
    pcIndexBits := pcIndexBits
    bpType := bpType
    ghistory_g := 0
    bht_gshare := fun _ => 0
    localBHT := fun _ => 0
    localPHT := fun _ => 0
    globalBHT := fun _ => 0
    choicePT := fun _ => 0
    globalhistory_t := 0
    localOutcome := 0
    globalOutcome := 0
    t_bimodalPredictor := fun _ => 0
    tageBank := fun _ =>
      { geometry := 0
        entry := fun _ => { saturateCounter := 0, tag := 0, usefulness := 0 }
        indexCompressed := { geometryLength := 0, targetLength := 0, compressed := 0 }
        tagCompressed0 := { geometryLength := 0, targetLength := 0, compressed := 0 }
        tagCompressed1 := { geometryLength := 0, targetLength := 0, compressed := 0 } }
    t_globalHistory := fun _ => 0
    t_pathHistory := 0
    primaryBank := 0
    alternateBank := 0
    primaryPrediction := 0
    alternatePrediction := 0
    lastPrediction := 0
    useAlternate := 0
    bankGlobalIndex := fun _ => 0
    tagResult := fun _ => 0 }

/-- Modelled from the spec: the trace driver is absent from the sources; for
each resolved branch the caller calls `predict(address)` and then
`train(address, outcome)`.  Returns the final state and the predictions in
order. -/
def runTrace (s : State) : List (Nat × Nat × Env) → State × List Nat
  | [] => (s, [])
  | (pc, outcome, env) :: rest =>
    let r := make_prediction s pc
    let s2 := train_predictor r.1 pc outcome env
    let rs := runTrace s2 rest
    (rs.1, r.2 :: rs.2)

/-- A Custom state for address 1: freshly initialised tables (all candidate
indices and tags for address 1 are 1) in which bank 0 holds usefulness 2 and a
foreign tag at cell 1, and bank 1 holds the tag 1 with counter -1 at cell 1. -/
def agingExample : State :=
  { tage_init (startState CUSTOM 0 0 0) with
    tageBank :=
      modifyEntry
        (modifyEntry (tage_init (startState CUSTOM 0 0 0)).tageBank 0 1
          (fun e => { e with usefulness := 2 }))
        1 1 (fun _ => { tag := 1, saturateCounter := -1, usefulness := 0 }) }

/-- States reachable from `init_predictor` (run on any prior content of the
globals) by `make_prediction` and `train_predictor` calls with 32-bit
addresses, outcomes 0 or 1, and arbitrary environment values. -/
inductive Reachable : State → Prop
  | init (s0 : State) : Reachable (init_predictor s0)
  | predict (s : State) (pc : Nat) :
      Reachable s → pc < 2 ^ 32 → Reachable (make_prediction s pc).1
  | train (s : State) (pc outcome : Nat) (env : Env) :
      Reachable s → pc < 2 ^ 32 → (outcome = NOTTAKEN ∨ outcome = TAKEN) →
      Reachable (train_predictor s pc outcome env)

/-- Declared range of the two counters of a bank entry: prediction counter in
`[-4, 3]` (3 bits, signed), usefulness in `[0, 3]`. -/
def EntryInRange (e : BankEntry) : Prop :=
  -4 ≤ e.saturateCounter ∧ e.saturateCounter ≤ 3 ∧ 0 ≤ e.usefulness ∧ e.usefulness ≤ 3

/-- Every entry of the 7 banks of 512 entries is in range. -/
def BanksInRange (banks : Nat → Bank) : Prop :=
  ∀ b, b < NUM_BANKS → ∀ j, j < 1 <<< LEN_GLOBAL → EntryInRange ((banks b).entry j)

/-- Every saturating counter of the configured predictor is within its declared
range. -/
def CounterBounds (s : State) : Prop :=
  (s.bpType = GSHARE → ∀ i, s.bht_gshare i ≤ 3) ∧
  (s.bpType = TOURNAMENT →
    ∀ i, s.localBHT i ≤ 3 ∧ s.globalBHT i ≤ 3 ∧ s.choicePT i ≤ 3) ∧
  (s.bpType = CUSTOM →
    (∀ i, i < BIMODAL_SIZE → 0 ≤ s.t_bimodalPredictor i ∧ s.t_bimodalPredictor i ≤ 3) ∧
    BanksInRange s.tageBank)

/-- Step 5 of `tage_train` on the global-history array alone: shift by one
position and store the new outcome at position 0. -/
def historyStep (hist : Nat → Nat) (outcome : Nat) : Nat → Nat :=
  setAt (shiftHistory (MAX_HISTORY_LEN - 1) hist) 0 (if outcome ≠ 0 then TAKEN else NOTTAKEN)

/-- What a sequence of `tage_train` calls does to one compression register and
the global history: for each pair `(outcome, u)` the history is shifted
(step 5) and `t_updateCompressed` is applied to the register with the new
history (step 6); `u` is the environment value of that call. -/
def registerRun (h : CompressedHistory) (hist : Nat → Nat) :
    List (Nat × Nat) → CompressedHistory × (Nat → Nat)
  | [] => (h, hist)
  | (outcome, u) :: rest =>
    registerRun (t_updateCompressed h (historyStep hist outcome) u) (historyStep hist outcome) rest

/-- From the claim, not from the source: the from-scratch fold, the XOR over
`j` in `[0, L)` of `history[j]` shifted left by `j mod C`. -/
def foldHistory : Nat → Nat → (Nat → Nat) → Nat
  | 0, _, _ => 0
  | L + 1, C, hist => foldHistory L C hist ^^^ (hist L <<< (L % C))

/-- Auxiliary for the proofs: the fold with every shift amount advanced by one
position, `(j + 1) mod C`. -/
def foldShifted : Nat → Nat → (Nat → Nat) → Nat
  | 0, _, _ => 0
  | L + 1, C, hist => foldShifted L C hist ^^^ (hist L <<< ((L + 1) % C))

/-- The last two statements of `t_updateCompressed`:
`newC ^= newC >> C; newC &= (1 << C) - 1`. -/
def foldTail (C y : Nat) : Nat := (y ^^^ (y >>> C)) &&& ((1 <<< C) - 1)

/-- Two bank arrays hold the same content in the 7 banks of 512 entries:
geometry, the three compression registers and every entry. -/
def BanksAgree (a b : Nat → Bank) : Prop :=
  ∀ i, i < NUM_BANKS →
    (a i).geometry = (b i).geometry ∧
    (a i).indexCompressed = (b i).indexCompressed ∧
    (a i).tagCompressed0 = (b i).tagCompressed0 ∧
    (a i).tagCompressed1 = (b i).tagCompressed1 ∧
    ∀ j, j < 1 <<< LEN_GLOBAL → (a i).entry j = (b i).entry j

/-- Two states hold the same persistent content of the Custom predictor:
bimodal table, banks, global history (131 positions), path history and
`useAlternate`. -/
def SameCustom (s t : State) : Prop :=
  (∀ i, i < BIMODAL_SIZE → s.t_bimodalPredictor i = t.t_bimodalPredictor i) ∧
  BanksAgree s.tageBank t.tageBank ∧
  (∀ i, i < MAX_HISTORY_LEN → s.t_globalHistory i = t.t_globalHistory i) ∧
  s.t_pathHistory = t.t_pathHistory ∧
  s.useAlternate = t.useAlternate

/-- Two states hold the same configuration and the same table contents of the
configured predictor. -/
def SameTables (s t : State) : Prop :=
  s.bpType = t.bpType ∧ s.ghistoryBits = t.ghistoryBits ∧
  s.lhistoryBits = t.lhistoryBits ∧ s.pcIndexBits = t.pcIndexBits ∧
  (s.bpType = GSHARE → s.ghistory_g = t.ghistory_g ∧ s.bht_gshare = t.bht_gshare) ∧
  (s.bpType = TOURNAMENT →
    s.localBHT = t.localBHT ∧ s.localPHT = t.localPHT ∧ s.globalBHT = t.globalBHT ∧
    s.choicePT = t.choicePT ∧ s.globalhistory_t = t.globalhistory_t) ∧
  (s.bpType = CUSTOM → SameCustom s t)

/-! # Theorems -/

/-! ## Helper lemmas -/

theorem maskOf_eq (n : Nat) : maskOf n = 2 ^ n - 1 := by
  simp [maskOf, Nat.one_shiftLeft]

theorem and_maskOf_lt (x n : Nat) : x &&& maskOf n < 2 ^ n := by
  rw [maskOf_eq, Nat.and_pow_two_sub_one_eq_mod]
  exact Nat.mod_lt _ (Nat.two_pow_pos n)

theorem setAt_same {α : Type} (t : Nat → α) (i : Nat) (v : α) : setAt t i v i = v := by
  simp [setAt]

theorem setAt_other {α : Type} (t : Nat → α) (i j : Nat) (v : α) (h : j ≠ i) :
    setAt t i v j = t j := by
  simp [setAt, h]

/-- Dropping bits 32 and above before masking with at most 32 bits changes
nothing. -/
theorem wrap32_or_and_mask (h o n : Nat) (hn : n ≤ 32) :
    (((h <<< 1) % 2 ^ 32) ||| o) &&& (2 ^ n - 1) = ((h <<< 1) ||| o) &&& (2 ^ n - 1) := by
  apply Nat.eq_of_testBit_eq
  intro i
  simp only [Nat.testBit_and, Nat.testBit_or, Nat.testBit_mod_two_pow,
    Nat.testBit_two_pow_sub_one]
  by_cases hi : i < n
  · have h32 : i < 32 := lt_of_lt_of_le hi hn
    simp [hi, h32]
  · simp [hi]

theorem shift_prediction_le (c o : Nat) (hc : c ≤ 3) : shift_prediction c o ≤ 3 := by
  unfold shift_prediction ST SN
  split_ifs <;> omega

/-! ## Gshare -/

/-- C2: `gshare_predict` returns TAKEN exactly when the counter stored at index
`(pc AND mask) XOR (ghistory AND mask)`, `mask = 2^n - 1`, is at least 2, and
NOTTAKEN exactly when it is below 2; for every width, address and state. -/
theorem gshare_predict_taken_iff (s : State) (pc : Nat) :
    (gshare_predict s pc = TAKEN ↔
      2 ≤ s.bht_gshare ((pc &&& (2 ^ s.ghistoryBits - 1))
            ^^^ (s.ghistory_g &&& (2 ^ s.ghistoryBits - 1)))) ∧
    (gshare_predict s pc = NOTTAKEN ↔
      s.bht_gshare ((pc &&& (2 ^ s.ghistoryBits - 1))
            ^^^ (s.ghistory_g &&& (2 ^ s.ghistoryBits - 1))) < 2) := by
  unfold gshare_predict gshare_index
  simp only [maskOf_eq, SN, WN, TAKEN, NOTTAKEN]
  constructor
  · split_ifs with h
    · constructor
      · intro h0; exact absurd h0 (by decide)
      · intro h2; omega
    · constructor
      · intro _; omega
      · intro _; rfl
  · split_ifs with h
    · constructor
      · intro _; omega
      · intro _; rfl
    · constructor
      · intro h0; exact absurd h0 (by decide)
      · intro h2; omega

/-- C3: `train_gshare` moves the counter at the index read by `gshare_predict`
one saturating step (up, capped at 3, on TAKEN; down, floored at 0, on
NOTTAKEN), leaves every other counter unchanged, and sets the history to
`((history << 1) | outcome) & mask`, which is below `2^n`. -/
theorem train_gshare_effect (s : State) (pc outcome : Nat)
    (hn : s.ghistoryBits ≤ 30)
    (ho : outcome = NOTTAKEN ∨ outcome = TAKEN)
    (hc : s.bht_gshare ((pc &&& (2 ^ s.ghistoryBits - 1))
            ^^^ (s.ghistory_g &&& (2 ^ s.ghistoryBits - 1))) ≤ 3) :
    (train_gshare s pc outcome).bht_gshare
        ((pc &&& (2 ^ s.ghistoryBits - 1)) ^^^ (s.ghistory_g &&& (2 ^ s.ghistoryBits - 1)))
      = (if outcome = TAKEN then
          min (s.bht_gshare ((pc &&& (2 ^ s.ghistoryBits - 1))
            ^^^ (s.ghistory_g &&& (2 ^ s.ghistoryBits - 1))) + 1) 3
         else
          s.bht_gshare ((pc &&& (2 ^ s.ghistoryBits - 1))
            ^^^ (s.ghistory_g &&& (2 ^ s.ghistoryBits - 1))) - 1) ∧
    (∀ j, j ≠ (pc &&& (2 ^ s.ghistoryBits - 1)) ^^^ (s.ghistory_g &&& (2 ^ s.ghistoryBits - 1)) →
      (train_gshare s pc outcome).bht_gshare j = s.bht_gshare j) ∧
    (train_gshare s pc outcome).ghistory_g
      = ((s.ghistory_g <<< 1) ||| outcome) &&& (2 ^ s.ghistoryBits - 1) ∧
    (train_gshare s pc outcome).ghistory_g < 2 ^ s.ghistoryBits := by
  have hidx : gshare_index s pc
      = (pc &&& (2 ^ s.ghistoryBits - 1)) ^^^ (s.ghistory_g &&& (2 ^ s.ghistoryBits - 1)) := by
    simp [gshare_index, maskOf_eq]
  refine ⟨?_, ?_, ?_, ?_⟩
  · simp only [train_gshare, hidx, setAt_same]
    unfold shift_prediction ST SN
    rcases ho with ho | ho <;> subst ho <;> simp only [TAKEN, NOTTAKEN] <;> split_ifs <;> omega
  · intro j hj
    simp only [train_gshare, hidx]
    exact setAt_other _ _ _ _ hj
  · simp only [train_gshare, maskOf_eq]
    exact wrap32_or_and_mask _ _ _ (by omega)
  · simp only [train_gshare]
    exact and_maskOf_lt _ _

/-- Witness of C3: 2 history bits, the state after initialisation, address 5,
outcome TAKEN: counter 1 at index 1 becomes 2 and the history becomes 1. -/
theorem train_gshare_effect_witness :
    (train_gshare (init_predictor (startState GSHARE 2 0 0)) 5 TAKEN).bht_gshare 1 = 2 ∧
    (train_gshare (init_predictor (startState GSHARE 2 0 0)) 5 TAKEN).ghistory_g = 1 := by
  have h := train_gshare_effect (init_predictor (startState GSHARE 2 0 0)) 5 TAKEN
    (by decide) (Or.inr rfl) (by decide)
  exact ⟨h.1, h.2.2.1⟩

/-- C4 as stated fails: with 2 history bits, addresses `[0,0,0,0]` and outcomes
`[TAKEN, TAKEN, NOTTAKEN, TAKEN]`, the predictions after initialisation are not
`[NOTTAKEN, TAKEN, TAKEN, NOTTAKEN]`. -/
theorem gshare_scenario_counterexample :
    (runTrace (init_predictor (startState GSHARE 2 0 0))
        [(0, TAKEN, ⟨0, fun _ _ => 0⟩), (0, TAKEN, ⟨0, fun _ _ => 0⟩),
         (0, NOTTAKEN, ⟨0, fun _ _ => 0⟩), (0, TAKEN, ⟨0, fun _ _ => 0⟩)]).2
      ≠ [NOTTAKEN, TAKEN, TAKEN, NOTTAKEN] := by
  decide

/-- Two Gshare states with the same width, history and table give the same
predictions on every trace, whatever the environment values are. -/
theorem gshare_runTrace_congr (trace : List (Nat × Nat × Env)) :
    ∀ s t : State, s.bpType = GSHARE → t.bpType = GSHARE →
      s.ghistoryBits = t.ghistoryBits → s.ghistory_g = t.ghistory_g →
      s.bht_gshare = t.bht_gshare →
      (runTrace s trace).2
        = (runTrace t (trace.map (fun x => (x.1, x.2.1, (⟨0, fun _ _ => 0⟩ : Env))))).2 := by
  induction trace with
  | nil => intro s t _ _ _ _ _; rfl
  | cons x rest ih =>
    intro s t hs ht hn hh hb
    obtain ⟨pc, outcome, env⟩ := x
    have e1 : make_prediction s pc = (s, gshare_predict s pc) := by
      simp [make_prediction, hs, GSHARE, STATIC]
    have e2 : make_prediction t pc = (t, gshare_predict t pc) := by
      simp [make_prediction, ht, GSHARE, STATIC]
    have e3 : train_predictor s pc outcome env = train_gshare s pc outcome := by
      simp [train_predictor, hs, GSHARE, STATIC]
    have e4 : train_predictor t pc outcome ⟨0, fun _ _ => 0⟩ = train_gshare t pc outcome := by
      simp [train_predictor, ht, GSHARE, STATIC]
    have e5 : gshare_predict s pc = gshare_predict t pc := by
      simp [gshare_predict, gshare_index, hn, hh, hb]
    have e6 := ih (train_gshare s pc outcome) (train_gshare t pc outcome) hs ht hn
      (by simp [train_gshare, gshare_index, hn, hh, hb])
      (by simp [train_gshare, gshare_index, hn, hh, hb])
    simp only [runTrace, List.map, e1, e2, e3, e4, e5, e6]

/-- C4 amended: with 2 history bits, from any state initialised as Gshare, the
addresses `[0,0,0,0]` with outcomes `[TAKEN, TAKEN, NOTTAKEN, TAKEN]` give the
predictions `[NOTTAKEN, NOTTAKEN, NOTTAKEN, NOTTAKEN]`: the history moves the
index through the cells 0, 1, 3, 2, each still at its initial value 1. -/
theorem gshare_scenario (s0 : State) (e1 e2 e3 e4 : Env)
    (hk : s0.bpType = GSHARE) (hn : s0.ghistoryBits = 2) :
    (runTrace (init_predictor s0)
        [(0, TAKEN, e1), (0, TAKEN, e2), (0, NOTTAKEN, e3), (0, TAKEN, e4)]).2
      = [NOTTAKEN, NOTTAKEN, NOTTAKEN, NOTTAKEN] := by
  have hi : init_predictor s0 = { s0 with ghistory_g := 0, bht_gshare := fun _ => WN } := by
    simp [init_predictor, hk, GSHARE, STATIC]
  rw [gshare_runTrace_congr _ (init_predictor s0) (init_predictor (startState GSHARE 2 0 0))
    (by rw [hi]; exact hk) rfl (by rw [hi]; exact hn) (by rw [hi]; rfl) (by rw [hi]; rfl)]
  simp only [List.map]
  decide

/-- Witness of the amended C4 at the program-start state. -/
theorem gshare_scenario_witness :
    (runTrace (init_predictor (startState GSHARE 2 0 0))
        [(0, TAKEN, ⟨0, fun _ _ => 0⟩), (0, TAKEN, ⟨0, fun _ _ => 0⟩),
         (0, NOTTAKEN, ⟨0, fun _ _ => 0⟩), (0, TAKEN, ⟨0, fun _ _ => 0⟩)]).2
      = [NOTTAKEN, NOTTAKEN, NOTTAKEN, NOTTAKEN] :=
  gshare_scenario (startState GSHARE 2 0 0) _ _ _ _ rfl rfl

/-! ## Tournament -/

/-- C5 as stated fails: after initialisation (1 pc bit, 2 local-history bits,
0 global-history bits) and one training step `(0, TAKEN)`, the choice counter
read by the prediction for address 0 is 1, below 2, and the returned prediction
is TAKEN, which is the global sub-prediction and not the local one. -/
theorem tournament_selection_counterexample :
    ¬ (((runTrace (init_predictor (startState TOURNAMENT 0 2 1))
            [(0, TAKEN, ⟨0, fun _ _ => 0⟩)]).1.choicePT 0 < 2 →
        (get_tournament_prediction
            (runTrace (init_predictor (startState TOURNAMENT 0 2 1))
              [(0, TAKEN, ⟨0, fun _ _ => 0⟩)]).1 0).2
          = (get_local_prediction
            (runTrace (init_predictor (startState TOURNAMENT 0 2 1))
              [(0, TAKEN, ⟨0, fun _ _ => 0⟩)]).1 0).2)) := by
  decide

/-- C5 amended: `get_tournament_prediction` reads the choice counter at index
`globalhistory AND mask`; when that counter is below 2 the returned prediction
is the global sub-prediction, and when it is 2 or more the returned prediction
is the local sub-prediction. -/
theorem tournament_selection (s : State) (pc : Nat) :
    (s.choicePT (s.globalhistory_t &&& (2 ^ s.ghistoryBits - 1)) < 2 →
      (get_tournament_prediction s pc).2 = (get_global_prediction s pc).2) ∧
    (2 ≤ s.choicePT (s.globalhistory_t &&& (2 ^ s.ghistoryBits - 1)) →
      (get_tournament_prediction s pc).2 = (get_local_prediction s pc).2) := by
  simp only [get_tournament_prediction, get_global_prediction, get_local_prediction,
    local_index, maskOf_eq, SN, WN]
  constructor
  · intro h
    rw [if_pos (by omega)]
  · intro h
    rw [if_neg (by omega)]

/-- C6: when the two sub-predictions cached by the preceding
`get_tournament_prediction` are equal, `tournament_update` leaves every cell of
the choice table as it was, whatever the outcome. -/
theorem tournament_choice_neutral (s : State) (pc outcome : Nat)
    (heq : (get_tournament_prediction s pc).1.localOutcome
      = (get_tournament_prediction s pc).1.globalOutcome) :
    ∀ j, (tournament_update (get_tournament_prediction s pc).1 pc outcome).choicePT j
      = s.choicePT j := by
  intro j
  have hc : (get_tournament_prediction s pc).1.choicePT = s.choicePT := by
    simp only [get_tournament_prediction, get_global_prediction, get_local_prediction]
    split_ifs <;> rfl
  simp only [tournament_update, heq, ne_eq, not_true_eq_false, if_false, hc]

/-- Witness of C6: the freshly initialised tournament predictor, address 0; both
sub-predictions are NOTTAKEN and the outcome TAKEN proves them wrong. -/
theorem tournament_choice_neutral_witness :
    (get_tournament_prediction (init_predictor (startState TOURNAMENT 2 2 2)) 0).1.localOutcome
      = (get_tournament_prediction (init_predictor (startState TOURNAMENT 2 2 2)) 0).1.globalOutcome
    ∧ (get_tournament_prediction (init_predictor (startState TOURNAMENT 2 2 2)) 0).2 ≠ TAKEN
    ∧ ∀ j, (tournament_update
        (get_tournament_prediction (init_predictor (startState TOURNAMENT 2 2 2)) 0).1 0
          TAKEN).choicePT j
      = (init_predictor (startState TOURNAMENT 2 2 2)).choicePT j :=
  ⟨by decide, by decide,
    tournament_choice_neutral (init_predictor (startState TOURNAMENT 2 2 2)) 0 TAKEN (by decide)⟩

/-! ## Custom predictor: lookup -/

/-- What the scan loop returns: a bank index at most `NUM_BANKS`; when below
`NUM_BANKS` it is at or after the start and hits; nothing between the start and
the result hits. -/
theorem findBank_spec (hit : Nat → Bool) :
    ∀ n i, n = NUM_BANKS - i →
      findBank hit n i ≤ NUM_BANKS ∧
      (findBank hit n i < NUM_BANKS → i ≤ findBank hit n i ∧ hit (findBank hit n i) = true) ∧
      (∀ j, i ≤ j → j < findBank hit n i → hit j = false) := by
  intro n
  induction n with
  | zero =>
    intro i hi
    simp only [findBank]
    refine ⟨le_refl _, fun h => absurd h (lt_irrefl _), ?_⟩
    intro j h1 h2
    omega
  | succ n ih =>
    intro i hi
    simp only [findBank]
    by_cases hh : hit i = true
    · rw [if_pos hh]
      refine ⟨by omega, fun _ => ⟨le_refl _, hh⟩, ?_⟩
      intro j h1 h2
      omega
    · rw [if_neg hh]
      obtain ⟨h1, h2, h3⟩ := ih (i + 1) (by omega)
      refine ⟨h1, fun h => ⟨by have := (h2 h).1; omega, (h2 h).2⟩, ?_⟩
      intro j hj1 hj2
      by_cases hji : j = i
      · subst hji
        simpa using hh
      · exact h3 j (by omega) hj2

theorem tagHit_candidates (s : State) (pc i : Nat) (hi : i < NUM_BANKS) :
    tagHit (tage_candidates s pc) i = true ↔ tagMatch s pc i := by
  simp [tagHit, tage_candidates, tagMatch, hi]

theorem tage_lookup_primary (s : State) (pc : Nat) :
    (tage_lookup s pc).primaryBank ≤ NUM_BANKS ∧
    ((tage_lookup s pc).primaryBank < NUM_BANKS → tagMatch s pc (tage_lookup s pc).primaryBank) ∧
    (∀ j, j < (tage_lookup s pc).primaryBank → ¬ tagMatch s pc j) := by
  obtain ⟨h1, h2, h3⟩ := findBank_spec (tagHit (tage_candidates s pc)) (NUM_BANKS - 0) 0 rfl
  refine ⟨h1, ?_, ?_⟩
  · intro h
    exact (tagHit_candidates s pc _ h).1 (h2 h).2
  · intro j hj hm
    have hj7 : j < NUM_BANKS := lt_of_lt_of_le hj h1
    have := h3 j (Nat.zero_le _) hj
    rw [(tagHit_candidates s pc j hj7).2 hm] at this
    exact absurd this (by decide)

theorem tage_lookup_alternate (s : State) (pc : Nat) :
    (tage_lookup s pc).alternateBank ≤ NUM_BANKS ∧
    ((tage_lookup s pc).alternateBank < NUM_BANKS →
      (tage_lookup s pc).primaryBank < (tage_lookup s pc).alternateBank ∧
      tagMatch s pc (tage_lookup s pc).alternateBank) ∧
    (∀ j, (tage_lookup s pc).primaryBank < j → j < (tage_lookup s pc).alternateBank →
      ¬ tagMatch s pc j) := by
  obtain ⟨h1, h2, h3⟩ := findBank_spec (tagHit (tage_candidates s pc))
    (NUM_BANKS - ((tage_lookup s pc).primaryBank + 1)) ((tage_lookup s pc).primaryBank + 1) rfl
  refine ⟨h1, ?_, ?_⟩
  · intro h
    exact ⟨(h2 h).1, (tagHit_candidates s pc _ h).1 (h2 h).2⟩
  · intro j hj1 hj2 hm
    have hj7 : j < NUM_BANKS := lt_of_lt_of_le hj2 h1
    have := h3 j hj1 hj2
    rw [(tagHit_candidates s pc j hj7).2 hm] at this
    exact absurd this (by decide)

/-- The lowest matching bank is the primary bank. -/
theorem tage_lookup_primary_eq (s : State) (pc p : Nat) (hp : p < NUM_BANKS)
    (hm : tagMatch s pc p) (hlow : ∀ j, j < p → ¬ tagMatch s pc j) :
    (tage_lookup s pc).primaryBank = p := by
  obtain ⟨h1, h2, h3⟩ := tage_lookup_primary s pc
  rcases Nat.lt_trichotomy (tage_lookup s pc).primaryBank p with h | h | h
  · exact absurd (h2 (lt_trans h hp)) (hlow _ h)
  · exact h
  · exact absurd hm (h3 p h)

/-- The lowest matching bank above the primary bank is the alternate bank. -/
theorem tage_lookup_alternate_eq (s : State) (pc a : Nat) (ha : a < NUM_BANKS)
    (hpa : (tage_lookup s pc).primaryBank < a)
    (hm : tagMatch s pc a)
    (hlow : ∀ j, (tage_lookup s pc).primaryBank < j → j < a → ¬ tagMatch s pc j) :
    (tage_lookup s pc).alternateBank = a := by
  obtain ⟨h1, h2, h3⟩ := tage_lookup_alternate s pc
  rcases Nat.lt_trichotomy (tage_lookup s pc).alternateBank a with h | h | h
  · have h4 := h2 (lt_trans h ha)
    exact absurd h4.2 (hlow _ h4.1 h)
  · exact h
  · exact absurd hm (h3 a hpa h)

/-- No matching bank above the primary bank: the alternate bank is none. -/
theorem tage_lookup_alternate_none (s : State) (pc : Nat)
    (hno : ∀ j, (tage_lookup s pc).primaryBank < j → j < NUM_BANKS → ¬ tagMatch s pc j) :
    (tage_lookup s pc).alternateBank = NUM_BANKS := by
  obtain ⟨h1, h2, _⟩ := tage_lookup_alternate s pc
  rcases Nat.lt_or_ge (tage_lookup s pc).alternateBank NUM_BANKS with h | h
  · have h4 := h2 h
    exact absurd h4.2 (hno _ h4.1 h)
  · exact le_antisymm h1 h

theorem tage_predict_banks (s : State) (pc : Nat) :
    (tage_predict s pc).1.primaryBank = (tage_lookup s pc).primaryBank ∧
    (tage_predict s pc).1.alternateBank = (tage_lookup s pc).alternateBank ∧
    (tage_predict s pc).1.bankGlobalIndex = (tage_candidates s pc).bankGlobalIndex ∧
    (tage_predict s pc).1.tagResult = (tage_candidates s pc).tagResult ∧
    (tage_predict s pc).1.tageBank = s.tageBank ∧
    (tage_predict s pc).1.t_bimodalPredictor = s.t_bimodalPredictor ∧
    (tage_predict s pc).1.lastPrediction = (tage_predict s pc).2 := by
  unfold tage_predict
  simp only
  split_ifs <;> simp [tage_lookup, tage_candidates]

/-- C7: after `tage_predict` the recorded primary bank is the lowest-indexed
bank in 0..6 whose stored tag at its candidate index equals its candidate tag,
and 7 exactly when no bank matches; the recorded alternate bank is the
lowest-indexed matching bank above the primary, and 7 exactly when there is
none; when two banks match, the primary is at or below the lower one. -/
theorem bank_priority (s : State) (pc : Nat) :
    (tage_predict s pc).1.primaryBank ≤ 7 ∧
    (∀ p, p < 7 →
      ((tage_predict s pc).1.primaryBank = p ↔
        (tagMatch s pc p ∧ ∀ j, j < p → ¬ tagMatch s pc j))) ∧
    ((tage_predict s pc).1.primaryBank = 7 ↔ ∀ i, i < 7 → ¬ tagMatch s pc i) ∧
    (tage_predict s pc).1.alternateBank ≤ 7 ∧
    (∀ a, a < 7 →
      ((tage_predict s pc).1.alternateBank = a ↔
        ((tage_predict s pc).1.primaryBank < a ∧ tagMatch s pc a ∧
          ∀ j, (tage_predict s pc).1.primaryBank < j → j < a → ¬ tagMatch s pc j))) ∧
    ((tage_predict s pc).1.alternateBank = 7 ↔
      ∀ i, (tage_predict s pc).1.primaryBank < i → i < 7 → ¬ tagMatch s pc i) ∧
    (∀ i j, i < j → j < 7 → tagMatch s pc i → tagMatch s pc j →
      (tage_predict s pc).1.primaryBank ≤ i ∧ (tage_predict s pc).1.primaryBank ≠ j) := by
  obtain ⟨e1, e2, -⟩ := tage_predict_banks s pc
  rw [e1, e2]
  obtain ⟨p1, p2, p3⟩ := tage_lookup_primary s pc
  obtain ⟨a1, a2, a3⟩ := tage_lookup_alternate s pc
  have h7 : NUM_BANKS = 7 := rfl
  rw [h7] at p1 p2 a1 a2
  refine ⟨p1, ?_, ?_, a1, ?_, ?_, ?_⟩
  · intro p hp
    constructor
    · intro h
      subst h
      exact ⟨p2 hp, p3⟩
    · intro h
      exact tage_lookup_primary_eq s pc p hp h.1 h.2
  · constructor
    · intro h i hi
      exact p3 i (by omega)
    · intro h
      rcases Nat.lt_or_ge (tage_lookup s pc).primaryBank 7 with hlt | hge
      · exact absurd (p2 hlt) (h _ hlt)
      · omega
  · intro a ha
    constructor
    · intro h
      have h' := a2 (by omega)
      rw [h] at h'
      refine ⟨h'.1, h'.2, ?_⟩
      intro j hj1 hj2
      exact a3 j hj1 (by omega)
    · intro h
      exact tage_lookup_alternate_eq s pc a ha h.1 h.2.1 h.2.2
  · constructor
    · intro h i hi1 hi2
      exact a3 i hi1 (by omega)
    · intro h
      exact tage_lookup_alternate_none s pc h
  · intro i j hij hj hi hmj
    have hle : (tage_lookup s pc).primaryBank ≤ i := by
      by_contra hc
      exact p3 i (by omega) hi
    exact ⟨hle, by omega⟩

/-- Witness of C7: on freshly initialised tables every bank matches address 0
(all stored and candidate tags are 0); the primary bank is bank 0, the longest
history, and the alternate bank is bank 1. -/
theorem bank_priority_witness :
    tagMatch (init_predictor (startState CUSTOM 0 0 0)) 0 0 ∧
    tagMatch (init_predictor (startState CUSTOM 0 0 0)) 0 1 ∧
    (tage_predict (init_predictor (startState CUSTOM 0 0 0)) 0).1.primaryBank = 0 ∧
    (tage_predict (init_predictor (startState CUSTOM 0 0 0)) 0).1.alternateBank = 1 := by
  have h := bank_priority (init_predictor (startState CUSTOM 0 0 0)) 0
  have hp : (tage_predict (init_predictor (startState CUSTOM 0 0 0)) 0).1.primaryBank = 0 :=
    ((h.2.1 0 (by decide)).2 ⟨by decide, fun j hj => absurd hj (Nat.not_lt_zero j)⟩)
  refine ⟨by decide, by decide, hp, ?_⟩
  apply (h.2.2.2.2.1 1 (by decide)).2
  rw [hp]
  refine ⟨by decide, by decide, ?_⟩
  intro j h1 h2
  omega

/-! ## Custom predictor: final prediction -/

theorem t_getBimodalPrediction_frame (s t : State) (pc : Nat)
    (h : t.t_bimodalPredictor = s.t_bimodalPredictor) :
    t_getBimodalPrediction t pc = t_getBimodalPrediction s pc := by
  simp [t_getBimodalPrediction, h]

theorem tage_lookup_frame (s : State) (pc : Nat) :
    (tage_lookup s pc).tageBank = s.tageBank ∧
    (tage_lookup s pc).t_bimodalPredictor = s.t_bimodalPredictor ∧
    (tage_lookup s pc).useAlternate = s.useAlternate ∧
    (∀ i, i < NUM_BANKS → (tage_lookup s pc).bankGlobalIndex i = getGlobalIndex s pc i) := by
  refine ⟨rfl, rfl, rfl, ?_⟩
  intro i hi
  simp [tage_lookup, tage_candidates, hi]

/-- C8: `tage_predict` returns (a) the bimodal prediction (TAKEN iff the bimodal
counter at `pc mod 4099` is at least 2) when no bank matches; (b) when `p` is
the primary bank (lowest matching), with the alternate prediction being the
sign of the counter of the alternate bank (lowest matching bank above `p`) if
there is one and the bimodal prediction otherwise: the sign of the primary
counter if that counter is not 0 or -1, or its usefulness is nonzero, or
`useAlternate` is below 8, and the alternate prediction otherwise. -/
theorem tage_final_prediction (s : State) (pc : Nat) :
    (t_getBimodalPrediction s pc
      = if 2 ≤ s.t_bimodalPredictor (pc % 4099) then TAKEN else NOTTAKEN) ∧
    ((∀ i, i < 7 → ¬ tagMatch s pc i) →
      (tage_predict s pc).2 = t_getBimodalPrediction s pc) ∧
    (∀ p, p < 7 → tagMatch s pc p → (∀ j, j < p → ¬ tagMatch s pc j) →
      ∀ altPred : Nat,
        ((∃ a, p < a ∧ a < 7 ∧ tagMatch s pc a ∧ (∀ j, p < j → j < a → ¬ tagMatch s pc j) ∧
            altPred
              = if 0 ≤ ((s.tageBank a).entry (getGlobalIndex s pc a)).saturateCounter
                then TAKEN else NOTTAKEN) ∨
         ((∀ j, p < j → j < 7 → ¬ tagMatch s pc j) ∧ altPred = t_getBimodalPrediction s pc)) →
        (tage_predict s pc).2
          = if (((s.tageBank p).entry (getGlobalIndex s pc p)).saturateCounter ≠ 0 ∧
                ((s.tageBank p).entry (getGlobalIndex s pc p)).saturateCounter ≠ -1) ∨
               ((s.tageBank p).entry (getGlobalIndex s pc p)).usefulness ≠ 0 ∨
               s.useAlternate < 8
            then
              (if 0 ≤ ((s.tageBank p).entry (getGlobalIndex s pc p)).saturateCounter
               then TAKEN else NOTTAKEN)
            else altPred) := by
  have h7 : NUM_BANKS = 7 := rfl
  obtain ⟨f1, f2, f3, f4⟩ := tage_lookup_frame s pc
  refine ⟨?_, ?_, ?_⟩
  · simp [t_getBimodalPrediction, BIMODAL_SIZE, LEN_BIMODAL]
  · intro hno
    have hp : (tage_lookup s pc).primaryBank = NUM_BANKS := by
      obtain ⟨p1, p2, -⟩ := tage_lookup_primary s pc
      rcases Nat.lt_or_ge (tage_lookup s pc).primaryBank NUM_BANKS with hlt | hge
      · exact absurd (p2 hlt) (hno _ (by rw [h7] at hlt; exact hlt))
      · exact le_antisymm p1 hge
    unfold tage_predict
    simp only [hp, lt_irrefl, if_false]
    exact t_getBimodalPrediction_frame s _ pc f2
  · intro p hp hm hlow altPred halt
    have hpe : (tage_lookup s pc).primaryBank = p :=
      tage_lookup_primary_eq s pc p (by rw [h7]; exact hp) hm hlow
    have hidx : (tage_lookup s pc).bankGlobalIndex p = getGlobalIndex s pc p :=
      f4 p (by rw [h7]; exact hp)
    have hbim : t_getBimodalPrediction (tage_lookup s pc) pc = t_getBimodalPrediction s pc :=
      t_getBimodalPrediction_frame s _ pc f2
    have halt' : altPred =
        (if (tage_lookup s pc).alternateBank < NUM_BANKS then
          ctrPrediction (((tage_lookup s pc).tageBank (tage_lookup s pc).alternateBank).entry
            ((tage_lookup s pc).bankGlobalIndex (tage_lookup s pc).alternateBank)).saturateCounter
         else t_getBimodalPrediction (tage_lookup s pc) pc) := by
      rcases halt with ⟨a, ha1, ha2, ha3, ha4, ha5⟩ | ⟨hb1, hb2⟩
      · have hae : (tage_lookup s pc).alternateBank = a :=
          tage_lookup_alternate_eq s pc a (by rw [h7]; exact ha2) (by rw [hpe]; exact ha1) ha3
            (by rw [hpe]; exact ha4)
        rw [hae, if_pos (by rw [h7]; exact ha2), f1, f4 a (by rw [h7]; exact ha2), ha5]
        simp [ctrPrediction]
      · have hae : (tage_lookup s pc).alternateBank = NUM_BANKS :=
          tage_lookup_alternate_none s pc (by rw [hpe, h7]; exact hb1)
        rw [hae, if_neg (lt_irrefl _), hbim, hb2]
    unfold tage_predict
    simp only [hpe, h7, hp, if_true]
    rw [h7] at halt'
    rw [← halt', f1, f3, hidx]
    simp only [ctrPrediction, ge_iff_le]

/-- Witness of C8 (b): in `agingExample` at address 1 the primary bank is bank 1
with counter -1 and usefulness 0, `useAlternate` is 8 and no bank above matches,
so the prediction is the bimodal prediction, NOTTAKEN. -/
theorem tage_final_prediction_witness :
    tagMatch agingExample 1 1 ∧
    t_getBimodalPrediction agingExample 1 = NOTTAKEN ∧
    (tage_predict agingExample 1).2 = NOTTAKEN := by
  have hb : t_getBimodalPrediction agingExample 1 = NOTTAKEN := by decide
  have h := (tage_final_prediction agingExample 1).2.2 1 (by decide) (by decide) (by decide)
    NOTTAKEN (Or.inr ⟨by intro j h1 h2; interval_cases j <;> decide, hb.symm⟩)
  refine ⟨by decide, hb, ?_⟩
  rw [h]
  decide

/-! ## Prediction leaves the tables alone -/

/-- C10: for every predictor kind, address and state, `make_prediction` leaves
all persistent state unchanged: configuration, Gshare table and history,
tournament tables and history, bimodal table, every bank (entries and
compressed registers), global and path history, and `useAlternate`. -/
theorem make_prediction_frame (s : State) (pc : Nat) :
    (make_prediction s pc).1.ghistoryBits = s.ghistoryBits ∧
    (make_prediction s pc).1.lhistoryBits = s.lhistoryBits ∧
    (make_prediction s pc).1.pcIndexBits = s.pcIndexBits ∧
    (make_prediction s pc).1.bpType = s.bpType ∧
    (make_prediction s pc).1.ghistory_g = s.ghistory_g ∧
    (make_prediction s pc).1.bht_gshare = s.bht_gshare ∧
    (make_prediction s pc).1.localBHT = s.localBHT ∧
    (make_prediction s pc).1.localPHT = s.localPHT ∧
    (make_prediction s pc).1.globalBHT = s.globalBHT ∧
    (make_prediction s pc).1.choicePT = s.choicePT ∧
    (make_prediction s pc).1.globalhistory_t = s.globalhistory_t ∧
    (make_prediction s pc).1.t_bimodalPredictor = s.t_bimodalPredictor ∧
    (make_prediction s pc).1.tageBank = s.tageBank ∧
    (make_prediction s pc).1.t_globalHistory = s.t_globalHistory ∧
    (make_prediction s pc).1.t_pathHistory = s.t_pathHistory ∧
    (make_prediction s pc).1.useAlternate = s.useAlternate := by
  unfold make_prediction
  split_ifs
  · simp
  · simp
  · unfold get_tournament_prediction get_local_prediction get_global_prediction
    simp only
    split_ifs <;> simp
  · unfold tage_predict
    simp only
    split_ifs <;> simp [tage_lookup, tage_candidates]
  · simp

/-! ## Custom predictor: training, allocation block -/

theorem toInt8_of_range (x : Int) (h1 : -128 ≤ x) (h2 : x ≤ 127) : toInt8 x = x := by
  unfold toInt8
  split_ifs <;> omega

theorem modifyEntry_entry (banks : Nat → Bank) (i j : Nat) (f : BankEntry → BankEntry)
    (k l : Nat) :
    ((modifyEntry banks i j f) k).entry l
      = if k = i ∧ l = j then f ((banks i).entry j) else (banks k).entry l := by
  unfold modifyEntry setAt
  by_cases hk : k = i
  · subst hk
    by_cases hl : l = j <;> simp [hl]
  · simp [hk]

theorem modifyEntry_other (banks : Nat → Bank) (i j : Nat) (f : BankEntry → BankEntry)
    (k : Nat) (hk : k ≠ i) : (modifyEntry banks i j f) k = banks k := by
  simp [modifyEntry, setAt, hk]

theorem modifyEntry_regs (banks : Nat → Bank) (i j : Nat) (f : BankEntry → BankEntry)
    (k : Nat) :
    ((modifyEntry banks i j f) k).geometry = (banks k).geometry ∧
    ((modifyEntry banks i j f) k).indexCompressed = (banks k).indexCompressed ∧
    ((modifyEntry banks i j f) k).tagCompressed0 = (banks k).tagCompressed0 ∧
    ((modifyEntry banks i j f) k).tagCompressed1 = (banks k).tagCompressed1 := by
  unfold modifyEntry setAt
  by_cases hk : k = i
  · subst hk; simp
  · simp [hk]

/-- Closed form of the decay loop on the entries. -/
theorem decayLoop_entry (idx : Nat → Nat) :
    ∀ (n : Nat) (banks : Nat → Bank) (k l : Nat),
      ((decayLoop idx n banks) k).entry l
        = if k < n ∧ l = idx k then
            { (banks k).entry (idx k) with
              usefulness := toInt8 (((banks k).entry (idx k)).usefulness - 1) }
          else (banks k).entry l := by
  intro n
  induction n with
  | zero => intro banks k l; simp [decayLoop]
  | succ n ih =>
    intro banks k l
    simp only [decayLoop]
    rw [ih]
    simp only [modifyEntry_entry]
    by_cases hkn : k < n
    · have h1 : k ≠ n := by omega
      have h2 : k < n + 1 := by omega
      simp [hkn, h1, h2]
    · by_cases hk : k = n
      · subst hk
        simp
      · have h2 : ¬ k < n + 1 := by omega
        simp [hkn, hk, h2]

/-- The minimum loop returns a value at most every usefulness it has read. -/
theorem minUseLoop_le (banks : Nat → Bank) (idx : Nat → Nat) :
    ∀ n i, i < n → minUseLoop banks idx n ≤ ((banks i).entry (idx i)).usefulness := by
  intro n
  induction n with
  | zero => intro i hi; omega
  | succ n ih =>
    intro i hi
    simp only [minUseLoop]
    by_cases hin : i = n
    · subst hin
      split_ifs with h
      · exact le_refl _
      · omega
    · have := ih i (by omega)
      split_ifs with h
      · omega
      · exact this

/-- The minimum loop returns 127 or one of the values it has read. -/
theorem minUseLoop_mem (banks : Nat → Bank) (idx : Nat → Nat) :
    ∀ n, minUseLoop banks idx n = 127 ∨
      ∃ i, i < n ∧ minUseLoop banks idx n = ((banks i).entry (idx i)).usefulness := by
  intro n
  induction n with
  | zero => left; rfl
  | succ n ih =>
    simp only [minUseLoop]
    split_ifs with h
    · right; exact ⟨n, by omega, rfl⟩
    · rcases ih with h1 | ⟨i, hi, h1⟩
      · left; exact h1
      · right; exact ⟨i, by omega, h1⟩

theorem minUseLoop_pos (banks : Nat → Bank) (idx : Nat → Nat) (n : Nat)
    (h : ∀ i, i < n → 0 < ((banks i).entry (idx i)).usefulness) :
    0 < minUseLoop banks idx n := by
  rcases minUseLoop_mem banks idx n with h1 | ⟨i, hi, h1⟩
  · rw [h1]; decide
  · rw [h1]; exact h i hi

theorem trainCounter_entry (s : State) (outcome : Nat) (banks : Nat → Bank) (k l : Nat) :
    ((trainCounter s outcome banks) k).entry l
      = if s.primaryBank < NUM_BANKS ∧ k = s.primaryBank ∧ l = s.bankGlobalIndex s.primaryBank
        then { (banks k).entry l with
               saturateCounter := updateSaturate ((banks k).entry l).saturateCounter outcome
                 LEN_COUNTS }
        else (banks k).entry l := by
  unfold trainCounter
  by_cases hp : s.primaryBank < NUM_BANKS
  · simp only [hp, if_true, modifyEntry_entry, true_and]
    by_cases h : k = s.primaryBank ∧ l = s.bankGlobalIndex s.primaryBank
    · obtain ⟨h1, h2⟩ := h
      subst h1 h2
      simp
    · simp [h]
  · simp [hp]

theorem trainUseful_entry (s : State) (outcome : Nat) (banks : Nat → Bank) (k l : Nat) :
    ((trainUseful s outcome banks) k).entry l
      = if s.lastPrediction ≠ s.alternatePrediction ∧ s.primaryBank < NUM_BANKS ∧
            k = s.primaryBank ∧ l = s.bankGlobalIndex s.primaryBank
        then { (banks k).entry l with
               usefulness := updateSaturateMinMax ((banks k).entry l).usefulness
                 (if s.lastPrediction = outcome then 1 else 0) 0 3 }
        else (banks k).entry l := by
  unfold trainUseful
  by_cases hd : s.lastPrediction ≠ s.alternatePrediction
  · by_cases hp : s.primaryBank < NUM_BANKS
    · simp only [hd, hp, if_true, modifyEntry_entry, true_and, ne_eq, not_false_eq_true]
      by_cases h : k = s.primaryBank ∧ l = s.bankGlobalIndex s.primaryBank
      · obtain ⟨h1, h2⟩ := h
        subst h1 h2
        simp
      · simp [h]
    · simp [hd, hp]
  · simp [hd]

theorem trainCompressed_entry (banks : Nat → Bank) (hist : Nat → Nat) (env : Env) (k : Nat) :
    ((trainCompressed banks hist env) k).entry = (banks k).entry := by
  unfold trainCompressed
  split_ifs <;> rfl

/-- Entries of the banks after `tage_train`, through the steps after the
allocation block. -/
theorem tage_train_entry (s : State) (pc outcome : Nat) (env : Env) (k l : Nat) :
    ((tage_train s pc outcome env).tageBank k).entry l
      = ((trainUseful s outcome (trainCounter s outcome (trainAllocate s pc outcome env.rand)))
          k).entry l := by
  simp only [tage_train, trainCompressed_entry]

/-- Training after a misprediction that needs an allocation, when every bank
below the primary one holds a positive usefulness at its candidate cell: each of
these is decremented and no tag changes. -/
theorem tage_train_aging (t : State) (pc outcome : Nat) (env : Env)
    (hneed : needAllocate t outcome = true)
    (hpos : ∀ i, i < t.primaryBank →
      0 < ((t.tageBank i).entry (t.bankGlobalIndex i)).usefulness ∧
      ((t.tageBank i).entry (t.bankGlobalIndex i)).usefulness ≤ 127) :
    (∀ i, i < t.primaryBank →
      (((tage_train t pc outcome env).tageBank i).entry (t.bankGlobalIndex i)).usefulness
        = ((t.tageBank i).entry (t.bankGlobalIndex i)).usefulness - 1) ∧
    (∀ i j, (((tage_train t pc outcome env).tageBank i).entry j).tag
        = ((t.tageBank i).entry j).tag) := by
  have hmin : 0 < minUseLoop t.tageBank t.bankGlobalIndex t.primaryBank :=
    minUseLoop_pos _ _ _ (fun i hi => (hpos i hi).1)
  have halloc : trainAllocate t pc outcome env.rand
      = decayLoop t.bankGlobalIndex t.primaryBank t.tageBank := by
    simp only [trainAllocate, hneed, if_true, allocate]
    rw [if_pos hmin]
  constructor
  · intro i hi
    have hne : i ≠ t.primaryBank := by omega
    rw [tage_train_entry, trainUseful_entry, trainCounter_entry, halloc, decayLoop_entry]
    simp only [hne, false_and, and_false, if_false, hi, true_and, if_true]
    exact toInt8_of_range _ (by have := (hpos i hi).1; omega) (by have := (hpos i hi).2; omega)
  · intro i j
    rw [tage_train_entry, trainUseful_entry, trainCounter_entry, halloc, decayLoop_entry]
    split_ifs <;> simp_all

/-- C9: for `tage_train` following `tage_predict` at the same address, if an
allocation is needed (no primary bank and the prediction differs from the
outcome; or a primary bank, the prediction differs from the outcome and the sign
of the primary counter differs from the outcome) and every bank below the
primary one (all 7 when there is none) holds a usefulness above 0 (and, being
an `int8_t`, at most 127) at its candidate index, then each of these usefulness
values is one less after training and no bank entry changes its tag, for every
value of the random source. -/
theorem allocation_aging (s : State) (pc outcome : Nat) (env : Env)
    (hneed :
      ((tage_predict s pc).1.primaryBank = 7 ∧ (tage_predict s pc).2 ≠ outcome) ∨
      ((tage_predict s pc).1.primaryBank < 7 ∧ (tage_predict s pc).2 ≠ outcome ∧
        (if 0 ≤ ((s.tageBank (tage_predict s pc).1.primaryBank).entry
                  (getGlobalIndex s pc (tage_predict s pc).1.primaryBank)).saturateCounter
         then TAKEN else NOTTAKEN) ≠ outcome))
    (hpos : ∀ i, i < (tage_predict s pc).1.primaryBank →
      0 < ((s.tageBank i).entry (getGlobalIndex s pc i)).usefulness ∧
      ((s.tageBank i).entry (getGlobalIndex s pc i)).usefulness ≤ 127) :
    (∀ i, i < (tage_predict s pc).1.primaryBank →
      (((tage_train (tage_predict s pc).1 pc outcome env).tageBank i).entry
          (getGlobalIndex s pc i)).usefulness
        = ((s.tageBank i).entry (getGlobalIndex s pc i)).usefulness - 1) ∧
    (∀ i j, (((tage_train (tage_predict s pc).1 pc outcome env).tageBank i).entry j).tag
        = ((s.tageBank i).entry j).tag) := by
  obtain ⟨e1, -, e3, -, e5, -, e7⟩ := tage_predict_banks s pc
  have h7 : NUM_BANKS = 7 := rfl
  have hp7 : (tage_predict s pc).1.primaryBank ≤ 7 := by
    rw [e1]; exact (tage_lookup_primary s pc).1
  have hidx : ∀ i, i < 7 → (tage_predict s pc).1.bankGlobalIndex i = getGlobalIndex s pc i := by
    intro i hi
    rw [e3]
    simp [tage_candidates, h7, hi]
  have hneed' : needAllocate (tage_predict s pc).1 outcome = true := by
    unfold needAllocate
    rcases hneed with ⟨h1, h2⟩ | ⟨h1, h2, h3⟩
    · rw [if_neg (by rw [h1, h7]; exact lt_irrefl _), e7]
      exact decide_eq_true h2
    · rw [if_pos (by rw [h7]; exact h1), e7, e5, hidx _ h1]
      simp only [TAKEN, NOTTAKEN] at h3
      exact decide_eq_true ⟨h2, h3⟩
  have hpos' : ∀ i, i < (tage_predict s pc).1.primaryBank →
      0 < (((tage_predict s pc).1.tageBank i).entry
            ((tage_predict s pc).1.bankGlobalIndex i)).usefulness ∧
      (((tage_predict s pc).1.tageBank i).entry
            ((tage_predict s pc).1.bankGlobalIndex i)).usefulness ≤ 127 := by
    intro i hi
    rw [e5, hidx i (by omega)]
    exact hpos i hi
  obtain ⟨r1, r2⟩ := tage_train_aging (tage_predict s pc).1 pc outcome env hneed' hpos'
  constructor
  · intro i hi
    have := r1 i hi
    rw [e5, hidx i (by omega)] at this
    exact this
  · intro i j
    have := r2 i j
    rw [e5] at this
    exact this

/-- Witness of C9: the state `agingExample`, address 1, outcome TAKEN.  Bank 1
is the primary bank, its counter -1 and the prediction NOTTAKEN are wrong, and
the only bank below it, bank 0, holds usefulness 2 at candidate index 1; after
training it holds 1. -/
theorem allocation_aging_witness :
    (tage_predict agingExample 1).1.primaryBank = 1 ∧
    ((agingExample.tageBank 0).entry (getGlobalIndex agingExample 1 0)).usefulness = 2 ∧
    (((tage_train (tage_predict agingExample 1).1 1 TAKEN ⟨5, fun _ _ => 0⟩).tageBank 0).entry
        (getGlobalIndex agingExample 1 0)).usefulness = 1 := by
  have hp : (tage_predict agingExample 1).1.primaryBank = 1 := by decide
  have hu : ((agingExample.tageBank 0).entry (getGlobalIndex agingExample 1 0)).usefulness = 2 := by
    decide
  have h := allocation_aging agingExample 1 TAKEN ⟨5, fun _ _ => 0⟩
    (Or.inr (by decide))
    (by
      intro i hi
      rw [hp] at hi
      have hi0 : i = 0 := by omega
      subst hi0
      rw [hu]
      exact ⟨by decide, by decide⟩)
  refine ⟨hp, hu, ?_⟩
  have h0 := h.1 0 (by rw [hp]; exact Nat.zero_lt_one)
  rw [h0, hu]
  rfl

/-! ## Counter bounds in every reachable state -/

theorem make_prediction_tables (s : State) (pc : Nat) :
    (make_prediction s pc).1.bpType = s.bpType ∧
    (make_prediction s pc).1.bht_gshare = s.bht_gshare ∧
    (make_prediction s pc).1.localBHT = s.localBHT ∧
    (make_prediction s pc).1.globalBHT = s.globalBHT ∧
    (make_prediction s pc).1.choicePT = s.choicePT ∧
    (make_prediction s pc).1.t_bimodalPredictor = s.t_bimodalPredictor ∧
    (make_prediction s pc).1.tageBank = s.tageBank := by
  unfold make_prediction
  split_ifs
  · simp
  · simp
  · unfold get_tournament_prediction get_local_prediction get_global_prediction
    simp only
    split_ifs <;> simp
  · unfold tage_predict
    simp only
    split_ifs <;> simp [tage_lookup, tage_candidates]
  · simp

theorem counterBounds_init (s0 : State) : CounterBounds (init_predictor s0) := by
  unfold init_predictor
  split_ifs with h0 h1 h2 h3
  · refine ⟨fun h => ?_, fun h => ?_, fun h => ?_⟩ <;> rw [h0] at h <;> exact absurd h (by decide)
  · refine ⟨fun _ i => ?_, fun h => ?_, fun h => ?_⟩
    · show WN ≤ 3
      decide
    · exact absurd (h1.symm.trans h) (by decide)
    · exact absurd (h1.symm.trans h) (by decide)
  · refine ⟨fun h => ?_, fun _ i => ?_, fun h => ?_⟩
    · exact absurd (h2.symm.trans h) (by decide)
    · simp only [tournament_init]
      exact ⟨by decide, by decide, by decide⟩
    · exact absurd (h2.symm.trans h) (by decide)
  · refine ⟨fun h => ?_, fun h => ?_, fun _ => ⟨?_, ?_⟩⟩
    · exact absurd (h3.symm.trans h) (by decide)
    · exact absurd (h3.symm.trans h) (by decide)
    · intro i hi
      simp only [tage_init, hi, if_true, LEN_BIMODAL]
      exact ⟨by decide, by decide⟩
    · intro b hb j hj
      simp only [tage_init, hb, if_true, initBank, hj]
      exact ⟨by decide, by decide, by decide, by decide⟩
  · refine ⟨fun h => ?_, fun h => ?_, fun h => ?_⟩
    · exact absurd h h1
    · exact absurd h h2
    · exact absurd h h3

theorem train_gshare_bounds (s : State) (pc outcome : Nat) (h : ∀ i, s.bht_gshare i ≤ 3) :
    ∀ i, (train_gshare s pc outcome).bht_gshare i ≤ 3 := by
  intro i
  simp only [train_gshare, setAt]
  split_ifs
  · exact shift_prediction_le _ _ (h _)
  · exact h i

theorem setAt_le (t : Nat → Nat) (idx v : Nat) (h : ∀ i, t i ≤ 3) (hv : v ≤ 3) :
    ∀ i, setAt t idx v i ≤ 3 := by
  intro i
  unfold setAt
  split_ifs
  · exact hv
  · exact h i

theorem tournament_update_bounds (s : State) (pc outcome : Nat)
    (h : ∀ i, s.localBHT i ≤ 3 ∧ s.globalBHT i ≤ 3 ∧ s.choicePT i ≤ 3) :
    ∀ i, (tournament_update s pc outcome).localBHT i ≤ 3 ∧
      (tournament_update s pc outcome).globalBHT i ≤ 3 ∧
      (tournament_update s pc outcome).choicePT i ≤ 3 := by
  intro i
  refine ⟨?_, ?_, ?_⟩
  · simp only [tournament_update]
    exact setAt_le _ _ _ (fun i => (h i).1) (shift_prediction_le _ _ (h _).1) i
  · simp only [tournament_update]
    exact setAt_le _ _ _ (fun i => (h i).2.1) (shift_prediction_le _ _ (h _).2.1) i
  · simp only [tournament_update]
    split_ifs
    · exact setAt_le _ _ _ (fun i => (h i).2.2) (shift_prediction_le _ _ (h _).2.2) i
    · exact setAt_le _ _ _ (fun i => (h i).2.2) (shift_prediction_le _ _ (h _).2.2) i
    · exact (h i).2.2
    · exact (h i).2.2

theorem updateSaturate3_range (c : Int) (taken : Nat) (h1 : -4 ≤ c) (h2 : c ≤ 3) :
    -4 ≤ updateSaturate c taken LEN_COUNTS ∧ updateSaturate c taken LEN_COUNTS ≤ 3 := by
  have hs : ((1 <<< (LEN_COUNTS - 1) : Nat) : Int) = 4 := by decide
  unfold updateSaturate
  rw [hs]
  split_ifs
  · rw [toInt8_of_range _ (by omega) (by omega)]; omega
  · omega
  · rw [toInt8_of_range _ (by omega) (by omega)]; omega
  · omega

theorem updateSaturateMinMax03_range (c : Int) (taken : Nat) (h1 : 0 ≤ c) (h2 : c ≤ 3) :
    0 ≤ updateSaturateMinMax c taken 0 3 ∧ updateSaturateMinMax c taken 0 3 ≤ 3 := by
  unfold updateSaturateMinMax
  split_ifs
  · rw [toInt8_of_range _ (by omega) (by omega)]; omega
  · omega
  · rw [toInt8_of_range _ (by omega) (by omega)]; omega
  · omega

theorem decayLoop_inRange (idx : Nat → Nat) (n : Nat) (banks : Nat → Bank)
    (h : BanksInRange banks)
    (hpos : ∀ i, i < n → 0 < ((banks i).entry (idx i)).usefulness) :
    BanksInRange (decayLoop idx n banks) := by
  intro b hb j hj
  rw [decayLoop_entry]
  split_ifs with hc
  · obtain ⟨hbn, hji⟩ := hc
    subst hji
    obtain ⟨r1, r2, r3, r4⟩ := h b hb _ hj
    have hp := hpos b hbn
    refine ⟨r1, r2, ?_, ?_⟩
    · show 0 ≤ toInt8 _
      rw [toInt8_of_range _ (by omega) (by omega)]; omega
    · show toInt8 _ ≤ 3
      rw [toInt8_of_range _ (by omega) (by omega)]; omega
  · exact h b hb j hj

theorem allocEntry_inRange (outcome tag : Nat) :
    EntryInRange
      { tag := tag, saturateCounter := if outcome = TAKEN then 0 else -1, usefulness := 0 } := by
  unfold EntryInRange
  by_cases h : outcome = TAKEN
  · simp [h]
  · simp [h]

theorem allocLoop_inRange (s : State) (pc outcome : Nat) (minUse : Int)
    (h : BanksInRange s.tageBank) :
    ∀ n, BanksInRange (allocLoop s pc outcome minUse n) := by
  intro n
  induction n with
  | zero => exact h
  | succ n ih =>
    simp only [allocLoop]
    by_cases hc : ((s.tageBank n).entry (s.bankGlobalIndex n)).usefulness = minUse
    · rw [if_pos hc]
      intro b hb j hj
      rw [modifyEntry_entry]
      by_cases hc2 : b = n ∧ j = s.bankGlobalIndex n
      · rw [if_pos hc2]
        exact allocEntry_inRange outcome _
      · rw [if_neg hc2]
        exact h b hb j hj
    · rw [if_neg hc]
      exact ih

theorem trainAllocate_inRange (s : State) (pc outcome rnd : Nat)
    (h : BanksInRange s.tageBank) : BanksInRange (trainAllocate s pc outcome rnd) := by
  unfold trainAllocate
  split_ifs
  · unfold allocate
    simp only
    split_ifs with hmin
    · apply decayLoop_inRange _ _ _ h
      intro i hi
      have := minUseLoop_le s.tageBank s.bankGlobalIndex s.primaryBank i hi
      omega
    · exact allocLoop_inRange s pc outcome _ h _
  · exact h

theorem trainCounter_inRange (s : State) (outcome : Nat) (banks : Nat → Bank)
    (h : BanksInRange banks) : BanksInRange (trainCounter s outcome banks) := by
  intro b hb j hj
  rw [trainCounter_entry]
  obtain ⟨r1, r2, r3, r4⟩ := h b hb j hj
  split_ifs
  · obtain ⟨u1, u2⟩ := updateSaturate3_range _ outcome r1 r2
    exact ⟨u1, u2, r3, r4⟩
  · exact ⟨r1, r2, r3, r4⟩

theorem trainUseful_inRange (s : State) (outcome : Nat) (banks : Nat → Bank)
    (h : BanksInRange banks) : BanksInRange (trainUseful s outcome banks) := by
  intro b hb j hj
  rw [trainUseful_entry]
  obtain ⟨r1, r2, r3, r4⟩ := h b hb j hj
  by_cases hc : s.lastPrediction ≠ s.alternatePrediction ∧ s.primaryBank < NUM_BANKS ∧
      b = s.primaryBank ∧ j = s.bankGlobalIndex s.primaryBank
  · rw [if_pos hc]
    obtain ⟨u1, u2⟩ := updateSaturateMinMax03_range ((banks b).entry j).usefulness
      (if s.lastPrediction = outcome then 1 else 0) r3 r4
    exact ⟨r1, r2, u1, u2⟩
  · rw [if_neg hc]
    exact ⟨r1, r2, r3, r4⟩

theorem tage_train_inRange (s : State) (pc outcome : Nat) (env : Env)
    (h : BanksInRange s.tageBank) : BanksInRange (tage_train s pc outcome env).tageBank := by
  intro b hb j hj
  rw [tage_train_entry]
  exact trainUseful_inRange s outcome _
    (trainCounter_inRange s outcome _ (trainAllocate_inRange s pc outcome env.rand h)) b hb j hj

theorem tage_train_bimodal (s : State) (pc outcome : Nat) (env : Env)
    (h : ∀ i, i < BIMODAL_SIZE → 0 ≤ s.t_bimodalPredictor i ∧ s.t_bimodalPredictor i ≤ 3) :
    ∀ i, i < BIMODAL_SIZE →
      0 ≤ (tage_train s pc outcome env).t_bimodalPredictor i ∧
      (tage_train s pc outcome env).t_bimodalPredictor i ≤ 3 := by
  intro i hi
  have hs : (((1 <<< LEN_BIMODAL : Nat) : Int) - 1) = 3 := by decide
  simp only [tage_train, trainBimodal, hs]
  split_ifs
  · exact h i hi
  · simp only [setAt]
    split_ifs with hc
    · have hlt : pc % BIMODAL_SIZE < BIMODAL_SIZE := Nat.mod_lt _ (by decide)
      exact updateSaturateMinMax03_range _ outcome (h _ hlt).1 (h _ hlt).2
    · exact h i hi

theorem counterBounds_train (s : State) (pc outcome : Nat) (env : Env)
    (h : CounterBounds s) : CounterBounds (train_predictor s pc outcome env) := by
  obtain ⟨hg, ht, hc⟩ := h
  unfold train_predictor
  split_ifs with h0 h1 h2 h3
  · exact ⟨hg, ht, hc⟩
  · refine ⟨fun _ => train_gshare_bounds s pc outcome (hg h1), fun h => ?_, fun h => ?_⟩
    · exact absurd (h1.symm.trans h) (by decide)
    · exact absurd (h1.symm.trans h) (by decide)
  · refine ⟨fun h => ?_, fun _ => tournament_update_bounds s pc outcome (ht h2), fun h => ?_⟩
    · exact absurd (h2.symm.trans h) (by decide)
    · exact absurd (h2.symm.trans h) (by decide)
  · refine ⟨fun h => ?_, fun h => ?_, fun _ => ?_⟩
    · exact absurd (h3.symm.trans h) (by decide)
    · exact absurd (h3.symm.trans h) (by decide)
    · exact ⟨tage_train_bimodal s pc outcome env (hc h3).1,
        tage_train_inRange s pc outcome env (hc h3).2⟩
  · exact ⟨hg, ht, hc⟩

/-- C1: in every state reachable from `init_predictor` by any sequence of
`make_prediction` and `train_predictor` calls (32-bit addresses, outcomes 0 or
1, any values of the random source and of the environment), every counter of
the configured predictor is in its declared range: Gshare and Tournament
counters in `[0,3]`, bimodal counters in `[0,3]`, bank prediction counters in
`[-4,3]`, bank usefulness counters in `[0,3]`. -/
theorem counter_bounds_reachable (s : State) (h : Reachable s) : CounterBounds s := by
  induction h with
  | init s0 => exact counterBounds_init s0
  | predict s pc _ _ ih =>
    obtain ⟨e1, e2, e3, e4, e5, e6, e7⟩ := make_prediction_tables s pc
    unfold CounterBounds
    rw [e1, e2, e3, e4, e5, e6, e7]
    exact ih
  | train s pc outcome env _ _ _ ih => exact counterBounds_train s pc outcome env ih

/-- Witness of C1: the Custom predictor after initialisation, one prediction
and one training step at address 1 with outcome TAKEN; the bimodal counter at
cell 1 has moved from 1 to 2. -/
theorem counter_bounds_reachable_witness :
    CounterBounds
      (train_predictor (make_prediction (init_predictor (startState CUSTOM 0 0 0)) 1).1 1 TAKEN
        ⟨5, fun _ _ => 0⟩) ∧
    (train_predictor (make_prediction (init_predictor (startState CUSTOM 0 0 0)) 1).1 1 TAKEN
        ⟨5, fun _ _ => 0⟩).t_bimodalPredictor 1 = 2 :=
  ⟨counter_bounds_reachable _
      (Reachable.train _ 1 TAKEN _
        (Reachable.predict _ 1 (Reachable.init (startState CUSTOM 0 0 0)) (by decide))
        (by decide) (Or.inr rfl)),
    by decide⟩

/-! ## Saturating counter utility -/

/-- C11 as stated fails for `updateSaturateMinMax`: with `min = 0`, `max = 200`
and the counter 127 (an `int8_t` value between them, not the maximum), a taken
outcome does not give 128 but wraps to -128, outside `[min, max]`. -/
theorem saturating_step_counterexample :
    (0 : Int) ≤ 127 ∧ (127 : Int) ≤ 200 ∧
    updateSaturateMinMax 127 1 0 200 ≠ 127 + 1 ∧
    updateSaturateMinMax 127 1 0 200 = -128 ∧
    ¬ (0 ≤ updateSaturateMinMax 127 1 0 200) := by
  decide

/-- C11 amended: for every width `w` in 1..8 and counter `c` in
`[-2^(w-1), 2^(w-1)-1]`, `updateSaturate` gives `c+1` on taken unless `c` is the
maximum and `c-1` on not-taken unless `c` is the minimum, and `c` at the bound;
likewise `updateSaturateMinMax` for `-128 ≤ min ≤ c ≤ max ≤ 127` (the range of
the `int8_t` that holds the counter), and `shift_prediction` for `c` in
`[0,3]`.  In each case the result is in the range and differs from `c` by at
most 1. -/
theorem saturating_step :
    (∀ (w : Nat) (c : Int) (taken : Nat), 1 ≤ w → w ≤ 8 →
      -(2 : Int) ^ (w - 1) ≤ c → c ≤ (2 : Int) ^ (w - 1) - 1 →
      updateSaturate c taken w
          = (if taken ≠ 0 then (if c = (2 : Int) ^ (w - 1) - 1 then c else c + 1)
             else (if c = -(2 : Int) ^ (w - 1) then c else c - 1)) ∧
      -(2 : Int) ^ (w - 1) ≤ updateSaturate c taken w ∧
      updateSaturate c taken w ≤ (2 : Int) ^ (w - 1) - 1 ∧
      |updateSaturate c taken w - c| ≤ 1) ∧
    (∀ (mn mx c : Int) (taken : Nat), -128 ≤ mn → mn ≤ c → c ≤ mx → mx ≤ 127 →
      updateSaturateMinMax c taken mn mx
          = (if taken ≠ 0 then (if c = mx then c else c + 1)
             else (if c = mn then c else c - 1)) ∧
      mn ≤ updateSaturateMinMax c taken mn mx ∧
      updateSaturateMinMax c taken mn mx ≤ mx ∧
      |updateSaturateMinMax c taken mn mx - c| ≤ 1) ∧
    (∀ (c outcome : Nat), c ≤ 3 →
      shift_prediction c outcome
          = (if outcome = TAKEN then (if c = 3 then c else c + 1)
             else (if c = 0 then c else c - 1)) ∧
      shift_prediction c outcome ≤ 3 ∧
      shift_prediction c outcome ≤ c + 1 ∧ c ≤ shift_prediction c outcome + 1) := by
  refine ⟨?_, ?_, ?_⟩
  · intro w c taken hw1 hw8 hlo hhi
    have hcast : ((1 <<< (w - 1) : Nat) : Int) = (2 : Int) ^ (w - 1) := by
      rw [Nat.one_shiftLeft]; push_cast; rfl
    have hval : (2 : Int) ^ (w - 1) ≤ 128 ∧ 1 ≤ (2 : Int) ^ (w - 1) := by
      interval_cases w <;> norm_num
    unfold updateSaturate
    rw [hcast]
    generalize (2 : Int) ^ (w - 1) = m at *
    obtain ⟨hm1, hm2⟩ := hval
    by_cases ht : taken ≠ 0
    · simp only [if_pos ht]
      by_cases hc : c < m - 1
      · rw [if_pos hc, if_neg (by omega), toInt8_of_range _ (by omega) (by omega)]
        refine ⟨rfl, by omega, by omega, ?_⟩
        rw [abs_le]; constructor <;> omega
      · rw [if_neg hc, if_pos (by omega)]
        refine ⟨rfl, by omega, by omega, ?_⟩
        rw [abs_le]; constructor <;> omega
    · simp only [if_neg ht]
      by_cases hc : c > -m
      · rw [if_pos hc, if_neg (by omega), toInt8_of_range _ (by omega) (by omega)]
        refine ⟨rfl, by omega, by omega, ?_⟩
        rw [abs_le]; constructor <;> omega
      · rw [if_neg hc, if_pos (by omega)]
        refine ⟨rfl, by omega, by omega, ?_⟩
        rw [abs_le]; constructor <;> omega
  · intro mn mx c taken h1 h2 h3 h4
    unfold updateSaturateMinMax
    by_cases ht : taken ≠ 0
    · simp only [if_pos ht]
      by_cases hc : c < mx
      · rw [if_pos hc, if_neg (by omega), toInt8_of_range _ (by omega) (by omega)]
        refine ⟨rfl, by omega, by omega, ?_⟩
        rw [abs_le]; constructor <;> omega
      · rw [if_neg hc, if_pos (by omega)]
        refine ⟨rfl, by omega, by omega, ?_⟩
        rw [abs_le]; constructor <;> omega
    · simp only [if_neg ht]
      by_cases hc : c > mn
      · rw [if_pos hc, if_neg (by omega), toInt8_of_range _ (by omega) (by omega)]
        refine ⟨rfl, by omega, by omega, ?_⟩
        rw [abs_le]; constructor <;> omega
      · rw [if_neg hc, if_pos (by omega)]
        refine ⟨rfl, by omega, by omega, ?_⟩
        rw [abs_le]; constructor <;> omega
  · intro c outcome hc
    unfold shift_prediction ST SN
    by_cases ho : outcome = TAKEN
    · simp only [ho, if_true]
      by_cases h3 : c < 3
      · rw [if_pos h3, if_neg (by omega)]
        exact ⟨rfl, by omega, by omega, by omega⟩
      · rw [if_neg h3, if_pos (by omega)]
        exact ⟨rfl, by omega, by omega, by omega⟩
    · simp only [ho, if_false]
      by_cases h0 : c > 0
      · rw [if_pos h0, if_neg (by omega)]
        exact ⟨rfl, by omega, by omega, by omega⟩
      · rw [if_neg h0, if_pos (by omega)]
        exact ⟨rfl, by omega, by omega, by omega⟩

/-- Witness of the amended C11: the 3-bit counter at its maximum 3 stays 3 on
taken and one below it moves up; usefulness 0 stays 0 on not-taken; the 2-bit
counter 3 stays 3. -/
theorem saturating_step_witness :
    updateSaturate 3 1 3 = 3 ∧ updateSaturate 2 1 3 = 3 ∧ updateSaturate (-4) 0 3 = -4 ∧
    updateSaturateMinMax 0 0 0 3 = 0 ∧ shift_prediction 3 TAKEN = 3 := by
  have h1 := (saturating_step.1 3 3 1 (by decide) (by decide) (by decide) (by decide)).1
  have h2 := (saturating_step.1 3 2 1 (by decide) (by decide) (by decide) (by decide)).1
  have h3 := (saturating_step.1 3 (-4) 0 (by decide) (by decide) (by decide) (by decide)).1
  have h4 := (saturating_step.2.1 0 3 0 0 (by decide) (by decide) (by decide) (by decide)).1
  have h5 := (saturating_step.2.2 3 TAKEN (by decide)).1
  exact ⟨h1, h2, h3, h4, h5⟩

/-! ## Static predictor -/

/-- C12: with the Static kind configured, `make_prediction` returns TAKEN for
every address and state (and leaves the state as it is), and `train_predictor`
leaves the whole state unchanged for every address, outcome and environment. -/
theorem static_predictor (s : State) (pc outcome : Nat) (env : Env)
    (hk : s.bpType = STATIC) :
    (make_prediction s pc).2 = TAKEN ∧ (make_prediction s pc).1 = s ∧
    train_predictor s pc outcome env = s := by
  unfold make_prediction train_predictor
  rw [if_pos hk, if_pos hk]
  exact ⟨rfl, rfl, rfl⟩

/-- Witness of C12: the Static configuration at program start, address 12345,
outcome NOTTAKEN. -/
theorem static_predictor_witness :
    (startState STATIC 0 0 0).bpType = STATIC ∧
    (make_prediction (startState STATIC 0 0 0) 12345).2 = TAKEN ∧
    train_predictor (startState STATIC 0 0 0) 12345 NOTTAKEN ⟨0, fun _ _ => 0⟩
      = startState STATIC 0 0 0 :=
  ⟨rfl, (static_predictor (startState STATIC 0 0 0) 12345 NOTTAKEN ⟨0, fun _ _ => 0⟩ rfl).1,
    (static_predictor (startState STATIC 0 0 0) 12345 NOTTAKEN ⟨0, fun _ _ => 0⟩ rfl).2.2⟩

/-! ## Unknown predictor kind -/

/-- C14 as stated fails: `init_predictor` run with the kind 9, which is none of
the four, returns with every variable as it was (the function is `void` and has
no other channel), and the next `make_prediction` answers NOTTAKEN as usual. -/
theorem config_error_counterexample :
    (startState 9 0 0 0).bpType ≠ STATIC ∧ (startState 9 0 0 0).bpType ≠ GSHARE ∧
    (startState 9 0 0 0).bpType ≠ TOURNAMENT ∧ (startState 9 0 0 0).bpType ≠ CUSTOM ∧
    init_predictor (startState 9 0 0 0) = startState 9 0 0 0 ∧
    make_prediction (init_predictor (startState 9 0 0 0)) 0 = (startState 9 0 0 0, NOTTAKEN) := by
  refine ⟨by decide, by decide, by decide, by decide, rfl, rfl⟩

/-- C14 amended: with a kind that is none of Static, Gshare, Tournament, Custom,
`init_predictor` completes and changes nothing, `make_prediction` returns
NOTTAKEN for every address and changes nothing, and `train_predictor` changes
nothing. -/
theorem unknown_kind_silent (s : State) (pc outcome : Nat) (env : Env)
    (h0 : s.bpType ≠ STATIC) (h1 : s.bpType ≠ GSHARE)
    (h2 : s.bpType ≠ TOURNAMENT) (h3 : s.bpType ≠ CUSTOM) :
    init_predictor s = s ∧ make_prediction s pc = (s, NOTTAKEN) ∧
    train_predictor s pc outcome env = s := by
  unfold init_predictor make_prediction train_predictor
  rw [if_neg h0, if_neg h1, if_neg h2, if_neg h3, if_neg h0, if_neg h1, if_neg h2, if_neg h3,
    if_neg h0, if_neg h1, if_neg h2, if_neg h3]
  exact ⟨rfl, rfl, rfl⟩

/-- Witness of the amended C14 at kind 9. -/
theorem unknown_kind_silent_witness :
    init_predictor (startState 9 0 0 0) = startState 9 0 0 0 ∧
    make_prediction (startState 9 0 0 0) 77 = (startState 9 0 0 0, NOTTAKEN) ∧
    train_predictor (startState 9 0 0 0) 77 TAKEN ⟨0, fun _ _ => 0⟩ = startState 9 0 0 0 :=
  unknown_kind_silent (startState 9 0 0 0) 77 TAKEN ⟨0, fun _ _ => 0⟩
    (by decide) (by decide) (by decide) (by decide)

/-! ## Bank history lengths after initialisation -/

theorem initBank_registers (old : Bank) (i : Nat) :
    (initBank old i).geometry = GEOMETRICS i ∧
    (initBank old i).indexCompressed
      = { compressed := 0, geometryLength := toInt8 (GEOMETRICS i),
          targetLength := (LEN_GLOBAL : Int) } ∧
    (initBank old i).tagCompressed0
      = { compressed := 0, geometryLength := toInt8 (GEOMETRICS i),
          targetLength :=
            toInt8 ((LEN_TAG : Int) - (((i + (NUM_BANKS &&& 1)) / 2 : Nat) : Int)) } ∧
    (initBank old i).tagCompressed1
      = { compressed := 0, geometryLength := toInt8 (GEOMETRICS i),
          targetLength :=
            toInt8 ((LEN_TAG : Int) - (((i + (NUM_BANKS &&& 1)) / 2 : Nat) : Int) - 1) } :=
  ⟨rfl, rfl, rfl, rfl⟩

theorem tage_init_bank (s : State) (i : Nat) (hi : i < 7) :
    (tage_init s).tageBank i = initBank (s.tageBank i) i := by
  simp [tage_init, NUM_BANKS, hi]

/-- C16 at its failing input: after `tage_init` the `int8_t` field
`geometryLength` of the three registers of bank 0 holds -126, not 130; the
shift amount `geometryLength % targetLength` of its first tag register is
`-126 % 10 = -6`; so the update of the registers of bank 0 takes the
environment value `u` instead of a history bit.  For the banks 1..6 the field
holds the geometric length 76, 44, 26, 15, 9, 5. -/
theorem bank0_geometryLength_wraps (s : State) :
    ((tage_init s).tageBank 0).geometry = 130 ∧
    ((tage_init s).tageBank 0).indexCompressed.geometryLength = -126 ∧
    ((tage_init s).tageBank 0).tagCompressed0.geometryLength = -126 ∧
    ((tage_init s).tageBank 0).tagCompressed1.geometryLength = -126 ∧
    Int.tmod ((tage_init s).tageBank 0).tagCompressed0.geometryLength
      ((tage_init s).tageBank 0).tagCompressed0.targetLength = -6 ∧
    (∀ (hist : Nat → Nat) (u : Nat),
      (t_updateCompressed ((tage_init s).tageBank 0).indexCompressed hist u).compressed
        = ((hist 0 % 2 ^ 32 ^^^ u % 2 ^ 32)
            ^^^ ((hist 0 % 2 ^ 32 ^^^ u % 2 ^ 32) >>> 9)) &&& 511) ∧
    (∀ i, 1 ≤ i → i < 7 →
      ((tage_init s).tageBank i).indexCompressed.geometryLength = (GEOMETRICS i : Int) ∧
      ((tage_init s).tageBank i).tagCompressed0.geometryLength = (GEOMETRICS i : Int) ∧
      ((tage_init s).tageBank i).tagCompressed1.geometryLength = (GEOMETRICS i : Int)) := by
  have h0 := initBank_registers (s.tageBank 0) 0
  have hw : toInt8 ((GEOMETRICS 0 : Nat) : Int) = -126 := by decide
  refine ⟨?_, ?_, ?_, ?_, ?_, ?_, ?_⟩
  · rw [tage_init_bank s 0 (by decide), h0.1]; rfl
  · rw [tage_init_bank s 0 (by decide), h0.2.1]; exact hw
  · rw [tage_init_bank s 0 (by decide), h0.2.2.1]; exact hw
  · rw [tage_init_bank s 0 (by decide), h0.2.2.2]; exact hw
  · rw [tage_init_bank s 0 (by decide), h0.2.2.1]; decide
  · intro hist u
    rw [tage_init_bank s 0 (by decide), h0.2.1]
    simp only [t_updateCompressed, hw]
    simp [LEN_GLOBAL, MAX_HISTORY_LEN]
  · intro i h1 h7
    have hi := initBank_registers (s.tageBank i) i
    rw [tage_init_bank s i h7, hi.2.1, hi.2.2.1, hi.2.2.2]
    interval_cases i <;> refine ⟨?_, ?_, ?_⟩ <;> decide

/-! ## Tournament: choice training -/

/-- C18: when the two sub-predictions cached by the preceding
`get_tournament_prediction` differ (outcome 0 or 1), exactly one of them equals
the outcome; `tournament_update` moves the choice counter at index
`globalhistory AND mask` one saturating step up (towards 3) when the local one
was right and one saturating step down (towards 0) when the global one was
right, and leaves every other choice cell unchanged.  The prediction of the
preceding call was the local one exactly when that counter was 2 or more, so
the step goes towards the values that select the sub-predictor that was right:
a counter selecting it keeps selecting it. -/
theorem tournament_choice_training (s : State) (pc outcome : Nat)
    (ho : outcome = NOTTAKEN ∨ outcome = TAKEN)
    (hd : (get_tournament_prediction s pc).1.localOutcome
      ≠ (get_tournament_prediction s pc).1.globalOutcome) :
    (((get_tournament_prediction s pc).1.localOutcome = outcome ∧
        (get_tournament_prediction s pc).1.globalOutcome ≠ outcome) ∨
     ((get_tournament_prediction s pc).1.globalOutcome = outcome ∧
        (get_tournament_prediction s pc).1.localOutcome ≠ outcome)) ∧
    ((get_tournament_prediction s pc).2 = (get_tournament_prediction s pc).1.localOutcome ↔
      2 ≤ s.choicePT (s.globalhistory_t &&& (2 ^ s.ghistoryBits - 1))) ∧
    ((get_tournament_prediction s pc).1.localOutcome = outcome →
      (tournament_update (get_tournament_prediction s pc).1 pc outcome).choicePT
          (s.globalhistory_t &&& (2 ^ s.ghistoryBits - 1))
        = (if s.choicePT (s.globalhistory_t &&& (2 ^ s.ghistoryBits - 1)) < 3
           then s.choicePT (s.globalhistory_t &&& (2 ^ s.ghistoryBits - 1)) + 1
           else s.choicePT (s.globalhistory_t &&& (2 ^ s.ghistoryBits - 1))) ∧
      (2 ≤ s.choicePT (s.globalhistory_t &&& (2 ^ s.ghistoryBits - 1)) →
        2 ≤ (tournament_update (get_tournament_prediction s pc).1 pc outcome).choicePT
          (s.globalhistory_t &&& (2 ^ s.ghistoryBits - 1)))) ∧
    ((get_tournament_prediction s pc).1.globalOutcome = outcome →
      (tournament_update (get_tournament_prediction s pc).1 pc outcome).choicePT
          (s.globalhistory_t &&& (2 ^ s.ghistoryBits - 1))
        = (if 0 < s.choicePT (s.globalhistory_t &&& (2 ^ s.ghistoryBits - 1))
           then s.choicePT (s.globalhistory_t &&& (2 ^ s.ghistoryBits - 1)) - 1
           else s.choicePT (s.globalhistory_t &&& (2 ^ s.ghistoryBits - 1))) ∧
      (s.choicePT (s.globalhistory_t &&& (2 ^ s.ghistoryBits - 1)) < 2 →
        (tournament_update (get_tournament_prediction s pc).1 pc outcome).choicePT
          (s.globalhistory_t &&& (2 ^ s.ghistoryBits - 1)) < 2)) ∧
    (∀ j, j ≠ s.globalhistory_t &&& (2 ^ s.ghistoryBits - 1) →
      (tournament_update (get_tournament_prediction s pc).1 pc outcome).choicePT j
        = s.choicePT j) := by
  have hfr : (get_tournament_prediction s pc).1.choicePT = s.choicePT ∧
      (get_tournament_prediction s pc).1.globalhistory_t = s.globalhistory_t ∧
      (get_tournament_prediction s pc).1.ghistoryBits = s.ghistoryBits := by
    simp only [get_tournament_prediction, get_global_prediction, get_local_prediction]
    split_ifs <;> exact ⟨rfl, rfl, rfl⟩
  obtain ⟨f1, f2, f3⟩ := hfr
  have hl : (get_tournament_prediction s pc).1.localOutcome = NOTTAKEN ∨
      (get_tournament_prediction s pc).1.localOutcome = TAKEN := by
    simp only [get_tournament_prediction, get_global_prediction, get_local_prediction]
    split_ifs <;> simp
  have hg : (get_tournament_prediction s pc).1.globalOutcome = NOTTAKEN ∨
      (get_tournament_prediction s pc).1.globalOutcome = TAKEN := by
    simp only [get_tournament_prediction, get_global_prediction, get_local_prediction]
    split_ifs <;> simp
  have hsel : (get_tournament_prediction s pc).2
      = if s.choicePT (s.globalhistory_t &&& (2 ^ s.ghistoryBits - 1)) < 2
        then (get_tournament_prediction s pc).1.globalOutcome
        else (get_tournament_prediction s pc).1.localOutcome := by
    simp only [get_tournament_prediction, get_global_prediction, get_local_prediction,
      maskOf_eq, SN, WN]
    by_cases hc : s.choicePT (s.globalhistory_t &&& (2 ^ s.ghistoryBits - 1)) < 2
    · rw [if_pos (by omega), if_pos hc]
    · rw [if_neg (by omega), if_neg hc]
  have hupd : (tournament_update (get_tournament_prediction s pc).1 pc outcome).choicePT
      = if (get_tournament_prediction s pc).1.localOutcome = outcome then
          setAt s.choicePT (s.globalhistory_t &&& (2 ^ s.ghistoryBits - 1))
            (shift_prediction (s.choicePT (s.globalhistory_t &&& (2 ^ s.ghistoryBits - 1))) TAKEN)
        else if (get_tournament_prediction s pc).1.globalOutcome = outcome then
          setAt s.choicePT (s.globalhistory_t &&& (2 ^ s.ghistoryBits - 1))
            (shift_prediction (s.choicePT (s.globalhistory_t &&& (2 ^ s.ghistoryBits - 1)))
              NOTTAKEN)
        else s.choicePT := by
    simp only [tournament_update, f1, f2, f3, maskOf_eq, if_pos hd]
  refine ⟨?_, ?_, ?_, ?_, ?_⟩
  · simp only [NOTTAKEN, TAKEN] at hl hg ho
    rcases hl with hl | hl <;> rcases hg with hg | hg <;> rcases ho with ho | ho <;>
      simp_all
  · rw [hsel]
    by_cases hc : s.choicePT (s.globalhistory_t &&& (2 ^ s.ghistoryBits - 1)) < 2
    · rw [if_pos hc]
      constructor
      · intro h; exact absurd h.symm hd
      · intro h; omega
    · rw [if_neg hc]
      constructor
      · intro _; omega
      · intro _; rfl
  · intro hloc
    rw [hupd, if_pos hloc, setAt_same]
    unfold shift_prediction ST SN
    rw [if_pos rfl]
    constructor
    · rfl
    · intro h2
      split_ifs <;> omega
  · intro hglob
    have hloc : ¬ (get_tournament_prediction s pc).1.localOutcome = outcome := by
      intro h; exact hd (h.trans hglob.symm)
    rw [hupd, if_neg hloc, if_pos hglob, setAt_same]
    unfold shift_prediction ST SN
    rw [if_neg (by decide)]
    constructor
    · rfl
    · intro h2
      split_ifs <;> omega
  · intro j hj
    rw [hupd]
    split_ifs
    · exact setAt_other _ _ _ _ hj
    · exact setAt_other _ _ _ _ hj
    · rfl

/-- Witness of C18: tournament predictor (0 global-history bits, 2
local-history bits, 1 pc bit) after the training step `(0, TAKEN)`; at
address 0 the local sub-prediction is NOTTAKEN and the global one TAKEN; with
outcome NOTTAKEN the local one was right and the choice counter at index 0
goes from 1 to 2. -/
theorem tournament_choice_training_witness :
    (get_tournament_prediction
        (runTrace (init_predictor (startState TOURNAMENT 0 2 1))
          [(0, TAKEN, ⟨0, fun _ _ => 0⟩)]).1 0).1.localOutcome = NOTTAKEN ∧
    (get_tournament_prediction
        (runTrace (init_predictor (startState TOURNAMENT 0 2 1))
          [(0, TAKEN, ⟨0, fun _ _ => 0⟩)]).1 0).1.globalOutcome = TAKEN ∧
    (tournament_update
        (get_tournament_prediction
          (runTrace (init_predictor (startState TOURNAMENT 0 2 1))
            [(0, TAKEN, ⟨0, fun _ _ => 0⟩)]).1 0).1 0 NOTTAKEN).choicePT 0 = 2 := by
  have h := tournament_choice_training
    (runTrace (init_predictor (startState TOURNAMENT 0 2 1)) [(0, TAKEN, ⟨0, fun _ _ => 0⟩)]).1
    0 NOTTAKEN (Or.inl rfl) (by decide)
  exact ⟨by decide, by decide, (h.2.2.1 (by decide)).1⟩

/-! ## Table indices -/

/-- C20: every table index computed by predict or train lies inside its table,
for every state, configuration and address: the Gshare index is below
`2^ghistoryBits`; the tournament local-history-table index is below
`2^pcIndexBits`, the local prediction index below `2^lhistoryBits` and the
global/choice index below `2^ghistoryBits`; every bank candidate index is below
512, also as cached by `tage_predict` for the following `tage_train`; the
bimodal index is below 4099. -/
theorem indices_in_bounds (s : State) (pc : Nat) :
    gshare_index s pc < 2 ^ s.ghistoryBits ∧
    pc &&& maskOf s.pcIndexBits < 2 ^ s.pcIndexBits ∧
    local_index s pc < 2 ^ s.lhistoryBits ∧
    s.globalhistory_t &&& maskOf s.ghistoryBits < 2 ^ s.ghistoryBits ∧
    (∀ i, getGlobalIndex s pc i < 512) ∧
    (∀ i, i < 7 → (tage_predict s pc).1.bankGlobalIndex i < 512) ∧
    pc % BIMODAL_SIZE < 4099 := by
  have hidx : ∀ i, getGlobalIndex s pc i < 512 := by
    intro i
    unfold getGlobalIndex
    simp only
    exact and_maskOf_lt _ 9
  refine ⟨?_, and_maskOf_lt _ _, ?_, and_maskOf_lt _ _, hidx, ?_, ?_⟩
  · unfold gshare_index
    exact Nat.xor_lt_two_pow (and_maskOf_lt _ _) (and_maskOf_lt _ _)
  · unfold local_index
    exact lt_of_le_of_lt (Nat.mod_le _ _) (and_maskOf_lt _ _)
  · intro i hi
    rw [(tage_predict_banks s pc).2.2.1]
    simp only [tage_candidates, NUM_BANKS, hi, if_true]
    exact hidx i
  · exact Nat.mod_lt _ (by decide)

/-! ## Custom predictor: usefulness of the primary entry -/

theorem bankWalk_bounds : ∀ (x Y : Nat), -1 ≤ bankWalk x Y ∧ bankWalk x Y ≤ (x : Int) := by
  intro x
  induction x with
  | zero =>
    intro Y
    simp only [bankWalk]
    split_ifs <;> simp
  | succ x ih =>
    intro Y
    simp only [bankWalk]
    split_ifs
    · have := ih (Y >>> 1)
      push_cast
      omega
    · constructor
      · push_cast; omega
      · exact le_refl _

theorem bankWalk_nonneg : ∀ (x Y : Nat), Y < 2 ^ x → 0 ≤ bankWalk x Y := by
  intro x
  induction x with
  | zero =>
    intro Y hY
    have h0 : Y = 0 := by simpa using hY
    subst h0
    decide
  | succ x ih =>
    intro Y hY
    simp only [bankWalk]
    split_ifs
    · apply ih
      rw [Nat.shiftRight_eq_div_pow]
      have := Nat.pow_succ 2 x
      omega
    · push_cast; omega

theorem decayLoop_other (idx : Nat → Nat) :
    ∀ (n : Nat) (banks : Nat → Bank) (k : Nat), n ≤ k → decayLoop idx n banks k = banks k := by
  intro n
  induction n with
  | zero => intro banks k _; rfl
  | succ n ih =>
    intro banks k hk
    simp only [decayLoop]
    rw [ih _ k (by omega), modifyEntry_other _ _ _ _ _ (by omega)]

theorem allocLoop_other (s : State) (pc outcome : Nat) (minUse : Int) :
    ∀ (n k : Nat), n ≤ k → allocLoop s pc outcome minUse n k = s.tageBank k := by
  intro n
  induction n with
  | zero => intro k _; rfl
  | succ n ih =>
    intro k hk
    simp only [allocLoop]
    by_cases hc : ((s.tageBank n).entry (s.bankGlobalIndex n)).usefulness = minUse
    · rw [if_pos hc, modifyEntry_other _ _ _ _ _ (by omega)]
    · rw [if_neg hc]
      exact ih k (by omega)

/-- Number of iterations of the replacement loop, `X + 1`, is at most the
primary bank. -/
theorem allocate_replace (s : State) (pc outcome rnd : Nat)
    (hmin : ¬ minUseLoop s.tageBank s.bankGlobalIndex s.primaryBank > 0) :
    ∃ n, n ≤ s.primaryBank ∧
      allocate s pc outcome rnd
        = allocLoop s pc outcome (minUseLoop s.tageBank s.bankGlobalIndex s.primaryBank) n ∧
      (∀ p, s.primaryBank = p + 1 →
        (n : Int) = bankWalk p (rnd &&& ((1 <<< p) - 1)) + 1) := by
  unfold allocate
  simp only
  rw [if_neg hmin]
  cases hp : s.primaryBank with
  | zero =>
    refine ⟨0, le_refl _, rfl, ?_⟩
    intro p h
    omega
  | succ p =>
    have hb := bankWalk_bounds p (rnd &&& ((1 <<< (p + 1 - 1)) - 1))
    refine ⟨(bankWalk p (rnd &&& ((1 <<< (p + 1 - 1)) - 1)) + 1).toNat, by omega, rfl, ?_⟩
    intro q hq
    have hqp : q = p := by omega
    subst hqp
    simp only [Nat.add_sub_cancel]
    have hb' := bankWalk_bounds q (rnd &&& ((1 <<< q) - 1))
    omega

/-- The allocation block does not touch the primary bank or any bank above
it. -/
theorem trainAllocate_high (s : State) (pc outcome rnd : Nat) (k : Nat)
    (hk : s.primaryBank ≤ k) : trainAllocate s pc outcome rnd k = s.tageBank k := by
  unfold trainAllocate
  split_ifs
  · by_cases hmin : minUseLoop s.tageBank s.bankGlobalIndex s.primaryBank > 0
    · unfold allocate
      simp only
      rw [if_pos hmin]
      exact decayLoop_other _ _ _ _ hk
    · obtain ⟨n, hn, he, -⟩ := allocate_replace s pc outcome rnd hmin
      rw [he]
      exact allocLoop_other s pc outcome _ n k (by omega)
  · rfl

/-- Usefulness of the primary entry after `tage_train`: only step 4 writes
it. -/
theorem tage_train_primary_useful (t : State) (pc outcome : Nat) (env : Env)
    (hp : t.primaryBank < NUM_BANKS) :
    (((tage_train t pc outcome env).tageBank t.primaryBank).entry
        (t.bankGlobalIndex t.primaryBank)).usefulness
      = if t.lastPrediction ≠ t.alternatePrediction then
          updateSaturateMinMax
            ((t.tageBank t.primaryBank).entry (t.bankGlobalIndex t.primaryBank)).usefulness
            (if t.lastPrediction = outcome then 1 else 0) 0 3
        else ((t.tageBank t.primaryBank).entry (t.bankGlobalIndex t.primaryBank)).usefulness := by
  rw [tage_train_entry, trainUseful_entry, trainCounter_entry,
    trainAllocate_high t pc outcome env.rand t.primaryBank (le_refl _)]
  by_cases hd : t.lastPrediction ≠ t.alternatePrediction
  · rw [if_pos ⟨hd, hp, rfl, rfl⟩, if_pos ⟨hp, rfl, rfl⟩, if_pos hd]
  · rw [if_neg (fun h => hd h.1), if_pos ⟨hp, rfl, rfl⟩, if_neg hd]

/-- C19: for `tage_train` following `tage_predict` at the same address with a
primary bank whose entry holds a usefulness `u` in `[0,3]`: if the final
prediction differs from the alternate prediction, the usefulness after training
is `min (u+1) 3` when the final prediction equals the outcome and `max (u-1) 0`
otherwise; if the final prediction equals the alternate prediction, it is
`u`. -/
theorem usefulness_update (s : State) (pc outcome : Nat) (env : Env)
    (hp : (tage_predict s pc).1.primaryBank < 7)
    (hu0 : 0 ≤ ((s.tageBank (tage_predict s pc).1.primaryBank).entry
      (getGlobalIndex s pc (tage_predict s pc).1.primaryBank)).usefulness)
    (hu3 : ((s.tageBank (tage_predict s pc).1.primaryBank).entry
      (getGlobalIndex s pc (tage_predict s pc).1.primaryBank)).usefulness ≤ 3) :
    ((tage_predict s pc).2 ≠ (tage_predict s pc).1.alternatePrediction →
      (((tage_train (tage_predict s pc).1 pc outcome env).tageBank
          (tage_predict s pc).1.primaryBank).entry
          (getGlobalIndex s pc (tage_predict s pc).1.primaryBank)).usefulness
        = if (tage_predict s pc).2 = outcome then
            min (((s.tageBank (tage_predict s pc).1.primaryBank).entry
              (getGlobalIndex s pc (tage_predict s pc).1.primaryBank)).usefulness + 1) 3
          else
            max (((s.tageBank (tage_predict s pc).1.primaryBank).entry
              (getGlobalIndex s pc (tage_predict s pc).1.primaryBank)).usefulness - 1) 0) ∧
    ((tage_predict s pc).2 = (tage_predict s pc).1.alternatePrediction →
      (((tage_train (tage_predict s pc).1 pc outcome env).tageBank
          (tage_predict s pc).1.primaryBank).entry
          (getGlobalIndex s pc (tage_predict s pc).1.primaryBank)).usefulness
        = ((s.tageBank (tage_predict s pc).1.primaryBank).entry
            (getGlobalIndex s pc (tage_predict s pc).1.primaryBank)).usefulness) := by
  obtain ⟨-, -, e3, -, e5, -, e7⟩ := tage_predict_banks s pc
  have h7 : NUM_BANKS = 7 := rfl
  have hidx : (tage_predict s pc).1.bankGlobalIndex (tage_predict s pc).1.primaryBank
      = getGlobalIndex s pc (tage_predict s pc).1.primaryBank := by
    rw [e3]
    simp [tage_candidates, h7, hp]
  have key := tage_train_primary_useful (tage_predict s pc).1 pc outcome env (by rw [h7]; exact hp)
  rw [hidx, e5, e7] at key
  constructor
  · intro hd
    rw [key, if_pos hd]
    unfold updateSaturateMinMax
    by_cases ho : (tage_predict s pc).2 = outcome
    · rw [if_pos ho, if_pos ho, if_pos (by decide)]
      split_ifs with hlt
      · rw [toInt8_of_range _ (by omega) (by omega)]; omega
      · omega
    · rw [if_neg ho, if_neg ho, if_neg (by decide)]
      split_ifs with hgt
      · rw [toInt8_of_range _ (by omega) (by omega)]; omega
      · omega
  · intro hd
    rw [key, if_neg (by intro h; exact h hd)]

/-- Witness of C19: `agingExample` at address 1 with its bank 1 counter set to
2.  Bank 1 is the primary bank with usefulness 0; its prediction TAKEN differs
from the alternate (bimodal) prediction NOTTAKEN; with outcome TAKEN the
usefulness becomes 1. -/
theorem usefulness_update_witness :
    (tage_predict
        { agingExample with
          tageBank := modifyEntry agingExample.tageBank 1 1
            (fun e => { e with saturateCounter := 2 }) } 1).1.primaryBank = 1 ∧
    (((tage_train (tage_predict
        { agingExample with
          tageBank := modifyEntry agingExample.tageBank 1 1
            (fun e => { e with saturateCounter := 2 }) } 1).1 1 TAKEN
          ⟨5, fun _ _ => 0⟩).tageBank 1).entry 1).usefulness = 1 := by
  have h := usefulness_update
    { agingExample with
      tageBank := modifyEntry agingExample.tageBank 1 1
        (fun e => { e with saturateCounter := 2 }) } 1 TAKEN ⟨5, fun _ _ => 0⟩
    (by decide) (by decide) (by decide)
  exact ⟨by decide, (h.1 (by decide)).trans (by decide)⟩

/-! ## Custom predictor: allocation overwrite -/

theorem allocLoop_none (s : State) (pc outcome : Nat) (minUse : Int) :
    ∀ n, (∀ i, i < n → ((s.tageBank i).entry (s.bankGlobalIndex i)).usefulness ≠ minUse) →
      allocLoop s pc outcome minUse n = s.tageBank := by
  intro n
  induction n with
  | zero => intro _; rfl
  | succ n ih =>
    intro h
    simp only [allocLoop]
    rw [if_neg (h n (by omega))]
    exact ih (fun i hi => h i (by omega))

theorem allocLoop_hit (s : State) (pc outcome : Nat) (minUse : Int) (i : Nat)
    (hi : ((s.tageBank i).entry (s.bankGlobalIndex i)).usefulness = minUse) :
    ∀ n, i < n →
      (∀ k, i < k → k < n → ((s.tageBank k).entry (s.bankGlobalIndex k)).usefulness ≠ minUse) →
      allocLoop s pc outcome minUse n
        = modifyEntry s.tageBank i (s.bankGlobalIndex i) (fun _ =>
            { tag := generateGlobalEntryTag s pc i
              saturateCounter := if outcome = TAKEN then 0 else -1
              usefulness := 0 }) := by
  intro n
  induction n with
  | zero => intro h; omega
  | succ n ih =>
    intro hin hk
    simp only [allocLoop]
    by_cases hn : i = n
    · subst hn
      rw [if_pos hi]
    · rw [if_neg (hk n (by omega) (by omega))]
      exact ih (by omega) (fun k h1 h2 => hk k h1 (by omega))

/-- Steps 3 and 4 of `tage_train` keep every tag, and change no entry other
than the primary one. -/
theorem train_steps_entry (s : State) (outcome : Nat) (banks : Nat → Bank) (k l : Nat) :
    (((trainUseful s outcome (trainCounter s outcome banks)) k).entry l).tag
      = ((banks k).entry l).tag ∧
    (¬ (s.primaryBank < NUM_BANKS ∧ k = s.primaryBank ∧
        l = s.bankGlobalIndex s.primaryBank) →
      ((trainUseful s outcome (trainCounter s outcome banks)) k).entry l = (banks k).entry l) := by
  rw [trainUseful_entry, trainCounter_entry]
  constructor
  · split_ifs <;> rfl
  · intro h
    rw [if_neg (fun hc => h hc.2), if_neg h]

theorem minUseLoop_zero (banks : Nat → Bank) (idx : Nat → Nat) (n : Nat)
    (hge : ∀ i, i < n → 0 ≤ ((banks i).entry (idx i)).usefulness)
    (hz : ∃ i, i < n ∧ ((banks i).entry (idx i)).usefulness = 0) :
    minUseLoop banks idx n = 0 := by
  obtain ⟨i, hi, hi0⟩ := hz
  have hle := minUseLoop_le banks idx n i hi
  rcases minUseLoop_mem banks idx n with h | ⟨j, hj, h⟩
  · omega
  · have := hge j hj
    omega

/-- With primary bank 0 the minimum loop reads nothing and the allocation block
leaves the banks alone: the replacement branch is not entered. -/
theorem allocate_primary_zero (t : State) (pc outcome rnd : Nat) (h0 : t.primaryBank = 0) :
    minUseLoop t.tageBank t.bankGlobalIndex t.primaryBank = 127 ∧
    allocate t pc outcome rnd = t.tageBank := by
  have hm : minUseLoop t.tageBank t.bankGlobalIndex t.primaryBank = 127 := by
    rw [h0]; rfl
  refine ⟨hm, ?_⟩
  unfold allocate
  simp only
  rw [if_pos (by rw [hm]; decide), h0]
  rfl

/-- Training after a misprediction that needs an allocation, when the least
usefulness among the banks below the primary one is 0. -/
theorem tage_train_overwrite (t : State) (pc outcome : Nat) (env : Env)
    (hneed : needAllocate t outcome = true)
    (hge : ∀ i, i < t.primaryBank →
      0 ≤ ((t.tageBank i).entry (t.bankGlobalIndex i)).usefulness)
    (hz : ∃ i, i < t.primaryBank ∧
      ((t.tageBank i).entry (t.bankGlobalIndex i)).usefulness = 0) :
    1 ≤ t.primaryBank ∧
    0 ≤ bankWalk (t.primaryBank - 1) (env.rand &&& ((1 <<< (t.primaryBank - 1)) - 1)) ∧
    bankWalk (t.primaryBank - 1) (env.rand &&& ((1 <<< (t.primaryBank - 1)) - 1))
      ≤ (t.primaryBank : Int) - 1 ∧
    (∀ i : Nat, (i : Int) ≤ bankWalk (t.primaryBank - 1)
          (env.rand &&& ((1 <<< (t.primaryBank - 1)) - 1)) →
      ((t.tageBank i).entry (t.bankGlobalIndex i)).usefulness = 0 →
      (∀ k : Nat, i < k →
        (k : Int) ≤ bankWalk (t.primaryBank - 1)
          (env.rand &&& ((1 <<< (t.primaryBank - 1)) - 1)) →
        ((t.tageBank k).entry (t.bankGlobalIndex k)).usefulness ≠ 0) →
      ((tage_train t pc outcome env).tageBank i).entry (t.bankGlobalIndex i)
          = { tag := generateGlobalEntryTag t pc i
              saturateCounter := if outcome = TAKEN then 0 else -1
              usefulness := 0 } ∧
      (∀ k l, ¬ (k = i ∧ l = t.bankGlobalIndex i) →
        (((tage_train t pc outcome env).tageBank k).entry l).tag = ((t.tageBank k).entry l).tag) ∧
      (∀ k l, ¬ (k = i ∧ l = t.bankGlobalIndex i) →
        ¬ (t.primaryBank < NUM_BANKS ∧ k = t.primaryBank ∧
            l = t.bankGlobalIndex t.primaryBank) →
        ((tage_train t pc outcome env).tageBank k).entry l = (t.tageBank k).entry l)) ∧
    ((∀ i : Nat, (i : Int) ≤ bankWalk (t.primaryBank - 1)
          (env.rand &&& ((1 <<< (t.primaryBank - 1)) - 1)) →
        ((t.tageBank i).entry (t.bankGlobalIndex i)).usefulness ≠ 0) →
      (∀ k l,
        (((tage_train t pc outcome env).tageBank k).entry l).tag = ((t.tageBank k).entry l).tag) ∧
      (∀ k l, ¬ (t.primaryBank < NUM_BANKS ∧ k = t.primaryBank ∧
            l = t.bankGlobalIndex t.primaryBank) →
        ((tage_train t pc outcome env).tageBank k).entry l = (t.tageBank k).entry l)) := by
  have hmin0 : minUseLoop t.tageBank t.bankGlobalIndex t.primaryBank = 0 :=
    minUseLoop_zero _ _ _ hge hz
  obtain ⟨i0, hi0, -⟩ := hz
  have hmin : ¬ minUseLoop t.tageBank t.bankGlobalIndex t.primaryBank > 0 := by
    rw [hmin0]; decide
  obtain ⟨n, hn, he, hX⟩ := allocate_replace t pc outcome env.rand hmin
  obtain ⟨p, hp⟩ : ∃ p, t.primaryBank = p + 1 := ⟨t.primaryBank - 1, by omega⟩
  have hnX := hX p hp
  have hsub : t.primaryBank - 1 = p := by omega
  rw [hsub]
  have hYlt : env.rand &&& ((1 <<< p) - 1) < 2 ^ p := and_maskOf_lt env.rand p
  have hX0 := bankWalk_nonneg p _ hYlt
  have hXle := (bankWalk_bounds p (env.rand &&& ((1 <<< p) - 1))).2
  have halloc : trainAllocate t pc outcome env.rand = allocLoop t pc outcome 0 n := by
    unfold trainAllocate
    rw [if_pos hneed, he, hmin0]
  refine ⟨by omega, hX0, by omega, ?_, ?_⟩
  · intro i hiX hi0' hhigh
    have hmod := allocLoop_hit t pc outcome 0 i hi0' n (by omega)
      (fun k h1 h2 => hhigh k h1 (by omega))
    have hip : i ≠ t.primaryBank := by omega
    refine ⟨?_, ?_, ?_⟩
    · rw [tage_train_entry, (train_steps_entry t outcome _ i _).2 (fun h => hip h.2.1), halloc,
        hmod, modifyEntry_entry, if_pos ⟨rfl, rfl⟩]
    · intro k l hkl
      rw [tage_train_entry, (train_steps_entry t outcome _ k l).1, halloc, hmod,
        modifyEntry_entry, if_neg hkl]
    · intro k l hkl hpl
      rw [tage_train_entry, (train_steps_entry t outcome _ k l).2 hpl, halloc, hmod,
        modifyEntry_entry, if_neg hkl]
  · intro hnone
    have hmod := allocLoop_none t pc outcome 0 n (fun i hi => hnone i (by omega))
    constructor
    · intro k l
      rw [tage_train_entry, (train_steps_entry t outcome _ k l).1, halloc, hmod]
    · intro k l hpl
      rw [tage_train_entry, (train_steps_entry t outcome _ k l).2 hpl, halloc, hmod]

theorem needAllocate_after_predict (s : State) (pc outcome : Nat)
    (hneed :
      ((tage_predict s pc).1.primaryBank = 7 ∧ (tage_predict s pc).2 ≠ outcome) ∨
      ((tage_predict s pc).1.primaryBank < 7 ∧ (tage_predict s pc).2 ≠ outcome ∧
        (if 0 ≤ ((s.tageBank (tage_predict s pc).1.primaryBank).entry
                  (getGlobalIndex s pc (tage_predict s pc).1.primaryBank)).saturateCounter
         then TAKEN else NOTTAKEN) ≠ outcome)) :
    needAllocate (tage_predict s pc).1 outcome = true := by
  obtain ⟨-, -, e3, -, e5, -, e7⟩ := tage_predict_banks s pc
  have h7 : NUM_BANKS = 7 := rfl
  unfold needAllocate
  rcases hneed with ⟨h1, h2⟩ | ⟨h1, h2, h3⟩
  · rw [if_neg (by rw [h1, h7]; exact lt_irrefl _), e7]
    exact decide_eq_true h2
  · have hidx : (tage_predict s pc).1.bankGlobalIndex (tage_predict s pc).1.primaryBank
        = getGlobalIndex s pc (tage_predict s pc).1.primaryBank := by
      rw [e3]
      simp [tage_candidates, h7, h1]
    rw [if_pos (by rw [h7]; exact h1), e7, e5, hidx]
    simp only [TAKEN, NOTTAKEN] at h3
    exact decide_eq_true ⟨h2, h3⟩

theorem tage_predict_index (s : State) (pc i : Nat) (hi : i < 7) :
    (tage_predict s pc).1.bankGlobalIndex i = getGlobalIndex s pc i := by
  rw [(tage_predict_banks s pc).2.2.1]
  simp [tage_candidates, NUM_BANKS, hi]

theorem generateGlobalEntryTag_congr (s t : State) (pc i : Nat)
    (h : t.tageBank = s.tageBank) :
    generateGlobalEntryTag t pc i = generateGlobalEntryTag s pc i := by
  simp [generateGlobalEntryTag, h]

/-- C17: for `tage_train` following `tage_predict` at the same address, with an
allocation needed and the least usefulness among the banks below the primary
bank `p` (all 7 when there is none) equal to 0, for every value of the random
source: `p` is not 0; the bank `X` chosen by the walk satisfies
`0 ≤ X ≤ p - 1`; if `i` is the highest bank at or below `X` with usefulness 0,
then after training its entry at the candidate index is the candidate tag of
bank `i`, counter 0 for TAKEN and -1 for NOTTAKEN, usefulness 0, every other
entry keeps its tag, and every entry other than this one and the primary one is
unchanged; if no bank at or below `X` has usefulness 0, nothing is overwritten.
In any state with primary bank 0 the minimum loop leaves 127 and the
replacement branch is not entered. -/
theorem allocation_overwrite (s : State) (pc outcome : Nat) (env : Env) (p : Nat) (X : Int)
    (hp : (tage_predict s pc).1.primaryBank = p)
    (hX : X = bankWalk (p - 1) (env.rand &&& ((1 <<< (p - 1)) - 1)))
    (hneed :
      (p = 7 ∧ (tage_predict s pc).2 ≠ outcome) ∨
      (p < 7 ∧ (tage_predict s pc).2 ≠ outcome ∧
        (if 0 ≤ ((s.tageBank p).entry (getGlobalIndex s pc p)).saturateCounter
         then TAKEN else NOTTAKEN) ≠ outcome))
    (hge : ∀ i, i < p → 0 ≤ ((s.tageBank i).entry (getGlobalIndex s pc i)).usefulness)
    (hz : ∃ i, i < p ∧ ((s.tageBank i).entry (getGlobalIndex s pc i)).usefulness = 0) :
    1 ≤ p ∧ 0 ≤ X ∧ X ≤ (p : Int) - 1 ∧
    (∀ i : Nat, (i : Int) ≤ X →
      ((s.tageBank i).entry (getGlobalIndex s pc i)).usefulness = 0 →
      (∀ k : Nat, i < k → (k : Int) ≤ X →
        ((s.tageBank k).entry (getGlobalIndex s pc k)).usefulness ≠ 0) →
      ((tage_train (tage_predict s pc).1 pc outcome env).tageBank i).entry
          (getGlobalIndex s pc i)
        = { tag := generateGlobalEntryTag s pc i
            saturateCounter := if outcome = TAKEN then 0 else -1
            usefulness := 0 } ∧
      (∀ k l, ¬ (k = i ∧ l = getGlobalIndex s pc i) →
        (((tage_train (tage_predict s pc).1 pc outcome env).tageBank k).entry l).tag
          = ((s.tageBank k).entry l).tag) ∧
      (∀ k l, ¬ (k = i ∧ l = getGlobalIndex s pc i) →
        ¬ (k = p ∧ l = getGlobalIndex s pc p) →
        ((tage_train (tage_predict s pc).1 pc outcome env).tageBank k).entry l
          = (s.tageBank k).entry l)) ∧
    ((∀ i : Nat, (i : Int) ≤ X →
        ((s.tageBank i).entry (getGlobalIndex s pc i)).usefulness ≠ 0) →
      (∀ k l,
        (((tage_train (tage_predict s pc).1 pc outcome env).tageBank k).entry l).tag
          = ((s.tageBank k).entry l).tag) ∧
      (∀ k l, ¬ (k = p ∧ l = getGlobalIndex s pc p) →
        ((tage_train (tage_predict s pc).1 pc outcome env).tageBank k).entry l
          = (s.tageBank k).entry l)) ∧
    (∀ (t : State) (pc2 o r : Nat), t.primaryBank = 0 →
      minUseLoop t.tageBank t.bankGlobalIndex t.primaryBank = 127 ∧
      allocate t pc2 o r = t.tageBank) := by
  subst hp
  subst hX
  have e5 : (tage_predict s pc).1.tageBank = s.tageBank := (tage_predict_banks s pc).2.2.2.2.1
  have h7 : NUM_BANKS = 7 := rfl
  have hp7 : (tage_predict s pc).1.primaryBank ≤ 7 := by
    rw [(tage_predict_banks s pc).1]; exact (tage_lookup_primary s pc).1
  have hidx := tage_predict_index s pc
  have hneed' := needAllocate_after_predict s pc outcome hneed
  have hge' : ∀ i, i < (tage_predict s pc).1.primaryBank →
      0 ≤ (((tage_predict s pc).1.tageBank i).entry
            ((tage_predict s pc).1.bankGlobalIndex i)).usefulness := by
    intro i hi
    rw [e5, hidx i (by omega)]
    exact hge i hi
  have hz' : ∃ i, i < (tage_predict s pc).1.primaryBank ∧
      (((tage_predict s pc).1.tageBank i).entry
            ((tage_predict s pc).1.bankGlobalIndex i)).usefulness = 0 := by
    obtain ⟨i, hi, h0⟩ := hz
    exact ⟨i, hi, by rw [e5, hidx i (by omega)]; exact h0⟩
  obtain ⟨r1, r2, r3, r4, r5⟩ :=
    tage_train_overwrite (tage_predict s pc).1 pc outcome env hneed' hge' hz'
  have hpidx : ∀ k l, ¬ (k = (tage_predict s pc).1.primaryBank ∧
        l = getGlobalIndex s pc (tage_predict s pc).1.primaryBank) →
      ¬ ((tage_predict s pc).1.primaryBank < NUM_BANKS ∧ k = (tage_predict s pc).1.primaryBank ∧
        l = (tage_predict s pc).1.bankGlobalIndex (tage_predict s pc).1.primaryBank) := by
    intro k l h hc
    apply h
    refine ⟨hc.2.1, ?_⟩
    rw [← hidx _ (by have := hc.1; rw [h7] at this; exact this)]
    exact hc.2.2
  refine ⟨r1, r2, r3, ?_, ?_, fun t pc2 o r h0 => allocate_primary_zero t pc2 o r h0⟩
  · intro i hiX hi0 hhigh
    have hi7 : i < 7 := by omega
    have q := r4 i hiX (by rw [e5, hidx i hi7]; exact hi0)
      (fun k h1 h2 => by rw [e5, hidx k (by omega)]; exact hhigh k h1 h2)
    rw [hidx i hi7, e5, generateGlobalEntryTag_congr s _ pc i e5] at q
    exact ⟨q.1, q.2.1, fun k l h1 h2 => q.2.2 k l h1 (hpidx k l h2)⟩
  · intro hnone
    have q := r5 (fun i hiX => by
      rw [e5, hidx i (by omega)]; exact hnone i hiX)
    rw [e5] at q
    exact ⟨q.1, fun k l h2 => q.2 k l (hpidx k l h2)⟩

/-- Witness of C17: freshly initialised Custom tables, address 1 (no bank
matches, prediction NOTTAKEN), outcome TAKEN, `rand()` returning 5.  The walk
stops at bank 5, whose usefulness is 0, and its entry at candidate index 1
receives the tag 1. -/
theorem allocation_overwrite_witness :
    (tage_predict (init_predictor (startState CUSTOM 0 0 0)) 1).1.primaryBank = 7 ∧
    bankWalk (7 - 1) (5 &&& ((1 <<< (7 - 1)) - 1)) = 5 ∧
    (((tage_train (tage_predict (init_predictor (startState CUSTOM 0 0 0)) 1).1 1 TAKEN
        ⟨5, fun _ _ => 0⟩).tageBank 5).entry 1).tag = 1 := by
  have h := allocation_overwrite (init_predictor (startState CUSTOM 0 0 0)) 1 TAKEN
    ⟨5, fun _ _ => 0⟩ 7 5 (by decide) (by decide) (Or.inl (by decide))
    (by intro i hi; interval_cases i <;> decide) ⟨0, by decide, by decide⟩
  have h5 := (h.2.2.2.1 5 (le_refl _) (by decide) (by intro k h1 h2; omega)).1
  refine ⟨by decide, by decide, ?_⟩
  have ht := congrArg BankEntry.tag h5
  exact ht.trans (by decide)

/-! ## Compressed history: incremental update and from-scratch fold -/

theorem foldTail_xor (C a b : Nat) : foldTail C (a ^^^ b) = foldTail C a ^^^ foldTail C b := by
  unfold foldTail
  apply Nat.eq_of_testBit_eq
  intro i
  simp only [Nat.testBit_and, Nat.testBit_xor, Nat.testBit_shiftRight]
  cases a.testBit i <;> cases b.testBit i <;> cases a.testBit (C + i) <;>
    cases b.testBit (C + i) <;> cases ((1 <<< C) - 1).testBit i <;> rfl

theorem foldTail_small (C x : Nat) (h : x < 2 ^ C) : foldTail C x = x := by
  unfold foldTail
  have h1 : x >>> C = 0 := by
    rw [Nat.shiftRight_eq_div_pow]; exact Nat.div_eq_of_lt h
  rw [h1, Nat.xor_zero, Nat.one_shiftLeft, Nat.and_pow_two_sub_one_eq_mod, Nat.mod_eq_of_lt h]

theorem foldTail_two_pow (C : Nat) (hC : 1 ≤ C) : foldTail C (2 ^ C) = 1 := by
  unfold foldTail
  apply Nat.eq_of_testBit_eq
  intro i
  simp only [Nat.testBit_and, Nat.testBit_xor, Nat.testBit_shiftRight, Nat.one_shiftLeft,
    Nat.testBit_two_pow_sub_one, Nat.testBit_two_pow]
  by_cases hi : i = 0
  · subst hi
    have h0 : C ≠ 0 := by omega
    have : 0 < C := hC
    simp [h0, this]
  · have h1 : Nat.testBit 1 i = false := by
      cases h : Nat.testBit 1 i
      · rfl
      · exact absurd (Nat.testBit_one_eq_true_iff_self_eq_zero.1 h) hi
    rw [h1]
    have h2 : ¬ (C = C + i) := by omega
    by_cases h3 : C = i
    · subst h3; simp [h2]
    · simp [h2, h3]

theorem succ_mod_cases (j C : Nat) (hC : 1 ≤ C) :
    (j % C + 1 < C ∧ (j + 1) % C = j % C + 1) ∨ (j % C + 1 = C ∧ (j + 1) % C = 0) := by
  have hlt : j % C < C := Nat.mod_lt _ hC
  by_cases h : j % C + 1 < C
  · left
    refine ⟨h, ?_⟩
    rw [Nat.add_mod, Nat.mod_eq_of_lt (a := 1) (by omega), Nat.mod_eq_of_lt h]
  · right
    have h2 : j % C + 1 = C := by omega
    refine ⟨h2, ?_⟩
    by_cases h1 : C = 1
    · subst h1; exact Nat.mod_one _
    · rw [Nat.add_mod, Nat.mod_eq_of_lt (a := 1) (by omega), h2, Nat.mod_self]

theorem foldTail_bit (C j b : Nat) (hC : 1 ≤ C) (hb : b ≤ 1) :
    foldTail C ((b <<< (j % C)) <<< 1) = b <<< ((j + 1) % C) := by
  rcases Nat.le_one_iff_eq_zero_or_eq_one.1 hb with h | h
  · subst h
    simp [foldTail]
  · subst h
    rw [Nat.one_shiftLeft, Nat.one_shiftLeft, Nat.shiftLeft_eq, ← Nat.pow_succ]
    rcases succ_mod_cases j C hC with ⟨h1, h2⟩ | ⟨h1, h2⟩
    · rw [h2]
      exact foldTail_small _ _ (Nat.pow_lt_pow_right (by decide) h1)
    · rw [h2, Nat.succ_eq_add_one, h1]
      simpa using foldTail_two_pow C hC

theorem shiftLeft_one_xor (a b : Nat) : (a ^^^ b) <<< 1 = (a <<< 1) ^^^ (b <<< 1) := by
  apply Nat.eq_of_testBit_eq
  intro i
  simp only [Nat.testBit_shiftLeft, Nat.testBit_xor]
  cases decide (i ≥ 1) <;> simp

theorem foldTail_fold (C : Nat) (h : Nat → Nat) (hC : 1 ≤ C) (hb : ∀ j, h j ≤ 1) :
    ∀ n, foldTail C (foldHistory n C h <<< 1) = foldShifted n C h := by
  intro n
  induction n with
  | zero => simp [foldHistory, foldShifted, foldTail]
  | succ n ih =>
    simp only [foldHistory, foldShifted]
    rw [shiftLeft_one_xor, foldTail_xor, ih, foldTail_bit C n (h n) hC (hb n)]

theorem bit_shift_lt (C r b : Nat) (hr : r < C) (hb : b ≤ 1) : b <<< r < 2 ^ C := by
  rw [Nat.shiftLeft_eq]
  calc b * 2 ^ r ≤ 1 * 2 ^ r := Nat.mul_le_mul_right _ hb
    _ = 2 ^ r := Nat.one_mul _
    _ < 2 ^ C := Nat.pow_lt_pow_right (by decide) hr

theorem foldHistory_lt (C : Nat) (h : Nat → Nat) (hC : 1 ≤ C) (hb : ∀ j, h j ≤ 1) :
    ∀ n, foldHistory n C h < 2 ^ C := by
  intro n
  induction n with
  | zero => exact Nat.two_pow_pos C
  | succ n ih =>
    simp only [foldHistory]
    exact Nat.xor_lt_two_pow ih (bit_shift_lt C _ _ (Nat.mod_lt _ hC) (hb n))

theorem foldHistory_shift (C : Nat) (h g : Nat → Nat) :
    ∀ n, (∀ j, j < n → g (j + 1) = h j) →
      foldHistory (n + 1) C g = g 0 ^^^ foldShifted n C h := by
  intro n
  induction n with
  | zero =>
    intro _
    simp [foldHistory, foldShifted]
  | succ n ih =>
    intro hg
    rw [foldHistory, ih (fun j hj => hg j (by omega)), foldShifted, hg n (by omega),
      Nat.xor_assoc]

theorem add_bit_eq_xor (c b : Nat) (hb : b ≤ 1) : (c <<< 1) + b = (c <<< 1) ^^^ b := by
  rcases Nat.le_one_iff_eq_zero_or_eq_one.1 hb with h | h
  · subst h; simp
  · subst h
    apply Nat.eq_of_testBit_eq
    intro i
    rw [Nat.testBit_xor, Nat.shiftLeft_eq, Nat.pow_one, Nat.mul_comm]
    cases i with
    | zero =>
      simp [Nat.testBit_zero]
      omega
    | succ i =>
      rw [Nat.testBit_succ, Nat.testBit_succ, Nat.testBit_succ]
      have e1 : (2 * c + 1) / 2 = c := by omega
      have e2 : 2 * c / 2 = c := by omega
      rw [e1, e2]
      simp

theorem xor_cancel_mid (a t b : Nat) : ((a ^^^ t) ^^^ b) ^^^ t = b ^^^ a := by
  apply Nat.eq_of_testBit_eq
  intro i
  simp only [Nat.testBit_xor]
  cases a.testBit i <;> cases t.testBit i <;> cases b.testBit i <;> rfl

/-- One incremental step on the fold of the old history gives the fold of the
shifted history. -/
theorem compress_step (L C : Nat) (h g : Nat → Nat) (hL : 1 ≤ L) (hC : 1 ≤ C)
    (hb : ∀ j, h j ≤ 1) (hg0 : g 0 ≤ 1) (hg : ∀ j, j < L → g (j + 1) = h j) :
    foldTail C (((foldHistory L C h <<< 1) + g 0) ^^^ (g L <<< (L % C)))
      = foldHistory L C g := by
  obtain ⟨n, rfl⟩ : ∃ n, L = n + 1 := ⟨L - 1, by omega⟩
  rw [add_bit_eq_xor _ _ hg0, foldTail_xor, foldTail_xor, foldTail_fold C h hC hb,
    foldTail_small C (g 0) (lt_of_le_of_lt hg0 (by
      calc 1 < 2 ^ 1 := by decide
        _ ≤ 2 ^ C := Nat.pow_le_pow_right (by decide) hC)),
    hg n (by omega),
    foldTail_small C _ (bit_shift_lt C _ _ (Nat.mod_lt _ hC) (hb n)),
    foldHistory_shift C h g n (fun j hj => hg j (by omega)), foldShifted]
  exact xor_cancel_mid _ _ _

/-- Closed form of the history shift loop. -/
theorem shiftHistory_apply :
    ∀ (n : Nat) (g : Nat → Nat) (j : Nat),
      shiftHistory n g j = if 1 ≤ j ∧ j ≤ n then g (j - 1) else g j := by
  intro n
  induction n with
  | zero =>
    intro g j
    simp only [shiftHistory]
    rw [if_neg (by omega)]
  | succ n ih =>
    intro g j
    simp only [shiftHistory]
    rw [ih]
    by_cases h1 : 1 ≤ j ∧ j ≤ n
    · rw [if_pos h1, if_pos (by omega), setAt_other _ _ _ _ (by omega)]
    · rw [if_neg h1]
      by_cases h2 : j = n + 1
      · subst h2
        rw [setAt_same, if_pos (by omega)]
        rfl
      · rw [setAt_other _ _ _ _ h2, if_neg (by omega)]

theorem historyStep_apply (hist : Nat → Nat) (outcome : Nat) :
    historyStep hist outcome 0 = (if outcome ≠ 0 then TAKEN else NOTTAKEN) ∧
    (∀ j, j < MAX_HISTORY_LEN - 1 → historyStep hist outcome (j + 1) = hist j) ∧
    (∀ j, MAX_HISTORY_LEN ≤ j → historyStep hist outcome j = hist j) := by
  refine ⟨?_, ?_, ?_⟩
  · simp [historyStep, setAt]
  · intro j hj
    unfold historyStep
    rw [setAt_other _ _ _ _ (by omega), shiftHistory_apply, if_pos (by omega)]
    rfl
  · intro j hj
    have h131 : MAX_HISTORY_LEN = 131 := rfl
    unfold historyStep
    rw [setAt_other _ _ _ _ (by omega), shiftHistory_apply, if_neg (by omega)]

theorem historyStep_bit (hist : Nat → Nat) (outcome : Nat) (hb : ∀ j, hist j ≤ 1) :
    ∀ j, historyStep hist outcome j ≤ 1 := by
  intro j
  obtain ⟨h0, h1, h2⟩ := historyStep_apply hist outcome
  have h131 : MAX_HISTORY_LEN = 131 := rfl
  rcases Nat.eq_zero_or_pos j with hj | hj
  · subst hj
    rw [h0]
    split_ifs <;> decide
  · by_cases hlt : j < MAX_HISTORY_LEN
    · obtain ⟨k, rfl⟩ : ∃ k, j = k + 1 := ⟨j - 1, by omega⟩
      rw [h1 k (by omega)]
      exact hb k
    · rw [h2 j (by omega)]
      exact hb j

/-- The update of a register whose history length `L` is a position of the
array and whose width is `C`, in natural-number terms. -/
theorem t_updateCompressed_regular (h : CompressedHistory) (L C : Nat) (hist : Nat → Nat)
    (u : Nat) (hg : h.geometryLength = (L : Int)) (ht : h.targetLength = (C : Int))
    (hL : L < MAX_HISTORY_LEN) :
    (t_updateCompressed h hist u).compressed
      = foldTail C ((((h.compressed <<< 1) + hist 0) % 2 ^ 32)
          ^^^ ((hist L <<< (L % C)) % 2 ^ 32)) ∧
    (t_updateCompressed h hist u).geometryLength = h.geometryLength ∧
    (t_updateCompressed h hist u).targetLength = h.targetLength := by
  refine ⟨?_, rfl, rfl⟩
  have hsh : Int.tmod (L : Int) (C : Int) = ((L % C : Nat) : Int) := by
    rw [Int.tmod_eq_emod (Int.natCast_nonneg _) (Int.natCast_nonneg _), Int.natCast_mod]
  have hcond : 0 ≤ (L : Int) ∧ (L : Int) < (MAX_HISTORY_LEN : Int) ∧
      0 ≤ ((L % C : Nat) : Int) :=
    ⟨Int.natCast_nonneg _, by exact_mod_cast hL, Int.natCast_nonneg _⟩
  simp only [t_updateCompressed, hg, ht, hsh, if_pos hcond, Int.toNat_natCast, foldTail]

theorem foldHistory_zero (C : Nat) : ∀ L, foldHistory L C (fun _ => 0) = 0 := by
  intro L
  induction L with
  | zero => rfl
  | succ L ih => simp [foldHistory, ih]

theorem foldHistory_congr (C : Nat) (g h : Nat → Nat) :
    ∀ L, (∀ j, j < L → g j = h j) → foldHistory L C g = foldHistory L C h := by
  intro L
  induction L with
  | zero => intro _; rfl
  | succ L ih =>
    intro hgh
    simp only [foldHistory]
    rw [ih (fun j hj => hgh j (by omega)), hgh L (by omega)]

/-- One shift-and-update step keeps the register equal to the fold. -/
theorem register_step_fold (h : CompressedHistory) (L C : Nat) (hist : Nat → Nat)
    (outcome u : Nat) (hg : h.geometryLength = (L : Int)) (ht : h.targetLength = (C : Int))
    (hL1 : 1 ≤ L) (hL : L < MAX_HISTORY_LEN) (hC1 : 1 ≤ C) (hC : C ≤ 10)
    (hb : ∀ j, hist j ≤ 1) (hc : h.compressed = foldHistory L C hist) :
    (t_updateCompressed h (historyStep hist outcome) u).compressed
      = foldHistory L C (historyStep hist outcome) := by
  have h131 : MAX_HISTORY_LEN = 131 := rfl
  obtain ⟨s0, s1, -⟩ := historyStep_apply hist outcome
  have hb' := historyStep_bit hist outcome hb
  have hclt : foldHistory L C hist < 2 ^ C := foldHistory_lt C hist hC1 hb L
  have hpow : 2 ^ C ≤ 2 ^ 10 := Nat.pow_le_pow_right (by decide) hC
  have h10 : (2 : Nat) ^ 10 = 1024 := by decide
  have h32 : (2 : Nat) ^ 32 = 4294967296 := by decide
  have hm1 : ((foldHistory L C hist <<< 1) + historyStep hist outcome 0) % 2 ^ 32
      = (foldHistory L C hist <<< 1) + historyStep hist outcome 0 := by
    apply Nat.mod_eq_of_lt
    have := hb' 0
    rw [Nat.shiftLeft_eq]
    omega
  have hm2 : (historyStep hist outcome L <<< (L % C)) % 2 ^ 32
      = historyStep hist outcome L <<< (L % C) := by
    apply Nat.mod_eq_of_lt
    have := bit_shift_lt C (L % C) _ (Nat.mod_lt _ hC1) (hb' L)
    omega
  rw [(t_updateCompressed_regular h L C _ u hg ht hL).1, hc, hm1, hm2]
  exact compress_step L C hist _ hL1 hC1 hb (hb' 0) (fun j hj => s1 j (by omega))

theorem registerRun_fold (L C : Nat) (hL1 : 1 ≤ L) (hL : L < MAX_HISTORY_LEN)
    (hC1 : 1 ≤ C) (hC : C ≤ 10) :
    ∀ (steps : List (Nat × Nat)) (h : CompressedHistory) (hist : Nat → Nat),
      h.geometryLength = (L : Int) → h.targetLength = (C : Int) →
      (∀ j, hist j ≤ 1) → h.compressed = foldHistory L C hist →
      (registerRun h hist steps).1.compressed = foldHistory L C (registerRun h hist steps).2 ∧
      (∀ j, (registerRun h hist steps).2 j ≤ 1) := by
  intro steps
  induction steps with
  | nil => intro h hist _ _ hb hc; exact ⟨hc, hb⟩
  | cons x rest ih =>
    intro h hist hg ht hb hc
    obtain ⟨outcome, u⟩ := x
    simp only [registerRun]
    exact ih _ _ hg ht (historyStep_bit hist outcome hb)
      (register_step_fold h L C hist outcome u hg ht hL1 hL hC1 hC hb hc)

/-- The fold identity where the length fits the field: for a compression
register of history length `L`, `1 ≤ L ≤ 127` (the lengths an `int8_t` holds,
which covers the banks 1..6), and width `C`, `1 ≤ C ≤ 10`, starting from the
all-zero history and register value 0, after every sequence of training steps
(shift of the outcome into position 0 of the global history, then
`t_updateCompressed`) and for all environment values, the register equals the
XOR over `j` in `[0, L)` of `history[j] << (j mod C)`; it is below `2^C` and is
the same for every history that agrees on the positions below `L`. -/
theorem compressed_history_fold (L C : Nat) (steps : List (Nat × Nat))
    (hL1 : 1 ≤ L) (hL : L ≤ 127) (hC1 : 1 ≤ C) (hC : C ≤ 10) :
    (registerRun { geometryLength := toInt8 L, targetLength := toInt8 C, compressed := 0 }
        (fun _ => 0) steps).1.compressed
      = foldHistory L C
          (registerRun { geometryLength := toInt8 L, targetLength := toInt8 C, compressed := 0 }
            (fun _ => 0) steps).2 ∧
    (registerRun { geometryLength := toInt8 L, targetLength := toInt8 C, compressed := 0 }
        (fun _ => 0) steps).1.compressed < 2 ^ C ∧
    (∀ g : Nat → Nat,
      (∀ j, j < L →
        g j = (registerRun
          { geometryLength := toInt8 L, targetLength := toInt8 C, compressed := 0 }
          (fun _ => 0) steps).2 j) →
      (registerRun { geometryLength := toInt8 L, targetLength := toInt8 C, compressed := 0 }
          (fun _ => 0) steps).1.compressed = foldHistory L C g) := by
  have hgl : toInt8 (L : Int) = (L : Int) := toInt8_of_range _ (by omega) (by omega)
  have htl : toInt8 (C : Int) = (C : Int) := toInt8_of_range _ (by omega) (by omega)
  have h131 : MAX_HISTORY_LEN = 131 := rfl
  have hh : L < MAX_HISTORY_LEN := by omega
  rw [hgl, htl]
  obtain ⟨r1, r2⟩ := registerRun_fold L C hL1 hh hC1 hC steps
    { geometryLength := (L : Int), targetLength := (C : Int), compressed := 0 } (fun _ => 0)
    rfl rfl (fun _ => Nat.zero_le _) (foldHistory_zero C L).symm
  refine ⟨r1, ?_, ?_⟩
  · rw [r1]
    exact foldHistory_lt C _ hC1 r2 L
  · intro g hg
    rw [r1]
    exact (foldHistory_congr C g _ L hg).symm

set_option maxRecDepth 20000 in
/-- An instance of the fold identity: history length 5 and width 7 (the second tag
register of bank 6), outcomes TAKEN, NOTTAKEN, TAKEN: the history starts 1, 0, 1
and the register holds `1 + 4 = 5`. -/
theorem compressed_history_fold_witness :
    (registerRun { geometryLength := toInt8 5, targetLength := toInt8 7, compressed := 0 }
        (fun _ => 0) [(TAKEN, 0), (NOTTAKEN, 0), (TAKEN, 0)]).1.compressed = 5 ∧
    foldHistory 5 7
      (registerRun { geometryLength := toInt8 5, targetLength := toInt8 7, compressed := 0 }
        (fun _ => 0) [(TAKEN, 0), (NOTTAKEN, 0), (TAKEN, 0)]).2 = 5 := by
  have h := compressed_history_fold 5 7 [(TAKEN, 0), (NOTTAKEN, 0), (TAKEN, 0)]
    (by decide) (by decide) (by decide) (by decide)
  have h5 : foldHistory 5 7
      (registerRun { geometryLength := toInt8 5, targetLength := toInt8 7, compressed := 0 }
        (fun _ => 0) [(TAKEN, 0), (NOTTAKEN, 0), (TAKEN, 0)]).2 = 5 := by decide
  exact ⟨h.1.trans h5, h5⟩

/-! ## Determinism after initialisation -/

theorem modifyEntry_agree (a b : Nat → Bank) (i j : Nat) (f : BankEntry → BankEntry)
    (h : BanksAgree a b) : BanksAgree (modifyEntry a i j f) (modifyEntry b i j f) := by
  intro k hk
  obtain ⟨g1, g2, g3, g4⟩ := modifyEntry_regs a i j f k
  obtain ⟨g1', g2', g3', g4'⟩ := modifyEntry_regs b i j f k
  obtain ⟨h1, h2, h3, h4, h5⟩ := h k hk
  refine ⟨by rw [g1, g1', h1], by rw [g2, g2', h2], by rw [g3, g3', h3], by rw [g4, g4', h4], ?_⟩
  intro l hl
  rw [modifyEntry_entry, modifyEntry_entry]
  by_cases hc : k = i ∧ l = j
  · rw [if_pos hc, if_pos hc]
    obtain ⟨rfl, rfl⟩ := hc
    rw [h5 l hl]
  · rw [if_neg hc, if_neg hc]
    exact h5 l hl

theorem minUseLoop_congr (a b : Nat → Bank) (idx idx2 : Nat → Nat) :
    ∀ n, (∀ i, i < n →
        ((a i).entry (idx i)).usefulness = ((b i).entry (idx2 i)).usefulness) →
      minUseLoop a idx n = minUseLoop b idx2 n := by
  intro n
  induction n with
  | zero => intro _; rfl
  | succ n ih =>
    intro h
    simp only [minUseLoop]
    rw [ih (fun i hi => h i (by omega)), h n (by omega)]

theorem decayLoop_regs (idx : Nat → Nat) :
    ∀ (n : Nat) (banks : Nat → Bank) (k : Nat),
      (decayLoop idx n banks k).geometry = (banks k).geometry ∧
      (decayLoop idx n banks k).indexCompressed = (banks k).indexCompressed ∧
      (decayLoop idx n banks k).tagCompressed0 = (banks k).tagCompressed0 ∧
      (decayLoop idx n banks k).tagCompressed1 = (banks k).tagCompressed1 := by
  intro n
  induction n with
  | zero => intro banks k; exact ⟨rfl, rfl, rfl, rfl⟩
  | succ n ih =>
    intro banks k
    simp only [decayLoop]
    obtain ⟨a1, a2, a3, a4⟩ := ih (modifyEntry banks n (idx n)
      (fun e => { e with usefulness := toInt8 (e.usefulness - 1) })) k
    obtain ⟨b1, b2, b3, b4⟩ := modifyEntry_regs banks n (idx n)
      (fun e => { e with usefulness := toInt8 (e.usefulness - 1) }) k
    exact ⟨a1.trans b1, a2.trans b2, a3.trans b3, a4.trans b4⟩

theorem allocLoop_regs (s : State) (pc outcome : Nat) (minUse : Int) :
    ∀ (n k : Nat),
      (allocLoop s pc outcome minUse n k).geometry = (s.tageBank k).geometry ∧
      (allocLoop s pc outcome minUse n k).indexCompressed = (s.tageBank k).indexCompressed ∧
      (allocLoop s pc outcome minUse n k).tagCompressed0 = (s.tageBank k).tagCompressed0 ∧
      (allocLoop s pc outcome minUse n k).tagCompressed1 = (s.tageBank k).tagCompressed1 := by
  intro n
  induction n with
  | zero => intro k; exact ⟨rfl, rfl, rfl, rfl⟩
  | succ n ih =>
    intro k
    simp only [allocLoop]
    by_cases hc : ((s.tageBank n).entry (s.bankGlobalIndex n)).usefulness = minUse
    · rw [if_pos hc]
      exact modifyEntry_regs _ _ _ _ k
    · rw [if_neg hc]
      exact ih k

theorem decayLoop_agree (a b : Nat → Bank) (idx idx2 : Nat → Nat) (n : Nat)
    (h : BanksAgree a b) (hidx : ∀ i, i < n → idx i = idx2 i) :
    BanksAgree (decayLoop idx n a) (decayLoop idx2 n b) := by
  intro k hk
  obtain ⟨g1, g2, g3, g4⟩ := decayLoop_regs idx n a k
  obtain ⟨g1', g2', g3', g4'⟩ := decayLoop_regs idx2 n b k
  obtain ⟨h1, h2, h3, h4, h5⟩ := h k hk
  refine ⟨by rw [g1, g1', h1], by rw [g2, g2', h2], by rw [g3, g3', h3], by rw [g4, g4', h4], ?_⟩
  intro l hl
  rw [decayLoop_entry, decayLoop_entry]
  by_cases hkn : k < n
  · rw [← hidx k hkn]
    by_cases hl2 : l = idx k
    · rw [if_pos ⟨hkn, hl2⟩, if_pos ⟨hkn, hl2⟩, ← hl2, h5 l hl]
    · rw [if_neg (fun hc => hl2 hc.2), if_neg (fun hc => hl2 hc.2)]
      exact h5 l hl
  · rw [if_neg (fun hc => hkn hc.1), if_neg (fun hc => hkn hc.1)]
    exact h5 l hl

theorem generateGlobalEntryTag_agree (s t : State) (pc i : Nat)
    (h : BanksAgree s.tageBank t.tageBank) (hi : i < NUM_BANKS) :
    generateGlobalEntryTag s pc i = generateGlobalEntryTag t pc i := by
  obtain ⟨-, -, h3, h4, -⟩ := h i hi
  simp only [generateGlobalEntryTag, h3, h4]

theorem getGlobalIndex_agree (s t : State) (pc i : Nat)
    (h : BanksAgree s.tageBank t.tageBank) (hp : s.t_pathHistory = t.t_pathHistory)
    (hi : i < NUM_BANKS) :
    getGlobalIndex s pc i = getGlobalIndex t pc i := by
  obtain ⟨h1, h2, -, -, -⟩ := h i hi
  simp only [getGlobalIndex, h1, h2, hp]

theorem allocLoop_agree (s t : State) (pc outcome : Nat) (minUse : Int)
    (h : BanksAgree s.tageBank t.tageBank) :
    ∀ n, n ≤ NUM_BANKS →
      (∀ i, i < n → s.bankGlobalIndex i = t.bankGlobalIndex i ∧
        s.bankGlobalIndex i < 1 <<< LEN_GLOBAL) →
      BanksAgree (allocLoop s pc outcome minUse n) (allocLoop t pc outcome minUse n) := by
  intro n
  induction n with
  | zero => intro _ _; exact h
  | succ n ih =>
    intro hn hidx
    simp only [allocLoop]
    obtain ⟨e1, e2⟩ := hidx n (by omega)
    have he : (s.tageBank n).entry (s.bankGlobalIndex n)
        = (t.tageBank n).entry (t.bankGlobalIndex n) := by
      rw [← e1]
      exact (h n (by omega)).2.2.2.2 _ e2
    rw [← he]
    by_cases hc : ((s.tageBank n).entry (s.bankGlobalIndex n)).usefulness = minUse
    · rw [if_pos hc, if_pos hc, ← e1, ← generateGlobalEntryTag_agree s t pc n h (by omega)]
      exact modifyEntry_agree _ _ _ _ _ h
    · rw [if_neg hc, if_neg hc]
      exact ih (by omega) (fun i hi => hidx i (by omega))

theorem t_updateCompressed_congr (h : CompressedHistory) (g g2 : Nat → Nat) (u : Nat)
    (hg : ∀ i, i < MAX_HISTORY_LEN → g i = g2 i) :
    t_updateCompressed h g u = t_updateCompressed h g2 u := by
  have h0 : g 0 = g2 0 := hg 0 (by decide)
  unfold t_updateCompressed
  simp only [h0]
  by_cases hc : 0 ≤ h.geometryLength ∧ h.geometryLength < (MAX_HISTORY_LEN : Int) ∧
      0 ≤ Int.tmod h.geometryLength h.targetLength
  · have hlt : h.geometryLength.toNat < MAX_HISTORY_LEN := by
      have := hc.1
      have := hc.2.1
      omega
    rw [if_pos hc, if_pos hc, hg _ hlt]
  · rw [if_neg hc, if_neg hc]

theorem trainCompressed_agree (a b : Nat → Bank) (g g2 : Nat → Nat) (env : Env)
    (h : BanksAgree a b) (hg : ∀ i, i < MAX_HISTORY_LEN → g i = g2 i) :
    BanksAgree (trainCompressed a g env) (trainCompressed b g2 env) := by
  intro k hk
  obtain ⟨h1, h2, h3, h4, h5⟩ := h k hk
  simp only [trainCompressed, if_pos hk]
  refine ⟨h1, ?_, ?_, ?_, h5⟩
  · rw [h2, t_updateCompressed_congr _ g g2 _ hg]
  · rw [h3, t_updateCompressed_congr _ g g2 _ hg]
  · rw [h4, t_updateCompressed_congr _ g g2 _ hg]

theorem allocate_agree (s t : State) (pc outcome rnd : Nat)
    (h : BanksAgree s.tageBank t.tageBank) (hp : s.primaryBank = t.primaryBank)
    (hp7 : s.primaryBank ≤ NUM_BANKS)
    (hidx : ∀ i, i < NUM_BANKS → s.bankGlobalIndex i = t.bankGlobalIndex i ∧
      s.bankGlobalIndex i < 1 <<< LEN_GLOBAL) :
    BanksAgree (allocate s pc outcome rnd) (allocate t pc outcome rnd) := by
  have hmin : minUseLoop s.tageBank s.bankGlobalIndex s.primaryBank
      = minUseLoop t.tageBank t.bankGlobalIndex t.primaryBank := by
    rw [← hp]
    apply minUseLoop_congr
    intro i hi
    obtain ⟨e1, e2⟩ := hidx i (by omega)
    rw [← e1, (h i (by omega)).2.2.2.2 _ e2]
  by_cases hpos : minUseLoop s.tageBank s.bankGlobalIndex s.primaryBank > 0
  · have hpos' : minUseLoop t.tageBank t.bankGlobalIndex t.primaryBank > 0 := by
      rw [← hmin]; exact hpos
    have es : allocate s pc outcome rnd
        = decayLoop s.bankGlobalIndex s.primaryBank s.tageBank := by
      unfold allocate; simp only; rw [if_pos hpos]
    have et : allocate t pc outcome rnd
        = decayLoop t.bankGlobalIndex t.primaryBank t.tageBank := by
      unfold allocate; simp only; rw [if_pos hpos']
    rw [es, et, ← hp]
    exact decayLoop_agree _ _ _ _ _ h (fun i hi => (hidx i (by omega)).1)
  · have hpos' : ¬ minUseLoop t.tageBank t.bankGlobalIndex t.primaryBank > 0 := by
      rw [← hmin]; exact hpos
    obtain ⟨n, hn, he, hX⟩ := allocate_replace s pc outcome rnd hpos
    obtain ⟨m, hm, he', hX'⟩ := allocate_replace t pc outcome rnd hpos'
    have hnm : n = m := by
      rcases Nat.eq_zero_or_pos s.primaryBank with h0 | h0
      · omega
      · obtain ⟨q, hq⟩ : ∃ q, s.primaryBank = q + 1 := ⟨s.primaryBank - 1, by omega⟩
        have a1 := hX q hq
        have a2 := hX' q (by rw [← hp]; exact hq)
        omega
    rw [he, he', ← hmin, ← hnm]
    exact allocLoop_agree s t pc outcome _ h n (by omega) (fun i hi => hidx i (by omega))

/-- Training two Custom states that agree on the persistent content and on the
fields cached by the preceding prediction gives states that agree on the
persistent content. -/
theorem tage_train_same (s t : State) (pc outcome : Nat) (env : Env)
    (hc : SameCustom s t) (hp : s.primaryBank = t.primaryBank)
    (hp7 : s.primaryBank ≤ NUM_BANKS)
    (hidx : ∀ i, i < NUM_BANKS → s.bankGlobalIndex i = t.bankGlobalIndex i ∧
      s.bankGlobalIndex i < 1 <<< LEN_GLOBAL)
    (hl : s.lastPrediction = t.lastPrediction)
    (ha : s.alternatePrediction = t.alternatePrediction) :
    SameCustom (tage_train s pc outcome env) (tage_train t pc outcome env) := by
  obtain ⟨c1, c2, c3, c4, c5⟩ := hc
  have hpe : s.primaryBank < NUM_BANKS →
      s.bankGlobalIndex s.primaryBank = t.bankGlobalIndex t.primaryBank ∧
      (s.tageBank s.primaryBank).entry (s.bankGlobalIndex s.primaryBank)
        = (t.tageBank t.primaryBank).entry (t.bankGlobalIndex t.primaryBank) := by
    intro hlt
    obtain ⟨e1, e2⟩ := hidx _ hlt
    rw [← hp, ← e1]
    exact ⟨rfl, (c2 _ hlt).2.2.2.2 _ e2⟩
  have hneed : needAllocate s outcome = needAllocate t outcome := by
    unfold needAllocate
    by_cases hlt : s.primaryBank < NUM_BANKS
    · have hlt2 : t.primaryBank < NUM_BANKS := by rw [← hp]; exact hlt
      rw [if_pos hlt, if_pos hlt2, (hpe hlt).2, hl]
    · have hlt2 : ¬ t.primaryBank < NUM_BANKS := by rw [← hp]; exact hlt
      rw [if_neg hlt, if_neg hlt2, hl]
  have h2 : BanksAgree (trainAllocate s pc outcome env.rand)
      (trainAllocate t pc outcome env.rand) := by
    unfold trainAllocate
    rw [← hneed]
    by_cases hn : needAllocate s outcome = true
    · rw [if_pos hn, if_pos hn]
      exact allocate_agree s t pc outcome env.rand c2 hp hp7 hidx
    · rw [if_neg hn, if_neg hn]
      exact c2
  have h3 : BanksAgree (trainCounter s outcome (trainAllocate s pc outcome env.rand))
      (trainCounter t outcome (trainAllocate t pc outcome env.rand)) := by
    unfold trainCounter
    by_cases hlt : s.primaryBank < NUM_BANKS
    · have hlt2 : t.primaryBank < NUM_BANKS := by rw [← hp]; exact hlt
      rw [if_pos hlt, if_pos hlt2, ← (hpe hlt).1, ← hp]
      exact modifyEntry_agree _ _ _ _ _ h2
    · have hlt2 : ¬ t.primaryBank < NUM_BANKS := by rw [← hp]; exact hlt
      rw [if_neg hlt, if_neg hlt2]
      exact h2
  have h4 : BanksAgree
      (trainUseful s outcome (trainCounter s outcome (trainAllocate s pc outcome env.rand)))
      (trainUseful t outcome (trainCounter t outcome (trainAllocate t pc outcome env.rand))) := by
    unfold trainUseful
    rw [← hl, ← ha]
    by_cases hd : s.lastPrediction ≠ s.alternatePrediction
    · rw [if_pos hd, if_pos hd]
      by_cases hlt : s.primaryBank < NUM_BANKS
      · have hlt2 : t.primaryBank < NUM_BANKS := by rw [← hp]; exact hlt
        rw [if_pos hlt, if_pos hlt2, ← (hpe hlt).1, ← hp]
        exact modifyEntry_agree _ _ _ _ _ h3
      · have hlt2 : ¬ t.primaryBank < NUM_BANKS := by rw [← hp]; exact hlt
        rw [if_neg hlt, if_neg hlt2]
        exact h3
    · rw [if_neg hd, if_neg hd]
      exact h3
  have hh : ∀ i, i < MAX_HISTORY_LEN → trainHistory s outcome i = trainHistory t outcome i := by
    intro i hi
    have h131 : MAX_HISTORY_LEN = 131 := rfl
    show historyStep s.t_globalHistory outcome i = historyStep t.t_globalHistory outcome i
    obtain ⟨s0, s1, -⟩ := historyStep_apply s.t_globalHistory outcome
    obtain ⟨t0, t1, -⟩ := historyStep_apply t.t_globalHistory outcome
    rcases Nat.eq_zero_or_pos i with h0 | h0
    · subst h0
      rw [s0, t0]
    · obtain ⟨k, rfl⟩ : ∃ k, i = k + 1 := ⟨i - 1, by omega⟩
      rw [s1 k (by omega), t1 k (by omega)]
      exact c3 k (by omega)
  refine ⟨?_, ?_, ?_, ?_, ?_⟩
  · intro i hi
    show trainBimodal s pc outcome i = trainBimodal t pc outcome i
    unfold trainBimodal
    by_cases hlt : s.primaryBank < NUM_BANKS
    · have hlt2 : t.primaryBank < NUM_BANKS := by rw [← hp]; exact hlt
      rw [if_pos hlt, if_pos hlt2]
      exact c1 i hi
    · have hlt2 : ¬ t.primaryBank < NUM_BANKS := by rw [← hp]; exact hlt
      rw [if_neg hlt, if_neg hlt2]
      simp only [setAt]
      have hm : pc % BIMODAL_SIZE < BIMODAL_SIZE := Nat.mod_lt _ (by decide)
      by_cases hi2 : i = pc % BIMODAL_SIZE
      · rw [if_pos hi2, if_pos hi2, c1 _ hm]
      · rw [if_neg hi2, if_neg hi2]
        exact c1 i hi
  · exact trainCompressed_agree _ _ _ _ env h4 hh
  · exact hh
  · show trainPath s pc = trainPath t pc
    unfold trainPath
    rw [c4]
  · exact c5

theorem getGlobalIndex_lt (s : State) (pc i : Nat) : getGlobalIndex s pc i < 1 <<< LEN_GLOBAL := by
  unfold getGlobalIndex
  simp only
  have := and_maskOf_lt
    (if (s.tageBank i).geometry ≥ 16 then
      pc ^^^ (pc >>> (LEN_GLOBAL - (NUM_BANKS - i - 1)))
        ^^^ (s.tageBank i).indexCompressed.compressed ^^^ F s.t_pathHistory 16 i
    else
      pc ^^^ (pc >>> (LEN_GLOBAL - NUM_BANKS + i + 1))
        ^^^ (s.tageBank i).indexCompressed.compressed
        ^^^ F s.t_pathHistory (s.tageBank i).geometry i) LEN_GLOBAL
  rw [Nat.one_shiftLeft]
  exact this

/-- The two values `tage_predict` computes, on the state before the call. -/
theorem tage_predict_values (s : State) (pc : Nat) :
    (tage_predict s pc).1.alternatePrediction
      = (if (tage_lookup s pc).primaryBank < NUM_BANKS ∧
            (tage_lookup s pc).alternateBank < NUM_BANKS then
          ctrPrediction ((s.tageBank (tage_lookup s pc).alternateBank).entry
            (getGlobalIndex s pc (tage_lookup s pc).alternateBank)).saturateCounter
         else t_getBimodalPrediction s pc) ∧
    (tage_predict s pc).2
      = (if (tage_lookup s pc).primaryBank < NUM_BANKS then
          (if (((s.tageBank (tage_lookup s pc).primaryBank).entry
                  (getGlobalIndex s pc (tage_lookup s pc).primaryBank)).saturateCounter ≠ 0 ∧
                ((s.tageBank (tage_lookup s pc).primaryBank).entry
                  (getGlobalIndex s pc (tage_lookup s pc).primaryBank)).saturateCounter ≠ -1) ∨
              ((s.tageBank (tage_lookup s pc).primaryBank).entry
                  (getGlobalIndex s pc (tage_lookup s pc).primaryBank)).usefulness ≠ 0 ∨
              s.useAlternate < 8
           then ctrPrediction ((s.tageBank (tage_lookup s pc).primaryBank).entry
                  (getGlobalIndex s pc (tage_lookup s pc).primaryBank)).saturateCounter
           else (tage_predict s pc).1.alternatePrediction)
         else t_getBimodalPrediction s pc) := by
  obtain ⟨f1, f2, f3, f4⟩ := tage_lookup_frame s pc
  have hbim : t_getBimodalPrediction (tage_lookup s pc) pc = t_getBimodalPrediction s pc :=
    t_getBimodalPrediction_frame s _ pc f2
  by_cases hp : (tage_lookup s pc).primaryBank < NUM_BANKS
  · have e : tage_predict s pc
        = ({ tage_lookup s pc with
              alternatePrediction :=
                if (tage_lookup s pc).alternateBank < NUM_BANKS then
                  ctrPrediction (((tage_lookup s pc).tageBank (tage_lookup s pc).alternateBank).entry
                    ((tage_lookup s pc).bankGlobalIndex
                      (tage_lookup s pc).alternateBank)).saturateCounter
                else t_getBimodalPrediction (tage_lookup s pc) pc
              lastPrediction :=
                if ((((tage_lookup s pc).tageBank (tage_lookup s pc).primaryBank).entry
                      ((tage_lookup s pc).bankGlobalIndex
                        (tage_lookup s pc).primaryBank)).saturateCounter ≠ 0 ∧
                    (((tage_lookup s pc).tageBank (tage_lookup s pc).primaryBank).entry
                      ((tage_lookup s pc).bankGlobalIndex
                        (tage_lookup s pc).primaryBank)).saturateCounter ≠ -1) ∨
                  (((tage_lookup s pc).tageBank (tage_lookup s pc).primaryBank).entry
                      ((tage_lookup s pc).bankGlobalIndex
                        (tage_lookup s pc).primaryBank)).usefulness ≠ 0 ∨
                  (tage_lookup s pc).useAlternate < 8
                then ctrPrediction (((tage_lookup s pc).tageBank
                      (tage_lookup s pc).primaryBank).entry
                      ((tage_lookup s pc).bankGlobalIndex
                        (tage_lookup s pc).primaryBank)).saturateCounter
                else
                  if (tage_lookup s pc).alternateBank < NUM_BANKS then
                    ctrPrediction (((tage_lookup s pc).tageBank
                      (tage_lookup s pc).alternateBank).entry
                      ((tage_lookup s pc).bankGlobalIndex
                        (tage_lookup s pc).alternateBank)).saturateCounter
                  else t_getBimodalPrediction (tage_lookup s pc) pc },
            if ((((tage_lookup s pc).tageBank (tage_lookup s pc).primaryBank).entry
                      ((tage_lookup s pc).bankGlobalIndex
                        (tage_lookup s pc).primaryBank)).saturateCounter ≠ 0 ∧
                    (((tage_lookup s pc).tageBank (tage_lookup s pc).primaryBank).entry
                      ((tage_lookup s pc).bankGlobalIndex
                        (tage_lookup s pc).primaryBank)).saturateCounter ≠ -1) ∨
                  (((tage_lookup s pc).tageBank (tage_lookup s pc).primaryBank).entry
                      ((tage_lookup s pc).bankGlobalIndex
                        (tage_lookup s pc).primaryBank)).usefulness ≠ 0 ∨
                  (tage_lookup s pc).useAlternate < 8
                then ctrPrediction (((tage_lookup s pc).tageBank
                      (tage_lookup s pc).primaryBank).entry
                      ((tage_lookup s pc).bankGlobalIndex
                        (tage_lookup s pc).primaryBank)).saturateCounter
                else
                  if (tage_lookup s pc).alternateBank < NUM_BANKS then
                    ctrPrediction (((tage_lookup s pc).tageBank
                      (tage_lookup s pc).alternateBank).entry
                      ((tage_lookup s pc).bankGlobalIndex
                        (tage_lookup s pc).alternateBank)).saturateCounter
                  else t_getBimodalPrediction (tage_lookup s pc) pc) := by
      unfold tage_predict
      simp only
      rw [if_pos hp]
    rw [e]
    simp only [hp, true_and, if_true, f1, f3, f4 _ hp, hbim]
    by_cases ha : (tage_lookup s pc).alternateBank < NUM_BANKS
    · simp only [ha, if_true, f4 _ ha]
      exact ⟨trivial, trivial⟩
    · simp only [ha, if_false]
      exact ⟨trivial, trivial⟩
  · have e : tage_predict s pc
        = ({ tage_lookup s pc with
              alternatePrediction := t_getBimodalPrediction (tage_lookup s pc) pc
              lastPrediction := t_getBimodalPrediction (tage_lookup s pc) pc },
            t_getBimodalPrediction (tage_lookup s pc) pc) := by
      unfold tage_predict
      simp only
      rw [if_neg hp]
    rw [e]
    simp only [hp, false_and, if_false, hbim]
    exact ⟨trivial, trivial⟩

theorem tage_predict_persist (s : State) (pc : Nat) :
    (tage_predict s pc).1.t_bimodalPredictor = s.t_bimodalPredictor ∧
    (tage_predict s pc).1.tageBank = s.tageBank ∧
    (tage_predict s pc).1.t_globalHistory = s.t_globalHistory ∧
    (tage_predict s pc).1.t_pathHistory = s.t_pathHistory ∧
    (tage_predict s pc).1.useAlternate = s.useAlternate ∧
    (tage_predict s pc).1.bpType = s.bpType ∧
    (tage_predict s pc).1.ghistoryBits = s.ghistoryBits ∧
    (tage_predict s pc).1.lhistoryBits = s.lhistoryBits ∧
    (tage_predict s pc).1.pcIndexBits = s.pcIndexBits := by
  unfold tage_predict
  simp only
  split_ifs <;> simp [tage_lookup, tage_candidates]

theorem tagMatch_agree (s t : State) (pc i : Nat) (hc : SameCustom s t) (hi : i < NUM_BANKS) :
    tagMatch s pc i ↔ tagMatch t pc i := by
  obtain ⟨-, c2, -, c4, -⟩ := hc
  unfold tagMatch
  rw [← getGlobalIndex_agree s t pc i c2 c4 hi, ← generateGlobalEntryTag_agree s t pc i c2 hi,
    (c2 i hi).2.2.2.2 _ (getGlobalIndex_lt s pc i)]

theorem tage_lookup_same (s t : State) (pc : Nat) (hc : SameCustom s t) :
    (tage_lookup s pc).primaryBank = (tage_lookup t pc).primaryBank ∧
    (tage_lookup s pc).alternateBank = (tage_lookup t pc).alternateBank := by
  have hm := fun i hi => tagMatch_agree s t pc i hc hi
  obtain ⟨p1, p2, p3⟩ := tage_lookup_primary s pc
  obtain ⟨q1, q2, q3⟩ := tage_lookup_primary t pc
  have hprim : (tage_lookup s pc).primaryBank = (tage_lookup t pc).primaryBank := by
    by_cases hlt : (tage_lookup s pc).primaryBank < NUM_BANKS
    · exact (tage_lookup_primary_eq t pc _ hlt ((hm _ hlt).1 (p2 hlt))
        (fun j hj hmj => p3 j hj ((hm j (by omega)).2 hmj))).symm
    · have hs : (tage_lookup s pc).primaryBank = NUM_BANKS := by omega
      by_cases hlt2 : (tage_lookup t pc).primaryBank < NUM_BANKS
      · exact absurd ((hm _ hlt2).2 (q2 hlt2)) (p3 _ (by omega))
      · omega
  refine ⟨hprim, ?_⟩
  obtain ⟨a1, a2, a3⟩ := tage_lookup_alternate s pc
  by_cases hlt : (tage_lookup s pc).alternateBank < NUM_BANKS
  · obtain ⟨b1, b2⟩ := a2 hlt
    exact (tage_lookup_alternate_eq t pc _ hlt (by rw [← hprim]; exact b1) ((hm _ hlt).1 b2)
      (fun j h1 h2 hmj => a3 j (by rw [hprim]; exact h1) h2 ((hm j (by omega)).2 hmj))).symm
  · have hs : (tage_lookup s pc).alternateBank = NUM_BANKS := by omega
    rw [hs]
    exact (tage_lookup_alternate_none t pc
      (fun j h1 h2 hmj => a3 j (by rw [hprim]; exact h1) (by rw [hs]; exact h2)
        ((hm j h2).2 hmj))).symm

/-- Predicting at the same address in two Custom states that agree on the
persistent content gives the same prediction and the same cached fields. -/
theorem tage_predict_same (s t : State) (pc : Nat) (hc : SameCustom s t) :
    (tage_predict s pc).2 = (tage_predict t pc).2 ∧
    SameCustom (tage_predict s pc).1 (tage_predict t pc).1 ∧
    (tage_predict s pc).1.primaryBank = (tage_predict t pc).1.primaryBank ∧
    (tage_predict s pc).1.primaryBank ≤ NUM_BANKS ∧
    (∀ i, i < NUM_BANKS →
      (tage_predict s pc).1.bankGlobalIndex i = (tage_predict t pc).1.bankGlobalIndex i ∧
      (tage_predict s pc).1.bankGlobalIndex i < 1 <<< LEN_GLOBAL) ∧
    (tage_predict s pc).1.lastPrediction = (tage_predict t pc).1.lastPrediction ∧
    (tage_predict s pc).1.alternatePrediction = (tage_predict t pc).1.alternatePrediction := by
  obtain ⟨hprim, halt⟩ := tage_lookup_same s t pc hc
  obtain ⟨c1, c2, c3, c4, c5⟩ := hc
  obtain ⟨s1, s2, s3, s4, s5, -⟩ := tage_predict_persist s pc
  obtain ⟨t1, t2, t3, t4, t5, -⟩ := tage_predict_persist t pc
  obtain ⟨bs1, -, bs3, -, -, -, bs7⟩ := tage_predict_banks s pc
  obtain ⟨bt1, -, bt3, -, -, -, bt7⟩ := tage_predict_banks t pc
  obtain ⟨vs1, vs2⟩ := tage_predict_values s pc
  obtain ⟨vt1, vt2⟩ := tage_predict_values t pc
  have h7 : NUM_BANKS = 7 := rfl
  have hidx : ∀ i, i < NUM_BANKS → getGlobalIndex s pc i = getGlobalIndex t pc i :=
    fun i hi => getGlobalIndex_agree s t pc i c2 c4 hi
  have hent : ∀ i, i < NUM_BANKS →
      (s.tageBank i).entry (getGlobalIndex s pc i) = (t.tageBank i).entry (getGlobalIndex t pc i) := by
    intro i hi
    rw [← hidx i hi]
    exact (c2 i hi).2.2.2.2 _ (getGlobalIndex_lt s pc i)
  have hbim : t_getBimodalPrediction s pc = t_getBimodalPrediction t pc := by
    unfold t_getBimodalPrediction
    simp only
    rw [c1 _ (Nat.mod_lt _ (by decide))]
  have halt_eq : (tage_predict s pc).1.alternatePrediction
      = (tage_predict t pc).1.alternatePrediction := by
    rw [vs1, vt1, ← hprim, ← halt]
    by_cases hcnd : (tage_lookup s pc).primaryBank < NUM_BANKS ∧
        (tage_lookup s pc).alternateBank < NUM_BANKS
    · rw [if_pos hcnd, if_pos hcnd, hent _ hcnd.2]
    · rw [if_neg hcnd, if_neg hcnd, hbim]
  have hval : (tage_predict s pc).2 = (tage_predict t pc).2 := by
    rw [vs2, vt2, ← hprim, ← halt_eq, ← c5]
    by_cases hlt : (tage_lookup s pc).primaryBank < NUM_BANKS
    · rw [if_pos hlt, if_pos hlt, hent _ hlt]
    · rw [if_neg hlt, if_neg hlt, hbim]
  refine ⟨hval, ⟨?_, ?_, ?_, ?_, ?_⟩, ?_, ?_, ?_, ?_, halt_eq⟩
  · rw [s1, t1]; exact c1
  · rw [s2, t2]; exact c2
  · rw [s3, t3]; exact c3
  · rw [s4, t4]; exact c4
  · rw [s5, t5]; exact c5
  · rw [bs1, bt1]; exact hprim
  · rw [bs1]; exact (tage_lookup_primary s pc).1
  · intro i hi
    rw [bs3, bt3]
    simp only [tage_candidates, if_pos hi]
    exact ⟨hidx i hi, getGlobalIndex_lt s pc i⟩
  · rw [bs7, bt7]; exact hval

theorem tage_init_same (s0 t0 : State) : SameCustom (tage_init s0) (tage_init t0) := by
  refine ⟨?_, ?_, ?_, rfl, rfl⟩
  · intro i hi
    simp only [tage_init, if_pos hi]
  · intro i hi
    have h7 : i < 7 := hi
    rw [tage_init_bank s0 i h7, tage_init_bank t0 i h7]
    refine ⟨rfl, rfl, rfl, rfl, ?_⟩
    intro j hj
    simp only [initBank, if_pos hj]
  · intro i hi
    simp only [tage_init, if_pos hi]

theorem tage_train_config (s : State) (pc outcome : Nat) (env : Env) :
    (tage_train s pc outcome env).bpType = s.bpType ∧
    (tage_train s pc outcome env).ghistoryBits = s.ghistoryBits ∧
    (tage_train s pc outcome env).lhistoryBits = s.lhistoryBits ∧
    (tage_train s pc outcome env).pcIndexBits = s.pcIndexBits :=
  ⟨rfl, rfl, rfl, rfl⟩

theorem init_predictor_config (s : State) :
    (init_predictor s).bpType = s.bpType ∧ (init_predictor s).ghistoryBits = s.ghistoryBits ∧
    (init_predictor s).lhistoryBits = s.lhistoryBits ∧
    (init_predictor s).pcIndexBits = s.pcIndexBits := by
  unfold init_predictor
  split_ifs <;> exact ⟨rfl, rfl, rfl, rfl⟩

/-- Initialisation with the same configuration gives the same tables, whatever
the globals held before. -/
theorem init_predictor_same (s0 t0 : State)
    (h1 : s0.bpType = t0.bpType) (h2 : s0.ghistoryBits = t0.ghistoryBits)
    (h3 : s0.lhistoryBits = t0.lhistoryBits) (h4 : s0.pcIndexBits = t0.pcIndexBits) :
    SameTables (init_predictor s0) (init_predictor t0) := by
  obtain ⟨a1, a2, a3, a4⟩ := init_predictor_config s0
  obtain ⟨b1, b2, b3, b4⟩ := init_predictor_config t0
  refine ⟨by rw [a1, b1, h1], by rw [a2, b2, h2], by rw [a3, b3, h3], by rw [a4, b4, h4],
    ?_, ?_, ?_⟩
  · intro hk
    rw [a1] at hk
    have hk' : t0.bpType = GSHARE := h1 ▸ hk
    have es : init_predictor s0 = { s0 with ghistory_g := 0, bht_gshare := fun _ => WN } := by
      unfold init_predictor
      rw [if_neg (by rw [hk]; decide), if_pos hk]
    have et : init_predictor t0 = { t0 with ghistory_g := 0, bht_gshare := fun _ => WN } := by
      unfold init_predictor
      rw [if_neg (by rw [hk']; decide), if_pos hk']
    rw [es, et]
    exact ⟨rfl, rfl⟩
  · intro hk
    rw [a1] at hk
    have hk' : t0.bpType = TOURNAMENT := h1 ▸ hk
    have es : init_predictor s0 = tournament_init s0 := by
      unfold init_predictor
      rw [if_neg (by rw [hk]; decide), if_neg (by rw [hk]; decide), if_pos hk]
    have et : init_predictor t0 = tournament_init t0 := by
      unfold init_predictor
      rw [if_neg (by rw [hk']; decide), if_neg (by rw [hk']; decide), if_pos hk']
    rw [es, et]
    exact ⟨rfl, rfl, rfl, rfl, rfl⟩
  · intro hk
    rw [a1] at hk
    have hk' : t0.bpType = CUSTOM := h1 ▸ hk
    have es : init_predictor s0 = tage_init s0 := by
      unfold init_predictor
      rw [if_neg (by rw [hk]; decide), if_neg (by rw [hk]; decide),
        if_neg (by rw [hk]; decide), if_pos hk]
    have et : init_predictor t0 = tage_init t0 := by
      unfold init_predictor
      rw [if_neg (by rw [hk']; decide), if_neg (by rw [hk']; decide),
        if_neg (by rw [hk']; decide), if_pos hk']
    rw [es, et]
    exact tage_init_same s0 t0

/-- One predict-then-train pair on two states with the same tables gives the
same prediction and again the same tables. -/
theorem step_same (s t : State) (pc outcome : Nat) (env : Env) (h : SameTables s t) :
    (make_prediction s pc).2 = (make_prediction t pc).2 ∧
    SameTables (train_predictor (make_prediction s pc).1 pc outcome env)
      (train_predictor (make_prediction t pc).1 pc outcome env) := by
  obtain ⟨h1, h2, h3, h4, hg, ht, hc⟩ := h
  by_cases k0 : s.bpType = STATIC
  · have k0' : t.bpType = STATIC := h1 ▸ k0
    have e1 : make_prediction s pc = (s, TAKEN) := by unfold make_prediction; rw [if_pos k0]
    have e2 : make_prediction t pc = (t, TAKEN) := by unfold make_prediction; rw [if_pos k0']
    have e3 : train_predictor s pc outcome env = s := by unfold train_predictor; rw [if_pos k0]
    have e4 : train_predictor t pc outcome env = t := by unfold train_predictor; rw [if_pos k0']
    rw [e1, e2]
    simp only [e3, e4]
    exact ⟨trivial, h1, h2, h3, h4, hg, ht, hc⟩
  by_cases k1 : s.bpType = GSHARE
  · have k0' : ¬ t.bpType = STATIC := h1 ▸ k0
    have k1' : t.bpType = GSHARE := h1 ▸ k1
    obtain ⟨g1, g2⟩ := hg k1
    have e1 : make_prediction s pc = (s, gshare_predict s pc) := by
      unfold make_prediction; rw [if_neg k0, if_pos k1]
    have e2 : make_prediction t pc = (t, gshare_predict t pc) := by
      unfold make_prediction; rw [if_neg k0', if_pos k1']
    have e3 : train_predictor s pc outcome env = train_gshare s pc outcome := by
      unfold train_predictor; rw [if_neg k0, if_pos k1]
    have e4 : train_predictor t pc outcome env = train_gshare t pc outcome := by
      unfold train_predictor; rw [if_neg k0', if_pos k1']
    rw [e1, e2]
    simp only [e3, e4]
    refine ⟨?_, h1, h2, h3, h4, fun _ => ⟨?_, ?_⟩, fun hk => ?_, fun hk => ?_⟩
    · simp only [gshare_predict, gshare_index, h2, g1, g2]
    · simp only [train_gshare, gshare_index, h2, g1, g2]
    · simp only [train_gshare, gshare_index, h2, g1, g2]
    · exact absurd (k1.symm.trans hk) (by decide)
    · exact absurd (k1.symm.trans hk) (by decide)
  by_cases k2 : s.bpType = TOURNAMENT
  · have k0' : ¬ t.bpType = STATIC := h1 ▸ k0
    have k1' : ¬ t.bpType = GSHARE := h1 ▸ k1
    have k2' : t.bpType = TOURNAMENT := h1 ▸ k2
    obtain ⟨g1, g2, g3, g4, g5⟩ := ht k2
    have e1 : make_prediction s pc = get_tournament_prediction s pc := by
      unfold make_prediction; rw [if_neg k0, if_neg k1, if_pos k2]
    have e2 : make_prediction t pc = get_tournament_prediction t pc := by
      unfold make_prediction; rw [if_neg k0', if_neg k1', if_pos k2']
    have f1 : (get_tournament_prediction s pc).1.bpType = s.bpType := by
      simp only [get_tournament_prediction, get_global_prediction, get_local_prediction]
      split_ifs <;> rfl
    have f2 : (get_tournament_prediction t pc).1.bpType = t.bpType := by
      simp only [get_tournament_prediction, get_global_prediction, get_local_prediction]
      split_ifs <;> rfl
    have e3 : train_predictor (get_tournament_prediction s pc).1 pc outcome env
        = tournament_update (get_tournament_prediction s pc).1 pc outcome := by
      unfold train_predictor; rw [f1, if_neg k0, if_neg k1, if_pos k2]
    have e4 : train_predictor (get_tournament_prediction t pc).1 pc outcome env
        = tournament_update (get_tournament_prediction t pc).1 pc outcome := by
      unfold train_predictor; rw [f2, if_neg k0', if_neg k1', if_pos k2']
    rw [e1, e2, e3, e4]
    have hst : ∀ u : State, (get_tournament_prediction u pc).1
        = { u with
            globalOutcome := (get_global_prediction u pc).2
            localOutcome := (get_local_prediction u pc).2 } := by
      intro u
      simp only [get_tournament_prediction, get_global_prediction, get_local_prediction,
        local_index]
      split_ifs <;> rfl
    have hloc : (get_local_prediction s pc).2 = (get_local_prediction t pc).2 := by
      simp only [get_local_prediction, local_index, h3, h4, g1, g2]
    have hglo : (get_global_prediction s pc).2 = (get_global_prediction t pc).2 := by
      simp only [get_global_prediction, h2, g3, g5]
    have hpred : (get_tournament_prediction s pc).2 = (get_tournament_prediction t pc).2 := by
      have hv : ∀ u : State, (get_tournament_prediction u pc).2
          = if u.choicePT (u.globalhistory_t &&& maskOf u.ghistoryBits) = SN ∨
               u.choicePT (u.globalhistory_t &&& maskOf u.ghistoryBits) = WN
            then (get_global_prediction u pc).2 else (get_local_prediction u pc).2 := by
        intro u
        simp only [get_tournament_prediction, get_global_prediction, get_local_prediction,
          local_index]
        split_ifs <;> rfl
      rw [hv s, hv t, hloc, hglo, h2, g4, g5]
    refine ⟨hpred, ?_⟩
    rw [hst s, hst t, hloc, hglo]
    refine ⟨h1, h2, h3, h4, fun hk => ?_, fun _ => ⟨?_, ?_, ?_, ?_, ?_⟩, fun hk => ?_⟩
    · exact absurd (k2.symm.trans hk) (by decide)
    · simp only [tournament_update, local_index, h2, h3, h4, g1, g2, g3, g4, g5]
    · simp only [tournament_update, local_index, h2, h3, h4, g1, g2, g3, g4, g5]
    · simp only [tournament_update, local_index, h2, h3, h4, g1, g2, g3, g4, g5]
    · simp only [tournament_update, local_index, h2, h3, h4, g1, g2, g3, g4, g5]
    · simp only [tournament_update, local_index, h2, h3, h4, g1, g2, g3, g4, g5]
    · exact absurd (k2.symm.trans hk) (by decide)
  by_cases k3 : s.bpType = CUSTOM
  · have k0' : ¬ t.bpType = STATIC := h1 ▸ k0
    have k1' : ¬ t.bpType = GSHARE := h1 ▸ k1
    have k2' : ¬ t.bpType = TOURNAMENT := h1 ▸ k2
    have k3' : t.bpType = CUSTOM := h1 ▸ k3
    have e1 : make_prediction s pc = tage_predict s pc := by
      unfold make_prediction; rw [if_neg k0, if_neg k1, if_neg k2, if_pos k3]
    have e2 : make_prediction t pc = tage_predict t pc := by
      unfold make_prediction; rw [if_neg k0', if_neg k1', if_neg k2', if_pos k3']
    obtain ⟨-, -, -, -, -, ps6, ps7, ps8, ps9⟩ := tage_predict_persist s pc
    obtain ⟨-, -, -, -, -, pt6, pt7, pt8, pt9⟩ := tage_predict_persist t pc
    have e3 : train_predictor (tage_predict s pc).1 pc outcome env
        = tage_train (tage_predict s pc).1 pc outcome env := by
      unfold train_predictor; rw [ps6, if_neg k0, if_neg k1, if_neg k2, if_pos k3]
    have e4 : train_predictor (tage_predict t pc).1 pc outcome env
        = tage_train (tage_predict t pc).1 pc outcome env := by
      unfold train_predictor; rw [pt6, if_neg k0', if_neg k1', if_neg k2', if_pos k3']
    rw [e1, e2, e3, e4]
    obtain ⟨r1, r2, r3, r4, r5, r6, r7⟩ := tage_predict_same s t pc (hc k3)
    have hfin := tage_train_same (tage_predict s pc).1 (tage_predict t pc).1 pc outcome env
      r2 r3 r4 r5 r6 r7
    obtain ⟨a1, a2, a3, a4⟩ := tage_train_config (tage_predict s pc).1 pc outcome env
    obtain ⟨b1, b2, b3, b4⟩ := tage_train_config (tage_predict t pc).1 pc outcome env
    refine ⟨r1, ?_, ?_, ?_, ?_, fun hk => ?_, fun hk => ?_, fun _ => hfin⟩
    · rw [a1, b1, ps6, pt6]; exact h1
    · rw [a2, b2, ps7, pt7]; exact h2
    · rw [a3, b3, ps8, pt8]; exact h3
    · rw [a4, b4, ps9, pt9]; exact h4
    · rw [a1, ps6] at hk; exact absurd (k3.symm.trans hk) (by decide)
    · rw [a1, ps6] at hk; exact absurd (k3.symm.trans hk) (by decide)
  · have k0' : ¬ t.bpType = STATIC := h1 ▸ k0
    have k1' : ¬ t.bpType = GSHARE := h1 ▸ k1
    have k2' : ¬ t.bpType = TOURNAMENT := h1 ▸ k2
    have k3' : ¬ t.bpType = CUSTOM := h1 ▸ k3
    have e1 : make_prediction s pc = (s, NOTTAKEN) := by
      unfold make_prediction; rw [if_neg k0, if_neg k1, if_neg k2, if_neg k3]
    have e2 : make_prediction t pc = (t, NOTTAKEN) := by
      unfold make_prediction; rw [if_neg k0', if_neg k1', if_neg k2', if_neg k3']
    have e3 : train_predictor s pc outcome env = s := by
      unfold train_predictor; rw [if_neg k0, if_neg k1, if_neg k2, if_neg k3]
    have e4 : train_predictor t pc outcome env = t := by
      unfold train_predictor; rw [if_neg k0', if_neg k1', if_neg k2', if_neg k3']
    rw [e1, e2]
    simp only [e3, e4]
    exact ⟨trivial, h1, h2, h3, h4, hg, ht, hc⟩

theorem runTrace_same (trace : List (Nat × Nat × Env)) :
    ∀ s t : State, SameTables s t →
      (runTrace s trace).2 = (runTrace t trace).2 ∧
      SameTables (runTrace s trace).1 (runTrace t trace).1 := by
  induction trace with
  | nil => intro s t h; exact ⟨rfl, h⟩
  | cons x rest ih =>
    intro s t h
    obtain ⟨pc, outcome, env⟩ := x
    obtain ⟨p1, p2⟩ := step_same s t pc outcome env h
    obtain ⟨q1, q2⟩ := ih _ _ p2
    simp only [runTrace]
    exact ⟨by rw [p1, q1], q2⟩

theorem SameTables_refl (s : State) : SameTables s s :=
  ⟨rfl, rfl, rfl, rfl, fun _ => ⟨rfl, rfl⟩, fun _ => ⟨rfl, rfl, rfl, rfl, rfl⟩,
    fun _ => ⟨fun _ _ => rfl, fun _ _ => ⟨rfl, rfl, rfl, rfl, fun _ _ => rfl⟩,
      fun _ _ => rfl, rfl, rfl⟩⟩


theorem make_prediction_config (s : State) (pc : Nat) :
    (make_prediction s pc).1.bpType = s.bpType ∧
    (make_prediction s pc).1.ghistoryBits = s.ghistoryBits ∧
    (make_prediction s pc).1.lhistoryBits = s.lhistoryBits ∧
    (make_prediction s pc).1.pcIndexBits = s.pcIndexBits := by
  unfold make_prediction
  split_ifs
  · exact ⟨rfl, rfl, rfl, rfl⟩
  · exact ⟨rfl, rfl, rfl, rfl⟩
  · simp only [get_tournament_prediction, get_global_prediction, get_local_prediction]
    split_ifs <;> exact ⟨rfl, rfl, rfl, rfl⟩
  · obtain ⟨-, -, -, -, -, p6, p7, p8, p9⟩ := tage_predict_persist s pc
    exact ⟨p6, p7, p8, p9⟩
  · exact ⟨rfl, rfl, rfl, rfl⟩

theorem train_predictor_config (s : State) (pc outcome : Nat) (env : Env) :
    (train_predictor s pc outcome env).bpType = s.bpType ∧
    (train_predictor s pc outcome env).ghistoryBits = s.ghistoryBits ∧
    (train_predictor s pc outcome env).lhistoryBits = s.lhistoryBits ∧
    (train_predictor s pc outcome env).pcIndexBits = s.pcIndexBits := by
  unfold train_predictor
  split_ifs <;> exact ⟨rfl, rfl, rfl, rfl⟩

theorem runTrace_config (trace : List (Nat × Nat × Env)) :
    ∀ s : State,
      (runTrace s trace).1.bpType = s.bpType ∧
      (runTrace s trace).1.ghistoryBits = s.ghistoryBits ∧
      (runTrace s trace).1.lhistoryBits = s.lhistoryBits ∧
      (runTrace s trace).1.pcIndexBits = s.pcIndexBits := by
  induction trace with
  | nil => intro s; exact ⟨rfl, rfl, rfl, rfl⟩
  | cons x rest ih =>
    intro s
    obtain ⟨pc, outcome, env⟩ := x
    simp only [runTrace]
    obtain ⟨a1, a2, a3, a4⟩ := ih (train_predictor (make_prediction s pc).1 pc outcome env)
    obtain ⟨b1, b2, b3, b4⟩ := train_predictor_config (make_prediction s pc).1 pc outcome env
    obtain ⟨c1, c2, c3, c4⟩ := make_prediction_config s pc
    exact ⟨a1.trans (b1.trans c1), a2.trans (b2.trans c2), a3.trans (b3.trans c3),
      a4.trans (b4.trans c4)⟩

/-- C13: for every predictor kind and configuration, every trace of
`(address, outcome)` pairs and every fixed sequence of environment values (the
values returned by `rand()` and the values of the reads that C leaves
unspecified), running `init_predictor` and then predict/train for each pair gives
a prediction sequence and final table contents that do not depend on what the
globals held before `init_predictor`: two runs from prior states `s0`, `t0` with
the same configuration agree.  In particular the run replayed after
reinitialising from the final state of the first run gives the same predictions
and the same final tables. -/
theorem round_trip_stability (s0 t0 : State) (trace : List (Nat × Nat × Env))
    (h1 : s0.bpType = t0.bpType) (h2 : s0.ghistoryBits = t0.ghistoryBits)
    (h3 : s0.lhistoryBits = t0.lhistoryBits) (h4 : s0.pcIndexBits = t0.pcIndexBits) :
    (runTrace (init_predictor s0) trace).2 = (runTrace (init_predictor t0) trace).2 ∧
    SameTables (runTrace (init_predictor s0) trace).1 (runTrace (init_predictor t0) trace).1 ∧
    (runTrace (init_predictor (runTrace (init_predictor s0) trace).1) trace).2
      = (runTrace (init_predictor s0) trace).2 ∧
    SameTables (runTrace (init_predictor (runTrace (init_predictor s0) trace).1) trace).1
      (runTrace (init_predictor s0) trace).1 := by
  obtain ⟨r1, r2⟩ := runTrace_same trace _ _ (init_predictor_same s0 t0 h1 h2 h3 h4)
  obtain ⟨a1, a2, a3, a4⟩ := runTrace_config trace (init_predictor s0)
  obtain ⟨b1, b2, b3, b4⟩ := init_predictor_config s0
  obtain ⟨q1, q2⟩ := runTrace_same trace _ _
    (init_predictor_same (runTrace (init_predictor s0) trace).1 s0
      (a1.trans b1) (a2.trans b2) (a3.trans b3) (a4.trans b4))
  exact ⟨r1, r2, q1, q2⟩

/-- Witness of C13: the Custom predictor started once from the zeroed globals
and once from the globals of `agingExample`, on a trace of two branches with
`rand()` returning 5 and 2. -/
theorem round_trip_stability_witness :
    (runTrace (init_predictor (startState CUSTOM 0 0 0))
        [(1, TAKEN, ⟨5, fun _ _ => 0⟩), (1, NOTTAKEN, ⟨2, fun _ _ => 0⟩)]).2
      = (runTrace (init_predictor agingExample)
        [(1, TAKEN, ⟨5, fun _ _ => 0⟩), (1, NOTTAKEN, ⟨2, fun _ _ => 0⟩)]).2 ∧
    (runTrace (init_predictor
        (runTrace (init_predictor (startState CUSTOM 0 0 0))
          [(1, TAKEN, ⟨5, fun _ _ => 0⟩), (1, NOTTAKEN, ⟨2, fun _ _ => 0⟩)]).1)
        [(1, TAKEN, ⟨5, fun _ _ => 0⟩), (1, NOTTAKEN, ⟨2, fun _ _ => 0⟩)]).2
      = (runTrace (init_predictor (startState CUSTOM 0 0 0))
        [(1, TAKEN, ⟨5, fun _ _ => 0⟩), (1, NOTTAKEN, ⟨2, fun _ _ => 0⟩)]).2 :=
  ⟨(round_trip_stability (startState CUSTOM 0 0 0) agingExample
      [(1, TAKEN, ⟨5, fun _ _ => 0⟩), (1, NOTTAKEN, ⟨2, fun _ _ => 0⟩)] rfl rfl rfl rfl).1,
    (round_trip_stability (startState CUSTOM 0 0 0) agingExample
      [(1, TAKEN, ⟨5, fun _ _ => 0⟩), (1, NOTTAKEN, ⟨2, fun _ _ => 0⟩)] rfl rfl rfl rfl).2.2.1⟩

/-! ## Compressed registers inside `tage_train` -/

/-- Link with the program: `tage_train` replaces the global history by
`historyStep` of it and each of the three registers of every bank by
`t_updateCompressed` of it on the new history; the steps before leave the
registers alone.  This is one step of `registerRun`. -/
theorem tage_train_registers (s : State) (pc outcome : Nat) (env : Env) (i : Nat)
    (hi : i < NUM_BANKS) :
    (tage_train s pc outcome env).t_globalHistory = historyStep s.t_globalHistory outcome ∧
    ((tage_train s pc outcome env).tageBank i).indexCompressed
      = t_updateCompressed (s.tageBank i).indexCompressed
          (historyStep s.t_globalHistory outcome) (env.undef i 0) ∧
    ((tage_train s pc outcome env).tageBank i).tagCompressed0
      = t_updateCompressed (s.tageBank i).tagCompressed0
          (historyStep s.t_globalHistory outcome) (env.undef i 1) ∧
    ((tage_train s pc outcome env).tageBank i).tagCompressed1
      = t_updateCompressed (s.tageBank i).tagCompressed1
          (historyStep s.t_globalHistory outcome) (env.undef i 2) := by
  have hA : (trainAllocate s pc outcome env.rand i).indexCompressed
        = (s.tageBank i).indexCompressed ∧
      (trainAllocate s pc outcome env.rand i).tagCompressed0 = (s.tageBank i).tagCompressed0 ∧
      (trainAllocate s pc outcome env.rand i).tagCompressed1 = (s.tageBank i).tagCompressed1 := by
    unfold trainAllocate
    by_cases hn : needAllocate s outcome = true
    · rw [if_pos hn]
      unfold allocate
      simp only
      by_cases hm : minUseLoop s.tageBank s.bankGlobalIndex s.primaryBank > 0
      · rw [if_pos hm]
        obtain ⟨-, d2, d3, d4⟩ := decayLoop_regs s.bankGlobalIndex s.primaryBank s.tageBank i
        exact ⟨d2, d3, d4⟩
      · rw [if_neg hm]
        obtain ⟨-, d2, d3, d4⟩ := allocLoop_regs s pc outcome
          (minUseLoop s.tageBank s.bankGlobalIndex s.primaryBank)
          ((match s.primaryBank with
            | 0 => (-1 : Int)
            | p + 1 => bankWalk p (env.rand &&& ((1 <<< (s.primaryBank - 1)) - 1))) + 1).toNat i
        exact ⟨d2, d3, d4⟩
    · rw [if_neg hn]
      exact ⟨rfl, rfl, rfl⟩
  have hC : ∀ banks : Nat → Bank,
      (trainCounter s outcome banks i).indexCompressed = (banks i).indexCompressed ∧
      (trainCounter s outcome banks i).tagCompressed0 = (banks i).tagCompressed0 ∧
      (trainCounter s outcome banks i).tagCompressed1 = (banks i).tagCompressed1 := by
    intro banks
    unfold trainCounter
    split_ifs
    · obtain ⟨-, d2, d3, d4⟩ := modifyEntry_regs banks s.primaryBank
        (s.bankGlobalIndex s.primaryBank) (fun e =>
          { e with saturateCounter := updateSaturate e.saturateCounter outcome LEN_COUNTS }) i
      exact ⟨d2, d3, d4⟩
    · exact ⟨rfl, rfl, rfl⟩
  have hU : ∀ banks : Nat → Bank,
      (trainUseful s outcome banks i).indexCompressed = (banks i).indexCompressed ∧
      (trainUseful s outcome banks i).tagCompressed0 = (banks i).tagCompressed0 ∧
      (trainUseful s outcome banks i).tagCompressed1 = (banks i).tagCompressed1 := by
    intro banks
    unfold trainUseful
    by_cases hd : s.lastPrediction ≠ s.alternatePrediction
    · rw [if_pos hd]
      by_cases hp : s.primaryBank < NUM_BANKS
      · rw [if_pos hp]
        exact ⟨(modifyEntry_regs banks _ _ _ i).2.1, (modifyEntry_regs banks _ _ _ i).2.2.1,
          (modifyEntry_regs banks _ _ _ i).2.2.2⟩
      · rw [if_neg hp]
        exact ⟨rfl, rfl, rfl⟩
    · rw [if_neg hd]
      exact ⟨rfl, rfl, rfl⟩
  obtain ⟨u1, u2, u3⟩ := hU (trainCounter s outcome (trainAllocate s pc outcome env.rand))
  obtain ⟨c1, c2, c3⟩ := hC (trainAllocate s pc outcome env.rand)
  obtain ⟨a1, a2, a3⟩ := hA
  refine ⟨rfl, ?_, ?_, ?_⟩
  · show (trainCompressed _ _ env i).indexCompressed = _
    simp only [trainCompressed, if_pos hi, u1, c1, a1]
    rfl
  · show (trainCompressed _ _ env i).tagCompressed0 = _
    simp only [trainCompressed, if_pos hi, u2, c2, a2]
    rfl
  · show (trainCompressed _ _ env i).tagCompressed1 = _
    simp only [trainCompressed, if_pos hi, u3, c3, a3]
    rfl

/-! ## Initial bias of the bimodal table -/

/-- C21 at its failing input: after `tage_init` every bimodal counter holds
`(1 << (LEN_BIMODAL - 1)) - 1 = 1`, below the threshold 2 of
`t_getBimodalPrediction`, so the bimodal prediction is NOTTAKEN for every
address, not TAKEN; the same holds through `init_predictor` with the Custom
kind. -/
theorem bimodal_initial_not_taken (s0 : State) (pc : Nat) :
    (tage_init s0).t_bimodalPredictor (pc % BIMODAL_SIZE) = 1 ∧
    t_getBimodalPrediction (tage_init s0) pc = NOTTAKEN ∧
    t_getBimodalPrediction (tage_init s0) pc ≠ TAKEN ∧
    (s0.bpType = CUSTOM → t_getBimodalPrediction (init_predictor s0) pc = NOTTAKEN) := by
  have hlt : pc % BIMODAL_SIZE < BIMODAL_SIZE := Nat.mod_lt _ (by decide)
  have h1 : (tage_init s0).t_bimodalPredictor (pc % BIMODAL_SIZE) = 1 := by
    simp only [tage_init, if_pos hlt]
    decide
  have h2 : t_getBimodalPrediction (tage_init s0) pc = NOTTAKEN := by
    unfold t_getBimodalPrediction
    simp only
    rw [h1, if_neg (by decide)]
  refine ⟨h1, h2, by rw [h2]; decide, ?_⟩
  intro hk
  have e : init_predictor s0 = tage_init s0 := by
    unfold init_predictor
    rw [if_neg (by rw [hk]; decide), if_neg (by rw [hk]; decide),
      if_neg (by rw [hk]; decide), if_pos hk]
  rw [e]
  exact h2

/-! ## The use-alternate counter -/

theorem make_prediction_useAlternate (s : State) (pc : Nat) :
    (make_prediction s pc).1.useAlternate = s.useAlternate := by
  unfold make_prediction
  split_ifs
  · rfl
  · rfl
  · simp only [get_tournament_prediction, get_global_prediction, get_local_prediction]
    split_ifs <;> rfl
  · exact (tage_predict_persist s pc).2.2.2.2.1
  · rfl

theorem train_predictor_useAlternate (s : State) (pc outcome : Nat) (env : Env) :
    (train_predictor s pc outcome env).useAlternate = s.useAlternate := by
  unfold train_predictor
  split_ifs <;> rfl

theorem reachable_useAlternate (s : State) (h : Reachable s) :
    s.bpType = CUSTOM → s.useAlternate = 8 := by
  induction h with
  | init s0 =>
    intro hk
    rw [(init_predictor_config s0).1] at hk
    have e : init_predictor s0 = tage_init s0 := by
      unfold init_predictor
      rw [if_neg (by rw [hk]; decide), if_neg (by rw [hk]; decide),
        if_neg (by rw [hk]; decide), if_pos hk]
    rw [e]
    rfl
  | predict s pc _ _ ih =>
    intro hk
    rw [(make_prediction_config s pc).1] at hk
    rw [make_prediction_useAlternate]
    exact ih hk
  | train s pc outcome env _ _ _ ih =>
    intro hk
    rw [(train_predictor_config s pc outcome env).1] at hk
    rw [train_predictor_useAlternate]
    exact ih hk

/-- C22: in every state reachable with the Custom kind `useAlternate` is 8, the
value `tage_init` gives it; no `make_prediction` and no `train_predictor` call
changes it; so the test `useAlternate < 8` is false, and whenever the primary
entry (bank `p`, the lowest matching bank) has counter 0 or -1 and usefulness
0, `tage_predict` returns the alternate prediction: the sign of the counter of
the alternate bank if there is one, the bimodal prediction otherwise. -/
theorem use_alternate_constant (s : State) (h : Reachable s) (hk : s.bpType = CUSTOM) :
    s.useAlternate = 8 ∧ ¬ s.useAlternate < 8 ∧
    (∀ pc, (make_prediction s pc).1.useAlternate = 8) ∧
    (∀ pc outcome env, (train_predictor s pc outcome env).useAlternate = 8) ∧
    (∀ pc p, p < 7 → tagMatch s pc p → (∀ j, j < p → ¬ tagMatch s pc j) →
      (((s.tageBank p).entry (getGlobalIndex s pc p)).saturateCounter = 0 ∨
        ((s.tageBank p).entry (getGlobalIndex s pc p)).saturateCounter = -1) →
      ((s.tageBank p).entry (getGlobalIndex s pc p)).usefulness = 0 →
      (tage_predict s pc).2 = (tage_predict s pc).1.alternatePrediction ∧
      (tage_predict s pc).1.alternatePrediction
        = (if (tage_predict s pc).1.alternateBank < 7 then
            (if 0 ≤ ((s.tageBank (tage_predict s pc).1.alternateBank).entry
                (getGlobalIndex s pc (tage_predict s pc).1.alternateBank)).saturateCounter
             then TAKEN else NOTTAKEN)
           else t_getBimodalPrediction s pc)) := by
  have h8 : s.useAlternate = 8 := reachable_useAlternate s h hk
  have h7 : NUM_BANKS = 7 := rfl
  refine ⟨h8, by rw [h8]; decide, ?_, ?_, ?_⟩
  · intro pc
    rw [make_prediction_useAlternate, h8]
  · intro pc outcome env
    rw [train_predictor_useAlternate, h8]
  · intro pc p hp hm hlow hctr hu
    have hpe : (tage_lookup s pc).primaryBank = p :=
      tage_lookup_primary_eq s pc p (by rw [h7]; exact hp) hm hlow
    have hplt : (tage_lookup s pc).primaryBank < NUM_BANKS := by rw [hpe, h7]; exact hp
    obtain ⟨v1, v2⟩ := tage_predict_values s pc
    have hcond : ¬ ((((s.tageBank (tage_lookup s pc).primaryBank).entry
          (getGlobalIndex s pc (tage_lookup s pc).primaryBank)).saturateCounter ≠ 0 ∧
        ((s.tageBank (tage_lookup s pc).primaryBank).entry
          (getGlobalIndex s pc (tage_lookup s pc).primaryBank)).saturateCounter ≠ -1) ∨
        ((s.tageBank (tage_lookup s pc).primaryBank).entry
          (getGlobalIndex s pc (tage_lookup s pc).primaryBank)).usefulness ≠ 0 ∨
        s.useAlternate < 8) := by
      rw [hpe, h8, hu]
      intro hc
      rcases hc with ⟨c1, c2⟩ | c3 | c4
      · rcases hctr with h0 | h1
        · exact c1 h0
        · exact c2 h1
      · exact c3 rfl
      · exact absurd c4 (by decide)
    constructor
    · rw [v2, if_pos hplt, if_neg hcond]
    · rw [v1, (tage_predict_banks s pc).2.1]
      by_cases ha : (tage_lookup s pc).alternateBank < NUM_BANKS
      · rw [if_pos ⟨hplt, ha⟩, if_pos (by rw [h7] at ha; exact ha)]
        rfl
      · rw [if_neg (fun hc => ha hc.2), if_neg (by rw [h7] at ha; exact ha)]

/-- Witness of C22: the freshly initialised Custom predictor (a reachable
state) at address 0.  Bank 0 is the primary bank with counter 0 and usefulness
0; the prediction is the alternate one, the sign of the zero counter of bank 1,
TAKEN. -/
theorem use_alternate_constant_witness :
    (init_predictor (startState CUSTOM 0 0 0)).useAlternate = 8 ∧
    tagMatch (init_predictor (startState CUSTOM 0 0 0)) 0 0 ∧
    (tage_predict (init_predictor (startState CUSTOM 0 0 0)) 0).1.alternateBank = 1 ∧
    (tage_predict (init_predictor (startState CUSTOM 0 0 0)) 0).2 = TAKEN := by
  have h := use_alternate_constant (init_predictor (startState CUSTOM 0 0 0))
    (Reachable.init _) rfl
  have h0 := h.2.2.2.2 0 0 (by decide) (by decide)
    (fun j hj => absurd hj (Nat.not_lt_zero j)) (Or.inl (by decide)) (by decide)
  refine ⟨h.1, by decide, by decide, ?_⟩
  rw [h0.1, h0.2]
  decide

/-! ## Lookup on freshly initialised tables -/

theorem tage_init_entry (s0 : State) (i j : Nat) (hi : i < 7) (hj : j < 1 <<< LEN_GLOBAL) :
    ((tage_init s0).tageBank i).entry j = { saturateCounter := 0, tag := 0, usefulness := 0 } := by
  rw [tage_init_bank s0 i hi]
  simp only [initBank, if_pos hj]

theorem tagBits_range (i : Nat) (hi : i < 7) : 7 ≤ tagBits i ∧ tagBits i ≤ 10 := by
  interval_cases i <;> decide

theorem generateGlobalEntryTag_init (s0 : State) (pc i : Nat) (hi : i < 7) :
    generateGlobalEntryTag (tage_init s0) pc i = pc % 2 ^ tagBits i := by
  obtain ⟨b7, b10⟩ := tagBits_range i hi
  have hr := initBank_registers (s0.tageBank i) i
  unfold generateGlobalEntryTag
  simp only
  rw [tage_init_bank s0 i hi, hr.2.2.1, hr.2.2.2]
  simp only [Nat.zero_shiftLeft, Nat.zero_mod, Nat.xor_zero, Nat.one_shiftLeft,
    Nat.and_pow_two_sub_one_eq_mod]
  apply Nat.mod_eq_of_lt
  have h1 : pc % 2 ^ tagBits i < 2 ^ tagBits i := Nat.mod_lt _ (Nat.two_pow_pos _)
  have h2 : 2 ^ tagBits i ≤ 2 ^ 10 := Nat.pow_le_pow_right (by decide) b10
  have h3 : (2 : Nat) ^ 10 < 2 ^ 16 := by decide
  omega

/-- On freshly initialised tables bank `i` matches an address exactly when the
low `tagBits i` bits of the address are zero. -/
theorem tagMatch_init (s0 : State) (pc i : Nat) (hi : i < 7) :
    tagMatch (tage_init s0) pc i ↔ pc % 2 ^ tagBits i = 0 := by
  unfold tagMatch
  rw [tage_init_entry s0 i _ hi (getGlobalIndex_lt _ pc i), generateGlobalEntryTag_init s0 pc i hi]
  constructor
  · intro h; exact h.symm
  · intro h; exact h.symm

theorem mod_two_pow_of_mod_128 (pc b : Nat) (hb : 7 ≤ b) (h : pc % 2 ^ b = 0) :
    pc % 128 = 0 := by
  have hd : (128 : Nat) ∣ 2 ^ b := by
    have : (128 : Nat) = 2 ^ 7 := by decide
    rw [this]
    exact Nat.pow_dvd_pow 2 hb
  have := Nat.mod_mod_of_dvd pc hd
  rw [h] at this
  simpa using this.symm

/-- C23 as stated fails: on the freshly initialised Custom tables address 0
matches bank 0 (stored tag 0, candidate tag 0), so the primary bank is bank 0
and not none (7); address 128 matches bank 5. -/
theorem fresh_tables_counterexample :
    tagMatch (init_predictor (startState CUSTOM 0 0 0)) 0 0 ∧
    (tage_predict (init_predictor (startState CUSTOM 0 0 0)) 0).1.primaryBank = 0 ∧
    (tage_predict (init_predictor (startState CUSTOM 0 0 0)) 0).1.primaryBank ≠ 7 ∧
    (tage_predict (init_predictor (startState CUSTOM 0 0 0)) 128).1.primaryBank = 5 := by
  decide

/-- C23 amended: immediately after Custom initialisation bank `i` matches an
address exactly when the low `tagBits i` bits of the address are zero (10, 9,
9, 8, 8, 7, 7 bits for the banks 0..6).  For every address that is not a
multiple of 128 `tage_predict` finds no matching bank (primary bank 7) and
returns the bimodal prediction.  For a multiple of 128 there is a primary and
an alternate bank, and the prediction is TAKEN, the sign of the zero counter of
the alternate bank. -/
theorem fresh_tables_lookup (s0 : State) (pc : Nat) (hk : s0.bpType = CUSTOM) :
    (∀ i, i < 7 → (tagMatch (init_predictor s0) pc i ↔ pc % 2 ^ tagBits i = 0)) ∧
    (pc % 128 ≠ 0 →
      (tage_predict (init_predictor s0) pc).1.primaryBank = 7 ∧
      (tage_predict (init_predictor s0) pc).2 = t_getBimodalPrediction (init_predictor s0) pc) ∧
    (pc % 128 = 0 →
      (tage_predict (init_predictor s0) pc).1.primaryBank < 7 ∧
      (tage_predict (init_predictor s0) pc).1.alternateBank < 7 ∧
      (tage_predict (init_predictor s0) pc).2 = TAKEN) := by
  have e : init_predictor s0 = tage_init s0 := by
    unfold init_predictor
    rw [if_neg (by rw [hk]; decide), if_neg (by rw [hk]; decide),
      if_neg (by rw [hk]; decide), if_pos hk]
  rw [e]
  have h7 : NUM_BANKS = 7 := rfl
  have hm := fun i hi => tagMatch_init s0 pc i hi
  obtain ⟨p1, p2, p3⟩ := tage_lookup_primary (tage_init s0) pc
  obtain ⟨a1, a2, a3⟩ := tage_lookup_alternate (tage_init s0) pc
  obtain ⟨v1, v2⟩ := tage_predict_values (tage_init s0) pc
  obtain ⟨b1, b2, -⟩ := tage_predict_banks (tage_init s0) pc
  refine ⟨hm, ?_, ?_⟩
  · intro hne
    have hno : ∀ i, i < 7 → ¬ tagMatch (tage_init s0) pc i := by
      intro i hi hmi
      exact hne (mod_two_pow_of_mod_128 pc _ (tagBits_range i hi).1 ((hm i hi).1 hmi))
    have hp : (tage_lookup (tage_init s0) pc).primaryBank = 7 := by
      rcases Nat.lt_or_ge (tage_lookup (tage_init s0) pc).primaryBank 7 with hlt | hge
      · exact absurd (p2 (by rw [h7]; exact hlt)) (hno _ hlt)
      · rw [h7] at p1; omega
    refine ⟨by rw [b1]; exact hp, ?_⟩
    rw [v2, if_neg (by rw [hp, h7]; exact lt_irrefl _)]
  · intro h0
    have m5 : tagMatch (tage_init s0) pc 5 := (hm 5 (by decide)).2 (by
      have : tagBits 5 = 7 := by decide
      rw [this]; exact h0)
    have m6 : tagMatch (tage_init s0) pc 6 := (hm 6 (by decide)).2 (by
      have : tagBits 6 = 7 := by decide
      rw [this]; exact h0)
    have hp5 : (tage_lookup (tage_init s0) pc).primaryBank ≤ 5 := by
      by_contra hc
      exact p3 5 (by omega) m5
    have ha6 : (tage_lookup (tage_init s0) pc).alternateBank ≤ 6 := by
      by_contra hc
      exact a3 6 (by omega) (by omega) m6
    have hplt : (tage_lookup (tage_init s0) pc).primaryBank < NUM_BANKS := by rw [h7]; omega
    have halt : (tage_lookup (tage_init s0) pc).alternateBank < NUM_BANKS := by rw [h7]; omega
    have hpe := tage_init_entry s0 _ _ (show (tage_lookup (tage_init s0) pc).primaryBank < 7 by omega)
      (getGlobalIndex_lt (tage_init s0) pc (tage_lookup (tage_init s0) pc).primaryBank)
    have hae := tage_init_entry s0 _ _ (show (tage_lookup (tage_init s0) pc).alternateBank < 7 by omega)
      (getGlobalIndex_lt (tage_init s0) pc (tage_lookup (tage_init s0) pc).alternateBank)
    have hua : (tage_init s0).useAlternate = 8 := rfl
    have hav : (tage_predict (tage_init s0) pc).1.alternatePrediction = TAKEN := by
      rw [v1, if_pos ⟨hplt, halt⟩, hae]
      rfl
    refine ⟨by rw [b1]; omega, by rw [b2]; omega, ?_⟩
    rw [v2, if_pos hplt, hpe, hua, hav]
    rfl

/-- Witness of the amended C23: the Custom predictor initialised from the
zeroed globals; address 1 matches no bank, address 256 has primary bank 3 and
is predicted TAKEN. -/
theorem fresh_tables_lookup_witness :
    (tage_predict (init_predictor (startState CUSTOM 0 0 0)) 1).1.primaryBank = 7 ∧
    (tage_predict (init_predictor (startState CUSTOM 0 0 0)) 256).1.primaryBank = 3 ∧
    (tage_predict (init_predictor (startState CUSTOM 0 0 0)) 256).2 = TAKEN :=
  ⟨((fresh_tables_lookup (startState CUSTOM 0 0 0) 1 rfl).2.1 (by decide)).1, by decide,
    ((fresh_tables_lookup (startState CUSTOM 0 0 0) 256 rfl).2.2 (by decide)).2.2⟩

/-! ## The index register of bank 0 against the fold -/

/-- One update of a register whose length field holds -126 and whose width is
9, on a history with a 1 at position 0 and with the value 0 for the read
outside the array: the register is shifted, the new bit added and the result
folded; no old bit is removed. -/
theorem t_updateCompressed_wrapped (c : Nat) (hist : Nat → Nat) (h0 : hist 0 = 1) :
    t_updateCompressed { compressed := c, geometryLength := -126, targetLength := 9 } hist 0
      = { compressed :=
            ((((c <<< 1) + 1) % 2 ^ 32) ^^^ ((((c <<< 1) + 1) % 2 ^ 32) >>> 9)) &&& 511,
          geometryLength := -126, targetLength := 9 } := by
  unfold t_updateCompressed
  simp only [h0]
  rw [if_neg (by decide)]
  simp only [Nat.zero_mod, Nat.xor_zero]
  rfl

theorem runTrace_bank0_register :
    ∀ (steps : List (Nat × Nat × Env)) (s : State) (k : Nat),
      s.bpType = CUSTOM →
      (∀ x, x ∈ steps → x.2.1 = TAKEN ∧ x.2.2.undef 0 0 = 0) →
      (s.tageBank 0).indexCompressed
        = { compressed :=
              Nat.iterate (fun c : Nat =>
                ((((c <<< 1) + 1) % 2 ^ 32) ^^^ ((((c <<< 1) + 1) % 2 ^ 32) >>> 9)) &&& 511) k 0,
            geometryLength := -126, targetLength := 9 } →
      (∀ j, j < MAX_HISTORY_LEN → s.t_globalHistory j = if j < k then 1 else 0) →
      ((runTrace s steps).1.tageBank 0).indexCompressed
        = { compressed :=
              Nat.iterate (fun c : Nat =>
                ((((c <<< 1) + 1) % 2 ^ 32) ^^^ ((((c <<< 1) + 1) % 2 ^ 32) >>> 9)) &&& 511)
                (k + steps.length) 0,
            geometryLength := -126, targetLength := 9 } ∧
      (∀ j, j < MAX_HISTORY_LEN →
        (runTrace s steps).1.t_globalHistory j = if j < k + steps.length then 1 else 0) := by
  intro steps
  induction steps with
  | nil =>
    intro s k _ _ hr hh
    exact ⟨hr, hh⟩
  | cons x rest ih =>
    intro s k hk ht hr hh
    obtain ⟨pc, outcome, env⟩ := x
    obtain ⟨ho, hu⟩ := ht (pc, outcome, env) (List.mem_cons_self _ _)
    simp only at ho hu
    have h131 : MAX_HISTORY_LEN = 131 := rfl
    have hmk : (make_prediction s pc).1.bpType = CUSTOM := by
      rw [(make_prediction_config s pc).1]; exact hk
    have hme : make_prediction s pc = tage_predict s pc := by
      unfold make_prediction
      rw [if_neg (by rw [hk]; decide), if_neg (by rw [hk]; decide),
        if_neg (by rw [hk]; decide), if_pos hk]
    obtain ⟨-, pb, ph, -⟩ := tage_predict_persist s pc
    have hte : train_predictor (make_prediction s pc).1 pc outcome env
        = tage_train (make_prediction s pc).1 pc outcome env := by
      unfold train_predictor
      rw [if_neg (by rw [hmk]; decide), if_neg (by rw [hmk]; decide),
        if_neg (by rw [hmk]; decide), if_pos hmk]
    obtain ⟨t1, t2, -⟩ := tage_train_registers (make_prediction s pc).1 pc outcome env 0
      (by decide)
    have hs0 : historyStep s.t_globalHistory outcome 0 = 1 := by
      rw [(historyStep_apply _ _).1, ho]
      rfl
    have hk2 : (train_predictor (make_prediction s pc).1 pc outcome env).bpType = CUSTOM := by
      rw [(train_predictor_config _ pc outcome env).1]; exact hmk
    have hr2 : ((train_predictor (make_prediction s pc).1 pc outcome env).tageBank 0).indexCompressed
        = { compressed :=
              Nat.iterate (fun c : Nat =>
                ((((c <<< 1) + 1) % 2 ^ 32) ^^^ ((((c <<< 1) + 1) % 2 ^ 32) >>> 9)) &&& 511)
                (k + 1) 0,
            geometryLength := -126, targetLength := 9 } := by
      rw [hte, t2, hme, pb, ph, hr, hu, t_updateCompressed_wrapped _ _ hs0,
        Function.iterate_succ_apply']
    have hh2 : ∀ j, j < MAX_HISTORY_LEN →
        (train_predictor (make_prediction s pc).1 pc outcome env).t_globalHistory j
          = if j < k + 1 then 1 else 0 := by
      intro j hj
      rw [hte, t1, hme, ph]
      rcases Nat.eq_zero_or_pos j with hz | hp
      · rw [hz, hs0, if_pos (by omega)]
      · obtain ⟨j', rfl⟩ : ∃ j', j = j' + 1 := ⟨j - 1, by omega⟩
        rw [(historyStep_apply _ _).2.1 j' (by omega), hh j' (by omega)]
        by_cases hjk : j' < k
        · rw [if_pos hjk, if_pos (by omega)]
        · rw [if_neg hjk, if_neg (by omega)]
    have r := ih _ (k + 1) hk2 (fun y hy => ht y (List.mem_cons_of_mem _ hy)) hr2 hh2
    simp only [runTrace, List.length_cons]
    have e : k + (rest.length + 1) = k + 1 + rest.length := by omega
    simp only [e]
    exact r

set_option maxRecDepth 20000 in
theorem bank0_iterate_131 :
    Nat.iterate (fun c : Nat =>
      ((((c <<< 1) + 1) % 2 ^ 32) ^^^ ((((c <<< 1) + 1) % 2 ^ 32) >>> 9)) &&& 511) 131 0 = 31 := by
  decide

set_option maxRecDepth 20000 in
theorem foldHistory_130_ones : foldHistory 130 9 (fun _ => 1) = 15 := by
  decide



/-- C15 at its failing input: the Custom predictor is initialised and 131
branches are predicted and trained, all with outcome TAKEN, at any addresses;
the read of bank 0 outside the history array yields 0.  The index register of
bank 0 (history length 130, width 9, length field -126) then holds 31, while
the fold of the 130 most recent outcomes is 15: the oldest outcome was never
removed from the register. -/
theorem compressed_history_bank0_diverges (s0 : State) (steps : List (Nat × Nat × Env))
    (hk : s0.bpType = CUSTOM) (hn : steps.length = 131)
    (ht : ∀ x, x ∈ steps → x.2.1 = TAKEN ∧ x.2.2.undef 0 0 = 0) :
    ((runTrace (init_predictor s0) steps).1.tageBank 0).indexCompressed.geometryLength = -126 ∧
    ((runTrace (init_predictor s0) steps).1.tageBank 0).indexCompressed.targetLength = 9 ∧
    ((runTrace (init_predictor s0) steps).1.tageBank 0).indexCompressed.compressed = 31 ∧
    foldHistory 130 9 (runTrace (init_predictor s0) steps).1.t_globalHistory = 15 ∧
    ((runTrace (init_predictor s0) steps).1.tageBank 0).indexCompressed.compressed
      ≠ foldHistory 130 9 (runTrace (init_predictor s0) steps).1.t_globalHistory := by
  have e : init_predictor s0 = tage_init s0 := by
    unfold init_predictor
    rw [if_neg (by rw [hk]; decide), if_neg (by rw [hk]; decide),
      if_neg (by rw [hk]; decide), if_pos hk]
  have hk1 : (init_predictor s0).bpType = CUSTOM := by
    rw [(init_predictor_config s0).1]; exact hk
  have hr0 : ((init_predictor s0).tageBank 0).indexCompressed
      = { compressed :=
            Nat.iterate (fun c : Nat =>
              ((((c <<< 1) + 1) % 2 ^ 32) ^^^ ((((c <<< 1) + 1) % 2 ^ 32) >>> 9)) &&& 511) 0 0,
          geometryLength := -126, targetLength := 9 } := by
    rw [e, tage_init_bank s0 0 (by decide), (initBank_registers (s0.tageBank 0) 0).2.1]
    have hw : toInt8 ((GEOMETRICS 0 : Nat) : Int) = -126 := by decide
    rw [hw]
    rfl
  have hh0 : ∀ j, j < MAX_HISTORY_LEN →
      (init_predictor s0).t_globalHistory j = if j < 0 then 1 else 0 := by
    intro j hj
    rw [e, if_neg (Nat.not_lt_zero j)]
    simp only [tage_init, if_pos hj]
  obtain ⟨r1, r2⟩ := runTrace_bank0_register steps (init_predictor s0) 0 hk1 ht hr0 hh0
  rw [hn] at r1 r2
  have hc : ((runTrace (init_predictor s0) steps).1.tageBank 0).indexCompressed.compressed = 31 := by
    rw [r1]
    exact bank0_iterate_131
  have hf : foldHistory 130 9 (runTrace (init_predictor s0) steps).1.t_globalHistory = 15 := by
    rw [foldHistory_congr 9 _ (fun _ => 1) 130 (fun j hj => by
      rw [r2 j (by have h131 : MAX_HISTORY_LEN = 131 := rfl; omega), if_pos (by omega)])]
    exact foldHistory_130_ones
  refine ⟨by rw [r1], by rw [r1], hc, hf, ?_⟩
  rw [hc, hf]
  decide

/-- Witness of C15 at its failing input: from the zeroed globals, 131 taken
branches at address 0 with the value 0 for every read outside the array. -/
theorem compressed_history_bank0_diverges_witness :
    ((runTrace (init_predictor (startState CUSTOM 0 0 0))
        (List.replicate 131 (0, TAKEN, ⟨0, fun _ _ => 0⟩))).1.tageBank 0).indexCompressed.compressed
      = 31 ∧
    foldHistory 130 9
      (runTrace (init_predictor (startState CUSTOM 0 0 0))
        (List.replicate 131 (0, TAKEN, ⟨0, fun _ _ => 0⟩))).1.t_globalHistory = 15 :=
  ⟨(compressed_history_bank0_diverges (startState CUSTOM 0 0 0)
      (List.replicate 131 (0, TAKEN, ⟨0, fun _ _ => 0⟩)) rfl (List.length_replicate _ _)
      (fun x hx => by rw [List.eq_of_mem_replicate hx]; exact ⟨rfl, rfl⟩)).2.2.1,
   (compressed_history_bank0_diverges (startState CUSTOM 0 0 0)
      (List.replicate 131 (0, TAKEN, ⟨0, fun _ _ => 0⟩)) rfl (List.length_replicate _ _)
      (fun x hx => by rw [List.eq_of_mem_replicate hx]; exact ⟨rfl, rfl⟩)).2.2.2.1⟩

end Predictor
